import Mathlib

/-!
# clDNN: dispatch geometry, kernel validation, tuning cache and descriptor marshalling

A shallow embedding of selected functions of the clDNN sources:

* `kernel_selector/core/actual_kernels/roi_pooling/roi_pooling_kernel_ref.cpp`
* `kernel_selector/core/actual_kernels/convolution/convolution_kernel_bfyx_gemm_like.cpp`
* `src/gpu/engine_info.cpp`, `src/gpu/engine_info.h`
* `api/CPP/detection_output.hpp`

Conventions: `size_t`, `uint32_t` values are natural numbers, `int`, `int32_t` values are
integers, conversions between the two are written out with their modulus.  A C++ function
that can hit undefined behaviour or a failed assertion returns `Option`, `none` standing for
that fault.  Definitions come first, theorems follow.
-/

set_option autoImplicit false

/-! ## Definitions -/

namespace kernel_selector

/-- The `Datatype` enumeration of the kernel selector (`common_types.h`); the sources under
study only distinguish `F16` and `F32` from the rest. -/
inductive Datatype
  | INT8 | UINT8 | INT16 | UINT16 | INT32 | UINT32 | INT64 | F16 | F32
  deriving DecidableEq, Repr

/-- The priority constants stored in `effiency` / `estimatedTime` (`FORCE_PRIORITY_n`,
`DONT_USE_IF_HAVE_SOMETHING_ELSE`, ...), kept symbolic; `unset` is the value of a
default-constructed dispatch record. -/
inductive Priority
  | unset
  | FORCE_PRIORITY_1 | FORCE_PRIORITY_2 | FORCE_PRIORITY_3 | FORCE_PRIORITY_4
  | FORCE_PRIORITY_5 | FORCE_PRIORITY_6 | FORCE_PRIORITY_7 | FORCE_PRIORITY_8
  | FORCE_PRIORITY_9 | DONT_USE_IF_HAVE_SOMETHING_ELSE | NOT_SUPPORTED
  deriving DecidableEq, Repr

/-- `CommonDispatchData`: global and local work sizes in three dimensions, the fp16 flag and
the priority. -/
structure CommonDispatchData where
  gws0 : Nat
  gws1 : Nat
  gws2 : Nat
  lws0 : Nat
  lws1 : Nat
  lws2 : Nat
  fp16UnitUsed : Bool
  effiency : Priority
  deriving DecidableEq, Repr

/-- What `engine_info.cpp` and the kernels read of the engine information. -/
structure EngineInfo where
  bSubGroupShortSupport : Bool
  maxWorkGroupSize : Nat
  deriving DecidableEq, Repr

namespace ROIPoolingKernelRef

/-- The part of `roi_pooling_params` that `SetDefault` reads: the data type of `inputs[0]`
and `output.LogicalSize()`, the number of elements of the output tensor (a `size_t`). -/
structure roi_pooling_params where
  input0_DType : Datatype
  output_LogicalSize : Nat
  engineInfo : EngineInfo
  deriving DecidableEq, Repr

/-- The loop `while (kd.gws0 % kd.lws0 != 0) { --kd.lws0; }` started at `lws0`.
`none`: the loop would evaluate `gws0 % 0`. -/
def lwsLoop (gws0 : Nat) : Nat → Option Nat
  | 0 => none
  | lws0 + 1 => if gws0 % (lws0 + 1) != 0 then lwsLoop gws0 lws0 else some (lws0 + 1)

/-- `SetDefault(const roi_pooling_params&)` of `roi_pooling_kernel_ref.cpp`. -/
def SetDefault (params : roi_pooling_params) : Option CommonDispatchData :=
  let fp16UnitUsed := params.input0_DType == Datatype.F16
  let gws0 := params.output_LogicalSize
  let gws1 := 1
  let gws2 := 1
  match lwsLoop gws0 (min (max gws0 1) 32) with
  | none => none
  | some lws0 =>
    some { gws0 := gws0, gws1 := gws1, gws2 := gws2,
           lws0 := lws0, lws1 := 1, lws2 := 1,
           fp16UnitUsed := fp16UnitUsed, effiency := Priority.unset }

end ROIPoolingKernelRef

/-- Modelled from the spec: `CeilDiv` is declared in `common_tools.h`, which is not among the
sources; the geometry contract reads it as ceiling division. -/
def CeilDiv (a b : Nat) : Nat := (a + b - 1) / b

/-- Modelled from the spec: `RoundUp` is declared in `common_tools.h`, which is not among the
sources; the geometry contract reads `RoundUp(a, b)` as the least multiple of `b` that is
at least `a`. -/
def RoundUp (a b : Nat) : Nat := CeilDiv a b * b

namespace ConvolutionKernel_bfyx_GEMMLike

/-- `DispatchData::GEMMStyle` of the convolution kernel base, in the order of the brace
initialisers `{ subBlockDimM, subBlockDimK, subBlockDimN, globalWorkSizeDX,
globalWorkSizeDY, globalWorkSizeDZ }`. -/
structure GEMMStyle where
  subBlockDimM : Nat
  subBlockDimK : Nat
  subBlockDimN : Nat
  globalWorkSizeDX : Nat
  globalWorkSizeDY : Nat
  globalWorkSizeDZ : Nat
  deriving DecidableEq, Repr

/-- `ConvolutionKernelBase::DispatchData`: the common dispatch record and the GEMM block
description. -/
structure DispatchData extends CommonDispatchData where
  gemmStyle : GEMMStyle
  deriving DecidableEq, Repr

/-- The part of `convolution_params` read by this kernel: data type of `inputs[0]`,
`filterSize.x`, the output extents `X().v`, `Y().v`, `Feature().v`, `Batch().v` and the
engine information. -/
structure convolution_params where
  input0_DType : Datatype
  filterSize_x : Nat
  output_X : Nat
  output_Y : Nat
  output_Feature : Nat
  output_Batch : Nat
  engineInfo : EngineInfo
  deriving DecidableEq, Repr

/-- `ConvolutionKernel_bfyx_GEMMLike::SetDefault`.  `Parent_SetDefault` is
`ConvolutionKernelBase::SetDefault`, whose body is not among the sources: every field it
sets and this function does not overwrite is kept. -/
def SetDefault (Parent_SetDefault : convolution_params → Int → DispatchData)
    (arg : convolution_params) (autoTuneIndex : Int) : DispatchData :=
  let runInfo := Parent_SetDefault arg autoTuneIndex
  let runInfo := { runInfo with lws0 := 1, lws2 := 1 }
  let runInfo :=
    if arg.input0_DType = Datatype.F16 then
      { runInfo with
          gemmStyle := ⟨1, arg.filterSize_x, 32, 32, 1, 1⟩
          lws1 := 16
          effiency := Priority.FORCE_PRIORITY_6 }
    else
      { runInfo with
          gemmStyle := ⟨2, arg.filterSize_x, 32, 32, 2, 1⟩
          lws1 := 8
          effiency := Priority.FORCE_PRIORITY_8 }
  let sgemm_m := RoundUp (arg.output_X * arg.output_Y) runInfo.gemmStyle.subBlockDimM
  let sgemm_n := RoundUp arg.output_Feature runInfo.gemmStyle.subBlockDimN
  { runInfo with
      gws0 := RoundUp (CeilDiv sgemm_n runInfo.gemmStyle.globalWorkSizeDX) runInfo.lws0
      gws1 := RoundUp (CeilDiv sgemm_m runInfo.gemmStyle.globalWorkSizeDY) runInfo.lws1
      gws2 := arg.output_Batch }

/-- `ConvolutionKernel_bfyx_GEMMLike::Validate`.  `Parent_Validate` and
`CovolutionCheckInput` are the two checks called first, whose bodies are not among the
sources; `p` is already seen as the `convolution_params` it is cast to. -/
def Validate {optional_params : Type}
    (Parent_Validate CovolutionCheckInput : convolution_params → optional_params → Bool)
    (p : convolution_params) (o : optional_params) : Bool :=
  if !Parent_Validate p o || !CovolutionCheckInput p o then
    false
  else if !p.engineInfo.bSubGroupShortSupport && p.input0_DType == Datatype.F16 then
    false
  else
    true

end ConvolutionKernel_bfyx_GEMMLike

end kernel_selector

namespace rapidjson

/-- A JSON value as rapidjson holds it.  An object keeps its members in document order and
may repeat a name. -/
inductive Value
  | null
  | bool (b : Bool)
  | number (n : Int)
  | string (s : String)
  | array (elements : List Value)
  | object (members : List (String × Value))
  deriving Repr

/-- The document that `Parse("{}")` leaves: the empty object. -/
def emptyObject : Value := Value.object []

/-- `Value::HasMember(name)`.  rapidjson requires `IsObject()` (`RAPIDJSON_ASSERT`): on any
other value the call is a fault, `none`. -/
def Value.HasMember : Value → String → Option Bool
  | Value.object members, name => some (members.lookup name).isSome
  | _, _ => none

/-- `Value::operator[](name)`: the value of the first member called `name`.  On a value that
is not an object, or an object without such a member, the call is a fault, `none`. -/
def Value.getMember : Value → String → Option Value
  | Value.object members, name => members.lookup name
  | _, _ => none

/-- A `rapidjson::Document` after `ParseStream`: the parse error code (`0` when the text was
parsed) and the root value.  When parsing fails the root stays the `null` of a freshly
constructed document. -/
structure Document where
  parseError : Nat
  root : Value
  deriving Repr

/-- The document `ParseStream` leaves for a text that parsed to `root`. -/
def Document.parsed (root : Value) : Document := ⟨0, root⟩

/-- The document `ParseStream` leaves for a text that failed to parse with error `code + 1`. -/
def Document.failed (code : Nat) : Document := ⟨code + 1, Value.null⟩

end rapidjson

namespace cldnn

/-- The C++ exceptions the modelled code throws or lets through, with their `what()` text;
`other` stands for any further exception type (`std::bad_alloc`, ...). -/
inductive Exception
  | invalid_argument (what : String)
  | runtime_error (what : String)
  | other (what : String)
  deriving DecidableEq, Repr

namespace gpu

open rapidjson

/-- Result of running a piece of C++: it returns a value, throws an exception, or faults
(undefined behaviour such as a null dereference, or abort). -/
inductive Outcome (α : Type)
  | returns (a : α)
  | throws (e : Exception)
  | fault
  deriving Repr

/-- How the device lookup of `get_gpu_device_id` can go on Windows: the device-information
set is invalid, `std::stoi` throws on an instance id, or the enumeration completes with some
device id (`0` when none was found). -/
inductive Win32Lookup
  | invalid_handle
  | stoi_throws (e : Exception)
  | enumerated (result : Int)
  deriving Repr

/-- The platform the library was built for, with what the platform's device lookup meets. -/
inductive Platform
  | win32 (lookup : Win32Lookup)
  | linux
  | other
  deriving Repr

/-- The message `device_info_failed_msg`. -/
def device_info_failed_msg : String := "Device lookup failed"

/-- `get_gpu_device_id()`: the `_WIN32` block returns `0` early on an invalid handle, every
other path ends in `result = 0x7012; return result;`. -/
def get_gpu_device_id : Platform → Outcome Int
  | Platform.win32 Win32Lookup.invalid_handle => Outcome.returns 0
  | Platform.win32 (Win32Lookup.stoi_throws e) => Outcome.throws e
  | Platform.win32 (Win32Lookup.enumerated _) => Outcome.returns 0x7012
  | Platform.linux => Outcome.returns 0x7012
  | Platform.other => Outcome.returns 0x7012

/-- The digit table `hex_chars`. -/
def hex_chars : List Char := "0123456789ABCDEF".toList

/-- The loop `while (i > 0 && tmp > 0) { buf[--i] = hex_chars[tmp & 0xF]; tmp >>= 4; }` of
`to_string_hex`; returns the final `i`, `tmp` and buffer. -/
def to_string_hex_loop : Nat → Nat → List Char → Nat × Nat × List Char
  | 0, tmp, buf => (0, tmp, buf)
  | i + 1, tmp, buf =>
    if tmp > 0 then
      to_string_hex_loop i (tmp >>> 4) (buf.set i (hex_chars.getD (tmp &&& 0xF) '0'))
    else
      (i + 1, tmp, buf)

/-- `to_string_hex(int val)`; `none` when `assert(tmp == 0)` fails. -/
def to_string_hex (val : Int) : Option String :=
  let tmp := (val % 4294967296).toNat
  if tmp == 0 then some "0x0"
  else
    let buf := "0000000000000000".toList
    let r := to_string_hex_loop 16 tmp buf
    if r.2.1 == 0 then some ("0x" ++ String.mk (r.2.2.drop r.1)) else none

/-- `get_cache_from_file`, from the point where the cache path is known.  `f` is what
opening the file gives: `none` when `f.good()` is false, otherwise the document that
`ParseStream` leaves.  The conditions are evaluated left to right, `HasMember` first. -/
def get_cache_from_file (compute_units_count : Nat) (f : Option Document) : Option Value :=
  let computeUnits := toString compute_units_count
  match f with
  | some cacheFile =>
    let errorCode := cacheFile.parseError
    match cacheFile.root.HasMember computeUnits with
    | none => none
    | some has =>
      let computeUnits := if !has && errorCode == 0 then "24" else computeUnits
      match cacheFile.root.HasMember computeUnits with
      | none => none
      | some has =>
        if has && errorCode == 0 then
          cacheFile.root.getMember computeUnits
        else
          some emptyObject
  | none => some emptyObject

/-- What the constructor asks the OpenCL device of the context. -/
structure gpu_toolkit where
  platform : Platform
  CL_DRIVER_VERSION : String
  CL_DEVICE_MAX_COMPUTE_UNITS : Nat
  CL_DEVICE_MAX_CLOCK_FREQUENCY : Nat
  CL_DEVICE_MAX_WORK_GROUP_SIZE : Nat
  deriving Repr

/-- The fields of `engine_info_internal` set up to line 293 of `engine_info.cpp`.
`device_cache` is a `std::shared_ptr`: `none` is the null pointer. -/
structure engine_info_internal where
  dev_id : String
  driver_version : String
  compute_units_count : Nat
  device_cache : Option Value
  cores_count : Nat
  core_frequency : Nat
  max_work_group_size : Nat
  deriving Repr

/-- Lines 290 to 293: the reported maximum work-group size, capped at 256. -/
def cap_work_group_size (reported : Nat) : Nat :=
  if reported > 256 then 256 else reported

/-- The warning the handler prints. -/
def cache_warning : String :=
  "[WARNING] error during parsing cache file, tuning data won't be used"

/-- `device_cache->Parse("{}")`: the pointer is dereferenced, so a null pointer is a fault;
otherwise the pointed-to document becomes the empty object. -/
def Parse_through (device_cache : Option Value) : Option (Option Value) :=
  match device_cache with
  | none => none
  | some _ => some (some emptyObject)

/-- The constructor `engine_info_internal::engine_info_internal(context)` up to line 293.
`load` is how the call `get_cache_from_file(compute_units_count, context)` ends.  The result
is what was printed and the outcome. -/
def engine_info_internal.ctor (context : gpu_toolkit) (load : Nat → Outcome Value) :
    List String × Outcome engine_info_internal :=
  match get_gpu_device_id context.platform with
  | Outcome.throws e => ([], Outcome.throws e)
  | Outcome.fault => ([], Outcome.fault)
  | Outcome.returns device_id =>
    if device_id == 0 then
      ([], Outcome.throws (Exception.runtime_error device_info_failed_msg))
    else
      match to_string_hex device_id with
      | none => ([], Outcome.fault)
      | some dev_id =>
        let driver_version := context.CL_DRIVER_VERSION
        let compute_units_count := context.CL_DEVICE_MAX_COMPUTE_UNITS
        let device_cache : Option Value := none
        let rest (out : List String) (device_cache : Option Value) :
            List String × Outcome engine_info_internal :=
          (out, Outcome.returns
            { dev_id := dev_id
              driver_version := driver_version
              compute_units_count := compute_units_count
              device_cache := device_cache
              cores_count := context.CL_DEVICE_MAX_COMPUTE_UNITS
              core_frequency := context.CL_DEVICE_MAX_CLOCK_FREQUENCY
              max_work_group_size := cap_work_group_size context.CL_DEVICE_MAX_WORK_GROUP_SIZE })
        match load compute_units_count with
        | Outcome.returns doc => rest [] (some doc)
        | Outcome.fault => ([], Outcome.fault)
        | Outcome.throws _ =>
          let out := [cache_warning]
          match Parse_through device_cache with
          | none => (out, Outcome.fault)
          | some device_cache => rest out device_cache

/-- The call `get_cache_from_file(compute_units_count, context)` when nothing throws: the
document is returned, or the call faults. -/
def load_from (f : Option Document) (compute_units_count : Nat) : Outcome Value :=
  match get_cache_from_file compute_units_count f with
  | some doc => Outcome.returns doc
  | none => Outcome.fault

end gpu

/-- A `float` value, kept as its 32-bit pattern: the descriptors only store and copy it. -/
structure float where
  bits : Nat
  deriving DecidableEq, Repr

/-- Conversion of a `uint32_t` value to `int`: the value modulo `2^32`, read as a signed
32-bit number (two's complement, what every supported compiler does for a value above
`INT_MAX`). -/
def int_of_uint32 (n : Nat) : Int :=
  if n % 4294967296 < 2147483648 then ((n % 4294967296 : Nat) : Int)
  else ((n % 4294967296 : Nat) : Int) - 4294967296

/-- Conversion of an `int` value to `uint32_t`: the value modulo `2^32`. -/
def uint32_of_int (x : Int) : Nat := (x % 4294967296).toNat

/-- Conversion of a `bool` to an unsigned integer field: `1` or `0`. -/
def uint32_of_bool (b : Bool) : Nat := if b then 1 else 0

/-- Conversion of a `bool` to a signed integer field: `1` or `0`. -/
def int32_of_bool (b : Bool) : Int := if b then 1 else 0

/-- Range of a `uint32_t`. -/
def is_uint32 (n : Nat) : Prop := n < 4294967296

/-- Range of an `int` / `int32_t`. -/
def is_int32 (x : Int) : Prop := -2147483648 ≤ x ∧ x < 2147483648

instance (n : Nat) : Decidable (is_uint32 n) := by unfold is_uint32; infer_instance

instance (x : Int) : Decidable (is_int32 x) := by unfold is_int32; infer_instance

/-- `prior_box_code_type`, an `enum class` over `int32_t`: it can hold any `int32_t` value,
which is what the cast from the C descriptor relies on. -/
structure prior_box_code_type where
  value : Int
  deriving DecidableEq, Repr

/-- The message of the exception the `detection_output` constructors throw. -/
def detection_output_error : Exception :=
  Exception.invalid_argument
    "Cannot use decrease_label_id and background_label_id parameter simultaneously."

/-- The C descriptor `dto` of `detection_output`, operation-specific fields only.  Its
declaration (`api/C/detection_output.h`) is not among the sources; the fields carry the
32-bit types of the C API: `uint32_t` for `num_classes`, `keep_top_k` and the flags tested
with `!= 0`, signed integers for the rest, `float` for the thresholds. -/
structure detection_output_dto where
  num_classes : Nat
  keep_top_k : Nat
  share_location : Nat
  background_label_id : Int
  nms_threshold : float
  top_k : Int
  eta : float
  code_type : Int
  variance_encoded_in_target : Nat
  confidence_threshold : float
  prior_info_size : Int
  prior_coordinates_offset : Int
  prior_is_normalized : Nat
  input_width : Int
  input_height : Int
  decrease_label_id : Int
  clip : Int
  deriving DecidableEq, Repr

/-- Every field of the C descriptor is within the range of its type. -/
def detection_output_dto.WellTyped (t : detection_output_dto) : Prop :=
  is_uint32 t.num_classes ∧ is_uint32 t.keep_top_k ∧ is_uint32 t.share_location ∧
  is_int32 t.background_label_id ∧ is_int32 t.top_k ∧ is_int32 t.code_type ∧
  is_uint32 t.variance_encoded_in_target ∧ is_int32 t.prior_info_size ∧
  is_int32 t.prior_coordinates_offset ∧ is_uint32 t.prior_is_normalized ∧
  is_int32 t.input_width ∧ is_int32 t.input_height ∧ is_int32 t.decrease_label_id ∧
  is_int32 t.clip

instance (t : detection_output_dto) : Decidable t.WellTyped := by
  unfold detection_output_dto.WellTyped; infer_instance

/-- The operation-specific arguments of the first `detection_output` constructor, with the
types of its parameter list (`uint32_t num_classes`, `uint32_t keep_top_k`, ...).  The
primitive id, the three input ids and the output padding go to `primitive_base`
(`primitive.hpp`, not among the sources) and are left out. -/
structure detection_output_args where
  num_classes : Nat
  keep_top_k : Nat
  share_location : Bool
  background_label_id : Int
  nms_threshold : float
  top_k : Int
  eta : float
  code_type : prior_box_code_type
  variance_encoded_in_target : Bool
  confidence_threshold : float
  prior_info_size : Int
  prior_coordinates_offset : Int
  prior_is_normalized : Bool
  input_width : Int
  input_height : Int
  decrease_label_id : Bool
  clip : Bool
  deriving DecidableEq, Repr

/-- Every argument is within the range of its parameter type. -/
def detection_output_args.WellTyped (a : detection_output_args) : Prop :=
  is_uint32 a.num_classes ∧ is_uint32 a.keep_top_k ∧ is_int32 a.background_label_id ∧
  is_int32 a.top_k ∧ is_int32 a.code_type.value ∧ is_int32 a.prior_info_size ∧
  is_int32 a.prior_coordinates_offset ∧ is_int32 a.input_width ∧ is_int32 a.input_height

instance (a : detection_output_args) : Decidable a.WellTyped := by
  unfold detection_output_args.WellTyped; infer_instance

/-- The private members of `detection_output`, with their declared types: `num_classes` is
a `uint32_t`, `keep_top_k` an `int`. -/
structure detection_output where
  num_classes : Nat
  keep_top_k : Int
  share_location : Bool
  background_label_id : Int
  nms_threshold : float
  top_k : Int
  eta : float
  code_type : prior_box_code_type
  variance_encoded_in_target : Bool
  confidence_threshold : float
  prior_info_size : Int
  prior_coordinates_offset : Int
  prior_is_normalized : Bool
  input_width : Int
  input_height : Int
  decrease_label_id : Bool
  clip : Bool
  deriving DecidableEq, Repr

namespace detection_output

/-- The constructor from explicit arguments: the member initialisers, then the check of the
body. -/
def ctor (a : detection_output_args) : Except Exception detection_output :=
  let d : detection_output :=
    { num_classes := a.num_classes
      keep_top_k := int_of_uint32 a.keep_top_k
      share_location := a.share_location
      background_label_id := a.background_label_id
      nms_threshold := a.nms_threshold
      top_k := a.top_k
      eta := a.eta
      code_type := a.code_type
      variance_encoded_in_target := a.variance_encoded_in_target
      confidence_threshold := a.confidence_threshold
      prior_info_size := a.prior_info_size
      prior_coordinates_offset := a.prior_coordinates_offset
      prior_is_normalized := a.prior_is_normalized
      input_width := a.input_width
      input_height := a.input_height
      decrease_label_id := a.decrease_label_id
      clip := a.clip }
  if a.decrease_label_id && a.background_label_id != 0 then
    Except.error detection_output_error
  else
    Except.ok d

/-- The constructor from the C descriptor, `detection_output(const dto* dto)`. -/
def ctor_dto (dto : detection_output_dto) : Except Exception detection_output :=
  let d : detection_output :=
    { num_classes := dto.num_classes
      keep_top_k := int_of_uint32 dto.keep_top_k
      share_location := dto.share_location != 0
      background_label_id := dto.background_label_id
      nms_threshold := dto.nms_threshold
      top_k := dto.top_k
      eta := dto.eta
      code_type := ⟨dto.code_type⟩
      variance_encoded_in_target := dto.variance_encoded_in_target != 0
      confidence_threshold := dto.confidence_threshold
      prior_info_size := dto.prior_info_size
      prior_coordinates_offset := dto.prior_coordinates_offset
      prior_is_normalized := dto.prior_is_normalized != 0
      input_width := dto.input_width
      input_height := dto.input_height
      decrease_label_id := dto.decrease_label_id != 0
      clip := dto.clip != 0 }
  if d.decrease_label_id && d.background_label_id != 0 then
    Except.error detection_output_error
  else
    Except.ok d

/-- The getters `get_num_classes()` ... `get_clip()`: each returns its member. -/
def get_num_classes (d : detection_output) : Nat := d.num_classes
def get_keep_top_k (d : detection_output) : Int := d.keep_top_k
def get_share_location (d : detection_output) : Bool := d.share_location
def get_background_label_id (d : detection_output) : Int := d.background_label_id
def get_nms_threshold (d : detection_output) : float := d.nms_threshold
def get_top_k (d : detection_output) : Int := d.top_k
def get_eta (d : detection_output) : float := d.eta
def get_code_type (d : detection_output) : prior_box_code_type := d.code_type
def get_variance_encoded_in_target (d : detection_output) : Bool :=
  d.variance_encoded_in_target
def get_confidence_threshold (d : detection_output) : float := d.confidence_threshold
def get_prior_info_size (d : detection_output) : Int := d.prior_info_size
def get_prior_coordinates_offset (d : detection_output) : Int := d.prior_coordinates_offset
def get_prior_is_normalized (d : detection_output) : Bool := d.prior_is_normalized
def get_input_width (d : detection_output) : Int := d.input_width
def get_input_height (d : detection_output) : Int := d.input_height
def get_decrease_label_id (d : detection_output) : Bool := d.decrease_label_id
def get_clip (d : detection_output) : Bool := d.clip

/-- `update_dto(dto&)`: writes the seventeen members into the descriptor. -/
def update_dto (d : detection_output) (dto : detection_output_dto) : detection_output_dto :=
  { dto with
      num_classes := d.num_classes
      share_location := uint32_of_bool d.share_location
      background_label_id := d.background_label_id
      nms_threshold := d.nms_threshold
      top_k := d.top_k
      eta := d.eta
      code_type := d.code_type.value
      variance_encoded_in_target := uint32_of_bool d.variance_encoded_in_target
      keep_top_k := uint32_of_int d.keep_top_k
      confidence_threshold := d.confidence_threshold
      prior_info_size := d.prior_info_size
      prior_coordinates_offset := d.prior_coordinates_offset
      prior_is_normalized := uint32_of_bool d.prior_is_normalized
      input_width := d.input_width
      input_height := d.input_height
      decrease_label_id := int32_of_bool d.decrease_label_id
      clip := int32_of_bool d.clip }

end detection_output

/-- The C descriptor of `detection_output_sort` (`api/C/detection_output_sort.h`, not among
the sources), operation-specific fields only, with the 32-bit types of the C API. -/
structure detection_output_sort_dto where
  num_images : Nat
  num_classes : Nat
  keep_top_k : Nat
  share_location : Nat
  top_k : Int
  background_label_id : Int
  deriving DecidableEq, Repr

/-- The operation-specific arguments of the first `detection_output_sort` constructor. -/
structure detection_output_sort_args where
  num_images : Nat
  num_classes : Nat
  keep_top_k : Nat
  share_location : Bool
  top_k : Int
  background_label_id : Int
  deriving DecidableEq, Repr

/-- The private members of `detection_output_sort`. -/
structure detection_output_sort where
  num_images : Nat
  num_classes : Nat
  keep_top_k : Int
  share_location : Bool
  top_k : Int
  background_label_id : Int
  deriving DecidableEq, Repr

namespace detection_output_sort

/-- The constructor from explicit arguments; its body is empty. -/
def ctor (a : detection_output_sort_args) : detection_output_sort :=
  { num_images := a.num_images
    num_classes := a.num_classes
    keep_top_k := int_of_uint32 a.keep_top_k
    share_location := a.share_location
    top_k := a.top_k
    background_label_id := a.background_label_id }

/-- The constructor from the C descriptor; its body is empty. -/
def ctor_dto (dto : detection_output_sort_dto) : detection_output_sort :=
  { num_images := dto.num_images
    num_classes := dto.num_classes
    keep_top_k := int_of_uint32 dto.keep_top_k
    share_location := dto.share_location != 0
    top_k := dto.top_k
    background_label_id := dto.background_label_id }

/-- `update_dto(dto&)`: writes the six members into the descriptor. -/
def update_dto (d : detection_output_sort) (dto : detection_output_sort_dto) :
    detection_output_sort_dto :=
  { dto with
      num_classes := d.num_classes
      num_images := d.num_images
      keep_top_k := uint32_of_int d.keep_top_k
      share_location := uint32_of_bool d.share_location
      top_k := d.top_k
      background_label_id := d.background_label_id }

end detection_output_sort

end cldnn

namespace kernel_selector

namespace ROIPoolingKernelRef

/-- The loop `while (kd.gws0 % kd.lws0 != 0) { --kd.lws0; }` once more, this time counting:
the result is the final `lws0` and the number of times `--kd.lws0` ran.  `none`: the loop
would evaluate `gws0 % 0`. -/
def lwsLoopSteps (gws0 : Nat) : Nat → Option (Nat × Nat)
  | 0 => none
  | lws0 + 1 =>
    if gws0 % (lws0 + 1) != 0 then
      (lwsLoopSteps gws0 lws0).map fun r => (r.1, r.2 + 1)
    else
      some (lws0 + 1, 0)

end ROIPoolingKernelRef

namespace ReshapeKernelRef

/-- The part of `reshape_params` that `GetKernelsData` reads: the extents `o.v` of
`inputs[0].GetDims()`, in order, each a `size_t`. -/
structure reshape_params where
  input0_Dims : List Nat
  deriving DecidableEq, Repr

/-- The work-group sizes of a kernel (`kernel.workGroups`). -/
structure WorkGroupSizes where
  global : List Nat
  «local» : List Nat
  deriving DecidableEq, Repr

/-- What `GetKernelsData` sets of a `clKernelData`. -/
structure clKernelData where
  workGroups : WorkGroupSizes
  deriving DecidableEq, Repr

/-- What `GetKernelsData` sets of a `KernelData`: its kernels and the estimated time. -/
structure KernelData where
  kernels : List clKernelData
  estimatedTime : Priority
  deriving DecidableEq, Repr

/-- The loop `for (size_t i = gws.size(); i < 4; i++) gws.push_back(1U);`, by the number of
rounds left. -/
def padTo4 (gws : List Nat) : Nat → List Nat
  | 0 => gws
  | rounds + 1 => if gws.length < 4 then padTo4 (gws ++ [1]) rounds else gws

/-- `ReshapeKernelRef::GetKernelsData`, the work-group part.  `KernelData::Default` gives a
record with one kernel; `GetOptimalLocalWorkGroupSizes` is not among the sources and is a
parameter.  The indices read from `gws` are in range: it holds four entries at least, and
five at least on the second branch.  The products are products of `size_t` values: each
multiplication is modulo `2 ^ 64`. -/
def GetKernelsData (GetOptimalLocalWorkGroupSizes : List Nat → List Nat)
    (params : reshape_params) : List KernelData :=
  let gws := params.input0_Dims
  let gws := padTo4 gws 4
  let global :=
    if gws.length == 4 then
      [gws.getD 0 0, gws.getD 1 0, gws.getD 2 0 * gws.getD 3 0 % 2 ^ 64]
    else
      [gws.getD 0 0, gws.getD 1 0,
        gws.getD 2 0 * gws.getD 3 0 % 2 ^ 64 * gws.getD 4 0 % 2 ^ 64]
  let kernel : clKernelData :=
    { workGroups := { global := global, «local» := GetOptimalLocalWorkGroupSizes global } }
  [{ kernels := [kernel], estimatedTime := Priority.DONT_USE_IF_HAVE_SOMETHING_ELSE }]

end ReshapeKernelRef

end kernel_selector

namespace cldnn

open gpu (Outcome)

/-- The `data_types` enumeration, with the enumerators `dt_to_str` lists; `other` stands
for any further value. -/
inductive data_types
  | i8 | u8 | i32 | i64 | f16 | f32
  | other (value : Nat)
  deriving DecidableEq, Repr

/-- The `format` type, with the enumerators `fmt_to_str` lists; `other` stands for any
further value. -/
inductive format
  | yxfb | byxf | bfyx | fyxb | bfyx_f16 | o_i_yx_i16_o16
  | os_iyx_osv16 | os_iyx_osv32 | os_iyx_osv64
  | bs_xs_xsv8_bsv8 | bs_xs_xsv8_bsv16 | bs_x_bsv16 | bf8_xy16
  | image_2d_weights_c4_fyx_b | image_2d_weights_c1_b_fyx
  | winograd_2x3_s1_data | winograd_2x3_s1_weights | winograd_2x3_s1_fused_weights
  | winograd_6x3_s1_fused_weights
  | image_2d_weights_winograd_6x3_s1_fbxyb | image_2d_weights_winograd_6x3_s1_xfbyb
  | os_is_yx_isa8_osv8_isv4 | os_is_yx_isa8_osv8_isv4_swizzled_by_4
  | is_o_yx_isv32 | is_o32_yx_isv32_swizzled_by_4
  | os_is_y_x8_osv8_isv4 | os_is_y_x8_osv8_isv4_swizzled_by_4
  | byxf_af32 | byx8_f4 | fs_bs_yx_bsv4_fsv32 | bf_lyx_yx | b_fs_yx_fsv4
  | os_is_yx_osv16_isv4 | bfzyx | fs_b_yx_fsv32
  | other (value : Int)
  deriving DecidableEq, Repr

/-- A `tensor`, by the four extents the modelled code reads: `batch[0]`, `feature[0]`,
`spatial[0]` (x) and `spatial[1]` (y), each a `tensor::value_type` (`int32_t`). -/
structure tensor where
  batch0 : Int
  feature0 : Int
  spatial0 : Int
  spatial1 : Int
  deriving DecidableEq, Repr

/-- A `padding`: lower and upper sizes. -/
structure padding where
  lower_size : tensor
  upper_size : tensor
  deriving DecidableEq, Repr

/-- The default-constructed `padding()`: no padding. -/
def padding.zero : padding := ⟨⟨0, 0, 0, 0⟩, ⟨0, 0, 0, 0⟩⟩

/-- A `layout`: data type, format, size and padding. -/
structure layout where
  data_type : data_types
  format : format
  size : tensor
  data_padding : padding
  deriving DecidableEq, Repr

/-- The constructor `layout{ data_type, format, size }`: the padding argument is left at its
default, no padding. -/
def layout.ctor (data_type : data_types) (fmt : cldnn.format) (size : tensor) : layout :=
  { data_type := data_type, format := fmt, size := size, data_padding := padding.zero }

/-- Modelled from the spec: `CLDNN_ERROR_MESSAGE(id, message)` is declared in
`error_handler.h`, which is not among the sources; a parameter validation error is fatal and
"reported with the primitive id and a human-readable message".  It throws. -/
def CLDNN_ERROR_MESSAGE (id : String) (message : String) : Exception :=
  Exception.invalid_argument (id ++ ": " ++ message)

/-- The `one_hot` descriptor as the instance code reads it: `shape`, `one_hot_axis` (a
`uint16_t`) and the optional forced output data type of the primitive base. -/
structure one_hot where
  shape : tensor
  one_hot_axis : Nat
  output_data_type : Option data_types
  deriving DecidableEq, Repr

/-- A `one_hot_node`: its id, its descriptor and the output layout of its input,
`node.input().get_output_layout()`. -/
structure one_hot_node where
  id : String
  primitive : one_hot
  input_layout : layout
  deriving DecidableEq, Repr

namespace one_hot_inst

/-- `one_hot_inst::calc_output_layout`.  The `assert` on a forced output data type is a
fault when it fails. -/
def calc_output_layout (node : one_hot_node) : Outcome layout :=
  if node.primitive.output_data_type.isSome then
    Outcome.fault
  else
    let input_layout := node.input_layout
    let desc := node.primitive
    if desc.one_hot_axis > 3 then
      Outcome.throws (CLDNN_ERROR_MESSAGE node.id
        "Incorrect parameters configuration: one_hot_axis should be less or equal to 3.")
    else
      Outcome.returns (layout.ctor input_layout.data_type input_layout.format desc.shape)

/-- The loop `for (int i = 3, j = 3; i > 0; --i, --j)` of the constructor, entered with the
loop variable `i` (first argument, `i + 1` while the body runs) and `j`.  An index outside
a vector is a fault. -/
def shape_loop (id : String) (input_dims output_dims : List Int) (one_hot_axis : Nat) :
    Nat → Int → Outcome Unit
  | 0, _ => Outcome.returns ()
  | i + 1, j =>
    let j := if j == (one_hot_axis : Int) then j - 1 else j
    match input_dims[i + 1]?, (if j < 0 then none else output_dims[j.toNat]?) with
    | some a, some b =>
      if a != b then
        Outcome.throws (CLDNN_ERROR_MESSAGE id
          "Incorrect parameters configuration: shape does not fit input size.")
      else
        shape_loop id input_dims output_dims one_hot_axis i (j - 1)
    | _, _ => Outcome.fault

/-- The body of the constructor `one_hot_inst::typed_primitive_inst(network, node)`; the
base-class constructor `parent(network, node)` is not among the sources and is left out. -/
def ctor (node : one_hot_node) : Outcome Unit :=
  let input_sizes := node.input_layout.size
  let output_sizes := node.primitive.shape
  let input_dims := [input_sizes.batch0, input_sizes.feature0, input_sizes.spatial1,
    input_sizes.spatial0]
  let output_dims := [output_sizes.batch0, output_sizes.feature0, output_sizes.spatial1,
    output_sizes.spatial0]
  let one_hot_axis := node.primitive.one_hot_axis
  if input_dims.getD 0 0 != 1 then
    Outcome.throws (CLDNN_ERROR_MESSAGE node.id
      "Incorrect parameters configuration: input batch size should be equal to 1.")
  else
    shape_loop node.id input_dims output_dims one_hot_axis 3 3

end one_hot_inst

end cldnn

namespace kernel_selector

/-- The `DataLayout` enumerators the modelled kernels name. -/
inductive DataLayout
  | bfyx | yxfb | byxf | brfyx
  deriving DecidableEq, Repr

/-- The `WeightsType` enumerators the modelled kernels name. -/
inductive WeightsType
  | F16 | F32
  deriving DecidableEq, Repr

/-- The `NormalizeMode` enumerators. -/
inductive NormalizeMode
  | ACROSS_SPATIAL | WITHIN_SPATIAL
  deriving DecidableEq, Repr

/-- The feature flags the modelled keys enable, one bit each. -/
inductive Feature
  | TensorOffset | TensorPitches | SubGroup | SubGroupShort | BiasPerFeature | NonBiasTerm
  | Batching | SplitSupport | DifferentTypes
  | InputWeightsType (t : WeightsType)
  | NormalizeMode (m : NormalizeMode)
  deriving DecidableEq, Repr

/-- Bit position of a data type in the data-type fields. -/
def Datatype.bit : Datatype → Nat
  | Datatype.INT8 => 0 | Datatype.UINT8 => 1 | Datatype.INT16 => 2 | Datatype.UINT16 => 3
  | Datatype.INT32 => 4 | Datatype.UINT32 => 5 | Datatype.INT64 => 6 | Datatype.F16 => 7
  | Datatype.F32 => 8

/-- Bit position of a layout in the layout fields. -/
def DataLayout.bit : DataLayout → Nat
  | DataLayout.bfyx => 0 | DataLayout.yxfb => 1 | DataLayout.byxf => 2 | DataLayout.brfyx => 3

/-- Bit position of a feature flag in the flags field. -/
def Feature.bit : Feature → Nat
  | Feature.TensorOffset => 0 | Feature.TensorPitches => 1 | Feature.SubGroup => 2
  | Feature.SubGroupShort => 3 | Feature.BiasPerFeature => 4 | Feature.NonBiasTerm => 5
  | Feature.Batching => 6 | Feature.SplitSupport => 7 | Feature.DifferentTypes => 8
  | Feature.InputWeightsType WeightsType.F16 => 9
  | Feature.InputWeightsType WeightsType.F32 => 10
  | Feature.NormalizeMode NormalizeMode.ACROSS_SPATIAL => 11
  | Feature.NormalizeMode NormalizeMode.WITHIN_SPATIAL => 12

/-- Modelled from the spec: `ParamsKey` is declared in `kernel_selector_params.h`, which is
not among the sources.  It is "a fixed-size bitset partitioned into independent fields":
input data types, output data types, input layouts, output layouts and feature flags, each
kept here as the number whose binary digits are the bits. -/
structure ParamsKey where
  inputType : Nat
  outputType : Nat
  inputLayout : Nat
  outputLayout : Nat
  restrict : Nat
  deriving DecidableEq, Repr

namespace ParamsKey

/-- The key `ParamsKey k;` starts from: no bit set. -/
def empty : ParamsKey := ⟨0, 0, 0, 0, 0⟩

/-- Modelled from the spec: the `Enable...` setters (not among the sources) each switch on
the bit of their argument in one field. -/
def EnableInputDataType (k : ParamsKey) (dt : Datatype) : ParamsKey :=
  { k with inputType := k.inputType ||| (1 <<< dt.bit) }

/-- Modelled from the spec: switches on an output data type. -/
def EnableOutputDataType (k : ParamsKey) (dt : Datatype) : ParamsKey :=
  { k with outputType := k.outputType ||| (1 <<< dt.bit) }

/-- Modelled from the spec: switches on an input layout. -/
def EnableInputLayout (k : ParamsKey) (l : DataLayout) : ParamsKey :=
  { k with inputLayout := k.inputLayout ||| (1 <<< l.bit) }

/-- Modelled from the spec: switches on an output layout. -/
def EnableOutputLayout (k : ParamsKey) (l : DataLayout) : ParamsKey :=
  { k with outputLayout := k.outputLayout ||| (1 <<< l.bit) }

/-- Modelled from the spec: switches on a feature flag; `EnableTensorOffset()`,
`EnableBatching()`, `EnableInputWeightsType(t)`, `EnableNormalizeMode(m)` and the like
are this with their flag. -/
def EnableFeature (k : ParamsKey) (f : Feature) : ParamsKey :=
  { k with restrict := k.restrict ||| (1 <<< f.bit) }

/-- Modelled from the spec: `ParamsKey::Support` (not among the sources).  "Two keys are
compatible iff, for every field, the implementation's bit-set is a superset of the required
bit-set", tested the way bit sets are: masking the implementation's field with the required
one gives the required one back. -/
def Support (impl required : ParamsKey) : Bool :=
  (impl.inputType &&& required.inputType == required.inputType) &&
  (impl.outputType &&& required.outputType == required.outputType) &&
  (impl.inputLayout &&& required.inputLayout == required.inputLayout) &&
  (impl.outputLayout &&& required.outputLayout == required.outputLayout) &&
  (impl.restrict &&& required.restrict == required.restrict)

end ParamsKey

/-- `ConvolutionKernel_bfyx_GEMMLike::GetSupportedKey`. -/
def ConvolutionKernel_bfyx_GEMMLike.GetSupportedKey : ParamsKey :=
  let k := ParamsKey.empty
  let k := k.EnableInputDataType Datatype.F16
  let k := k.EnableInputDataType Datatype.F32
  let k := k.EnableFeature (Feature.InputWeightsType WeightsType.F16)
  let k := k.EnableFeature (Feature.InputWeightsType WeightsType.F32)
  let k := k.EnableOutputDataType Datatype.F16
  let k := k.EnableOutputDataType Datatype.F32
  let k := k.EnableInputLayout DataLayout.bfyx
  let k := k.EnableOutputLayout DataLayout.bfyx
  let k := k.EnableFeature Feature.TensorOffset
  let k := k.EnableFeature Feature.TensorPitches
  let k := k.EnableFeature Feature.SubGroup
  let k := k.EnableFeature Feature.BiasPerFeature
  let k := k.EnableFeature Feature.NonBiasTerm
  let k := k.EnableFeature Feature.Batching
  let k := k.EnableFeature Feature.SplitSupport
  k

/-- `NormalizeKernelWithinSpatialRef::GetSupportedKey`. -/
def NormalizeKernelWithinSpatialRef.GetSupportedKey : ParamsKey :=
  let k := ParamsKey.empty
  let k := k.EnableInputDataType Datatype.F16
  let k := k.EnableInputDataType Datatype.F32
  let k := k.EnableOutputDataType Datatype.F16
  let k := k.EnableOutputDataType Datatype.F32
  let k := k.EnableInputLayout DataLayout.bfyx
  let k := k.EnableInputLayout DataLayout.yxfb
  let k := k.EnableInputLayout DataLayout.byxf
  let k := k.EnableOutputLayout DataLayout.bfyx
  let k := k.EnableOutputLayout DataLayout.yxfb
  let k := k.EnableOutputLayout DataLayout.byxf
  let k := k.EnableFeature Feature.TensorOffset
  let k := k.EnableFeature Feature.TensorPitches
  let k := k.EnableFeature Feature.Batching
  let k := k.EnableFeature (Feature.NormalizeMode NormalizeMode.WITHIN_SPATIAL)
  k

end kernel_selector

namespace cldnn

/-- The operation-specific part of a primitive descriptor, for the operation kinds the two
passes tell apart; `weights_quantization_term` is what the node's method of that name
returns. -/
inductive primitive_desc
  | reshape (output_shape : tensor)
  | reorder (output_format : format) (output_data_type : data_types)
  | convolution (weights : List String) (weights_quantization_term : Bool)
  | deconvolution (weights : List String)
  | fully_connected (weights : String) (weights_quantization_term : Bool)
  | embed (weights : String)
  | other (type_name : String)
  deriving DecidableEq, Repr

/-- A primitive descriptor: its id, the ids of its inputs (`get_input()`) and the
operation-specific part. -/
structure primitive where
  id : String
  input : List String
  desc : primitive_desc
  deriving DecidableEq, Repr

/-- `is_type<reshape>()` on a descriptor. -/
def primitive.is_reshape (prim : primitive) : Bool :=
  match prim.desc with
  | primitive_desc.reshape _ => true
  | _ => false

/-- `is_type<reorder>()` on a descriptor. -/
def primitive.is_reorder (prim : primitive) : Bool :=
  match prim.desc with
  | primitive_desc.reorder _ _ => true
  | _ => false

/-- `program_helpers::wrap_if_single(prim->weights).size()`: the number of weights inputs. -/
def primitive.weights_count (prim : primitive) : Nat :=
  match prim.desc with
  | primitive_desc.convolution weights _ => weights.length
  | primitive_desc.deconvolution weights => weights.length
  | primitive_desc.fully_connected _ _ => 1
  | primitive_desc.embed _ => 1
  | _ => 0

/-- Modelled from the spec: `program_impl` and `program_node` are not among the sources.
The program graph "owns all Nodes in an arena keyed by id", "edges are by id": here one map
per node field, from the node id.  `nodes_map` holds the descriptor of every node that
exists; `dependencies` and `users` are the ordered producer and consumer lists;
`output_layout` is the memoized layout (`none` while it is unknown); `output` is
`is_output()`, `optimized` is `can_be_optimized()`. -/
structure program_impl where
  nodes_map : String → Option primitive
  dependencies : String → List String
  users : String → List String
  output_layout : String → Option layout
  output : String → Bool
  optimized : String → Bool
  processing_order : List String

namespace program_impl

/-- `node.is_type<reorder>()`, for the node of the given id. -/
def is_reorder (p : program_impl) (id : String) : Bool :=
  match p.nodes_map id with
  | some prim => prim.is_reorder
  | none => false

/-- `node.is_type<reshape>()`, for the node of the given id. -/
def is_reshape (p : program_impl) (id : String) : Bool :=
  match p.nodes_map id with
  | some prim => prim.is_reshape
  | none => false

/-- Modelled from the spec: `get_or_create(descriptor)` is "idempotent node creation keyed by
descriptor identity": a node of that id is returned as it is, otherwise a node with the
descriptor and no edge, no layout and no flag is added. -/
def get_or_create (p : program_impl) (prim : primitive) : program_impl :=
  if (p.nodes_map prim.id).isSome then p
  else
    { p with
        nodes_map := Function.update p.nodes_map prim.id (some prim)
        dependencies := Function.update p.dependencies prim.id []
        users := Function.update p.users prim.id []
        output_layout := Function.update p.output_layout prim.id none
        output := Function.update p.output prim.id false
        optimized := Function.update p.optimized prim.id false }

/-- Modelled from the spec: the edge `prev -> next` is added at the end of both lists. -/
def add_connection (p : program_impl) (prev next : String) : program_impl :=
  { p with
      users := Function.update p.users prev (p.users prev ++ [next])
      dependencies := Function.update p.dependencies next (p.dependencies next ++ [prev]) }

/-- Modelled from the spec: `replace_dependency` "repoints one edge": dependency `idx` of
`self` becomes `new_dep`; `self` leaves the user list of the old producer and joins that of
the new one.  Nothing happens for an index outside the list or when the edge already points
to `new_dep`. -/
def replace_dependency (p : program_impl) (self : String) (idx : Nat) (new_dep : String) :
    program_impl :=
  match (p.dependencies self)[idx]? with
  | none => p
  | some old =>
    if old = new_dep then p
    else
      let users := Function.update p.users old ((p.users old).filter fun u => u != self)
      let users := Function.update users new_dep (users new_dep ++ [self])
      { p with
          users := users
          dependencies :=
            Function.update p.dependencies self ((p.dependencies self).set idx new_dep) }

/-- Modelled from the spec: `add_intermediate(new_node, consumer, input_index)` "splices a
new node between a consumer and one of its current inputs".  The fourth argument the passes
give says whether `node` is first connected to that input (it is when the node has no
dependency yet); the consumer's edge is repointed to `node` in either case.  `none`: the
consumer has no dependency of that index. -/
def add_intermediate (p : program_impl) (node next : String) (prev_idx : Nat)
    (connect_int_node_with_old_dep : Bool) : Option program_impl :=
  match (p.dependencies next)[prev_idx]? with
  | none => none
  | some prev =>
    let p := if connect_int_node_with_old_dep then p.add_connection prev node else p
    some (p.replace_dependency next prev_idx node)

/-- Modelled from the spec: the overload of `add_intermediate` that names the input by node:
the first dependency of `next` that is `prev`.  `none`: they are not connected. -/
def add_intermediate_between (p : program_impl) (node next prev : String)
    (connect_int_node_with_old_dep : Bool) : Option program_impl :=
  if prev ∈ p.dependencies next then
    p.add_intermediate node next ((p.dependencies next).indexOf prev)
      connect_int_node_with_old_dep
  else none

/-- Modelled from the spec: `get_output_layout()`: the layout is "computed lazily" by the
layout-inference rule `infer` and "memoized on the node". -/
def get_output_layout (infer : program_impl → String → layout) (p : program_impl)
    (id : String) : layout × program_impl :=
  match p.output_layout id with
  | some l => (l, p)
  | none =>
    (infer p id,
      { p with output_layout := Function.update p.output_layout id (some (infer p id)) })

end program_impl

namespace handle_reshape

/-- The helpers of `handle_reshape::run` whose bodies are not among the sources: the
layout-inference rule behind `get_output_layout()`, `reshape_node::is_in_place()` and
`program_helpers::are_layouts_identical`. -/
structure helpers where
  calc_output_layout : program_impl → String → layout
  is_in_place : program_impl → String → Bool
  are_layouts_identical : layout → layout → Bool × Bool

/-- The loop over `reshape_users` (lines 70 to 90): the first user keeps the original
reshape; every later user found in `reorder_node_to_split` gets a clone.  Returns the
program and `reorder_reshape_nodes`. -/
def split_loop (node input_node : String) (output_shape : tensor)
    (reorder_node_to_split : List String) :
    List String → Bool → program_impl → List String → Option (program_impl × List String)
  | [], _, p, reorder_reshape_nodes => some (p, reorder_reshape_nodes)
  | user :: rest, skip_first_user, p, reorder_reshape_nodes =>
    if !skip_first_user then
      let reorder_reshape_nodes :=
        if user ∈ reorder_node_to_split then reorder_reshape_nodes ++ [node]
        else reorder_reshape_nodes
      split_loop node input_node output_shape reorder_node_to_split rest true p
        reorder_reshape_nodes
    else if user ∈ reorder_node_to_split then
      let new_reshape : primitive :=
        { id := "_reshape_split_" ++ user ++ "_" ++ node
          input := [input_node]
          desc := primitive_desc.reshape output_shape }
      let p := p.get_or_create new_reshape
      let p := p.replace_dependency user 0 input_node
      match p.add_intermediate new_reshape.id user 0 true with
      | none => none
      | some p =>
        split_loop node input_node output_shape reorder_node_to_split rest true p
          (reorder_reshape_nodes ++ [new_reshape.id])
    else
      split_loop node input_node output_shape reorder_node_to_split rest skip_first_user p
        reorder_reshape_nodes

/-- The loop over `reorder_node_to_split` (lines 93 to 103), entered with
`reshape_reorder_id`: a reorder to the layout of each reorder user goes in front of the
reshape node of the same position.  `none`: the position is outside
`reorder_reshape_nodes`, or the reshape node has no dependency. -/
def insert_loop (h : helpers) (input_node : String) (reorder_reshape_nodes : List String) :
    List String → Nat → program_impl → Option program_impl
  | [], _, p => some p
  | reorder_node :: rest, reshape_reorder_id, p =>
    match reorder_reshape_nodes[reshape_reorder_id]? with
    | none => none
    | some reorder_reshape_node =>
      let r := p.get_output_layout h.calc_output_layout reorder_node
      let reshape_in_layout := r.1
      let p := r.2
      let reshape_input : primitive :=
        { id := "_reshape_input_" ++ reorder_node ++ "_" ++ reorder_reshape_node
          input := [input_node]
          desc := primitive_desc.reorder reshape_in_layout.format reshape_in_layout.data_type }
      let p := p.get_or_create reshape_input
      match p.add_intermediate reshape_input.id reorder_reshape_node 0
          (p.dependencies reshape_input.id).isEmpty with
      | none => none
      | some p => insert_loop h input_node reorder_reshape_nodes rest (reshape_reorder_id + 1) p

/-- The loop over the users of the reshape in the bridging block (lines 119 to 124): the
reorder back to the reshape's layout goes between the reshape and each user. -/
def output_loop (node : String) (reshape_layout : layout) :
    List String → program_impl → Option program_impl
  | [], p => some p
  | user :: rest, p =>
    let reshape_output : primitive :=
      { id := "_reshape_output_" ++ node
        input := [user]
        desc := primitive_desc.reorder reshape_layout.format reshape_layout.data_type }
    let p := p.get_or_create reshape_output
    match p.add_intermediate_between reshape_output.id user node
        (p.dependencies reshape_output.id).isEmpty with
    | none => none
    | some p => output_loop node reshape_layout rest p

/-- Lines 49 to 104 for one reshape `node` with input `input_node`: the reorder users are
collected and, when there is one, the users are split and the input reorders inserted. -/
def split_block (h : helpers) (node input_node : String) (output_shape : tensor)
    (p : program_impl) : Option program_impl :=
  let reorder_node_to_split := (p.users node).filter fun user => p.is_reorder user
  if !reorder_node_to_split.isEmpty then
    let reshape_users := p.users node
    match split_loop node input_node output_shape reorder_node_to_split reshape_users false p
        [] with
    | none => none
    | some (p, reorder_reshape_nodes) =>
      insert_loop h input_node reorder_reshape_nodes reorder_node_to_split 0 p
  else some p

/-- Lines 106 to 126 for one reshape `node` with input `input_node`: the bridging reorders. -/
def bridge_block (h : helpers) (node input_node : String) (reshape_layout : layout)
    (p : program_impl) : Option program_impl :=
  if !p.output node && reshape_layout.format != format.bfyx then
    let bfyx_layout := layout.ctor reshape_layout.data_type format.bfyx reshape_layout.size
    if !(h.are_layouts_identical reshape_layout bfyx_layout).2 then
      let reshape_input : primitive :=
        { id := "_reshape_input_" ++ node
          input := [input_node]
          desc := primitive_desc.reorder format.bfyx reshape_layout.data_type }
      let p := p.get_or_create reshape_input
      match p.add_intermediate reshape_input.id node 0
          (p.dependencies reshape_input.id).isEmpty with
      | none => none
      | some p => output_loop node reshape_layout (p.users node) p
    else some p
  else some p

/-- Lines 45 to 47 for one reshape `node`: its layout is asked for (and so memoized), and
the node is marked optimized when it is in place.  Returns the layout and the program. -/
def prepare (h : helpers) (p : program_impl) (node : String) : layout × program_impl :=
  let r := p.get_output_layout h.calc_output_layout node
  let p := r.2
  if h.is_in_place p node then
    (r.1, { p with optimized := Function.update p.optimized node true })
  else (r.1, p)

/-- The body of the loop of `handle_reshape::run` for the node `node` of the processing
order.  `none`: a node or dependency the body reaches for does not exist. -/
def run_node (h : helpers) (p : program_impl) (node : String) : Option program_impl :=
  match p.nodes_map node with
  | none => none
  | some prim =>
    match prim.desc with
    | primitive_desc.reshape output_shape =>
      match (p.dependencies node)[0]? with
      | none => none
      | some input_node =>
        if p.is_reorder input_node then some p
        else
          match split_block h node input_node output_shape (prepare h p node).2 with
          | none => none
          | some q => bridge_block h node input_node (prepare h p node).1 q
    | _ => some p

/-- `handle_reshape::run`: the body for every node of the processing order as it stands
when the pass starts (a node the pass splices in goes in front of the node being
processed). -/
def run (h : helpers) (p : program_impl) : Option program_impl :=
  p.processing_order.foldl
    (fun acc node =>
      match acc with
      | none => none
      | some p => run_node h p node)
    (some p)

end handle_reshape

end cldnn

namespace cldnn

namespace handle_reshape

/-- Example helpers: every unknown layout is inferred as a one-element bfyx f32 layout, no
reshape is in place, and two layouts are identical exactly when they are equal. -/
def example_helpers : helpers :=
  { calc_output_layout := fun _ _ => ⟨data_types.f32, format.bfyx, ⟨1, 1, 1, 1⟩, padding.zero⟩
    is_in_place := fun _ _ => false
    are_layouts_identical := fun a b => (a == b, a == b) }

/-- Example program: the input `I` feeds the reshape `N` (bfyx, f32), whose users are, in
this order, the reorder `R1` (to byxf, f16) and the activation `C`. -/
def example_shared : program_impl :=
  { nodes_map := fun id =>
      if id = "I" then some ⟨"I", [], primitive_desc.other "input_layout"⟩
      else if id = "N" then some ⟨"N", ["I"], primitive_desc.reshape ⟨1, 12, 1, 1⟩⟩
      else if id = "R1" then
        some ⟨"R1", ["N"], primitive_desc.reorder format.byxf data_types.f16⟩
      else if id = "C" then some ⟨"C", ["N"], primitive_desc.other "activation"⟩
      else none
    dependencies := fun id =>
      if id = "N" then ["I"] else if id = "R1" then ["N"] else if id = "C" then ["N"] else []
    users := fun id => if id = "I" then ["N"] else if id = "N" then ["R1", "C"] else []
    output_layout := fun id =>
      if id = "N" then some ⟨data_types.f32, format.bfyx, ⟨1, 12, 1, 1⟩, padding.zero⟩
      else if id = "R1" then some ⟨data_types.f16, format.byxf, ⟨1, 12, 1, 1⟩, padding.zero⟩
      else none
    output := fun _ => false
    optimized := fun _ => false
    processing_order := ["I", "N", "R1", "C"] }

/-- Example program: the input `I` feeds the reshape `N` (yxfb, f32), whose users are, in
this order, the activation `C` and the reorder `R1` (to byxf, f16). -/
def example_bridge : program_impl :=
  { nodes_map := fun id =>
      if id = "I" then some ⟨"I", [], primitive_desc.other "input_layout"⟩
      else if id = "N" then some ⟨"N", ["I"], primitive_desc.reshape ⟨1, 12, 1, 1⟩⟩
      else if id = "R1" then
        some ⟨"R1", ["N"], primitive_desc.reorder format.byxf data_types.f16⟩
      else if id = "C" then some ⟨"C", ["N"], primitive_desc.other "activation"⟩
      else none
    dependencies := fun id =>
      if id = "N" then ["I"] else if id = "R1" then ["N"] else if id = "C" then ["N"] else []
    users := fun id => if id = "I" then ["N"] else if id = "N" then ["C", "R1"] else []
    output_layout := fun id =>
      if id = "N" then some ⟨data_types.f32, format.yxfb, ⟨1, 12, 1, 1⟩, padding.zero⟩
      else if id = "R1" then some ⟨data_types.f16, format.byxf, ⟨1, 12, 1, 1⟩, padding.zero⟩
      else none
    output := fun _ => false
    optimized := fun _ => false
    processing_order := ["I", "N", "C", "R1"] }

end handle_reshape

end cldnn

namespace cldnn

namespace handle_reshape

/-- Example program: `example_bridge` after lines 45 to 104 of the body for `N`. -/
def example_bridge_split : program_impl :=
  (split_block example_helpers "N" "I" ⟨1, 12, 1, 1⟩
    (prepare example_helpers example_bridge "N").2).getD example_bridge

end handle_reshape

end cldnn

namespace cldnn

namespace pre_optimize_bias

/-- The arguments of one call of `layout_optimizer::get_reorder`, in the order of the call:
the layout of the data, its id, the kind of data, the node that uses it and the output
layout of that node.  The enum of the kinds is not among the sources: `T` stands for it. -/
structure get_reorder_args (T : Type) where
  data_layout : layout
  id : String
  type : T
  user : String
  user_layout : layout

/-- The loop of `optimize_bias` from index `i` on.  `layout_optimizer::get_reorder` is not
among the sources: `get_reorder` stands for it, a function of the optimizer state `lo` and
the arguments that returns the pair (`first`: the reorder descriptor, if one is needed;
`second`) and the next optimizer state.  The overload of `add_intermediate` that takes a
descriptor is `get_or_create` followed by `add_intermediate` on the node.  Every call of
`get_reorder` is recorded, with what it returned, at the end of the trace.  The first
argument bounds the number of iterations; `none`: the bound is used up, or the body reaches
for a dependency that does not exist. -/
def bias_loop {LO T : Type} (infer : program_impl → String → layout)
    (get_reorder : LO → get_reorder_args T → (Option primitive × Bool) × LO)
    (bias_type : T) (node : String) (output_layout : layout) :
    Nat → Nat → program_impl → LO →
      List (get_reorder_args T × (Option primitive × Bool)) →
      Option (program_impl × LO × List (get_reorder_args T × (Option primitive × Bool)))
  | 0, i, p, lo, trace =>
    if i < (p.dependencies node).length then none else some (p, lo, trace)
  | fuel + 1, i, p, lo, trace =>
    if i < (p.dependencies node).length then
      match (p.dependencies node)[i]? with
      | none => none
      | some bias =>
        let r := p.get_output_layout infer bias
        let args : get_reorder_args T := ⟨r.1, bias, bias_type, node, output_layout⟩
        let reorder := get_reorder lo args
        match reorder.1.1 with
        | some first =>
          match (r.2.get_or_create first).add_intermediate first.id node i
              (!reorder.1.2) with
          | none => none
          | some p =>
            bias_loop infer get_reorder bias_type node output_layout fuel (i + 1) p
              reorder.2 (trace ++ [(args, reorder.1)])
        | none =>
          bias_loop infer get_reorder bias_type node output_layout fuel (i + 1) r.2
            reorder.2 (trace ++ [(args, reorder.1)])
    else some (p, lo, trace)

/-- `pre_optimize_bias::optimize_bias` for the node of id `node`; `bias_type` stands for
`layout_optimizer::data_type::bias`.  Returns the program, the optimizer state and the
trace of the calls of `get_reorder`.  `none`: the node does not exist, or the loop gave
`none`. -/
def optimize_bias {LO T : Type} (infer : program_impl → String → layout)
    (get_reorder : LO → get_reorder_args T → (Option primitive × Bool) × LO)
    (bias_type : T) (p : program_impl) (lo : LO) (node : String) :
    Option (program_impl × LO × List (get_reorder_args T × (Option primitive × Bool))) :=
  match p.nodes_map node with
  | none => none
  | some prim =>
    let r := p.get_output_layout infer node
    let output_layout := r.1
    let p := r.2
    let weights_offset := prim.input.length
    let bias_offset := weights_offset + prim.weights_count
    bias_loop infer get_reorder bias_type node output_layout
      ((p.dependencies node).length - bias_offset) bias_offset p lo []

/-- The body of the loop of `pre_optimize_bias::run(p, lo)` for the node `prim` of the
processing order: the dispatch on the type of the primitive. -/
def run_node {LO T : Type} (infer : program_impl → String → layout)
    (get_reorder : LO → get_reorder_args T → (Option primitive × Bool) × LO)
    (bias_type : T) (p : program_impl) (lo : LO) (prim : String) :
    Option (program_impl × LO × List (get_reorder_args T × (Option primitive × Bool))) :=
  match p.nodes_map prim with
  | none => none
  | some d =>
    match d.desc with
    | primitive_desc.convolution _ weights_quantization_term =>
      if !weights_quantization_term then optimize_bias infer get_reorder bias_type p lo prim
      else some (p, lo, [])
    | primitive_desc.deconvolution _ => optimize_bias infer get_reorder bias_type p lo prim
    | primitive_desc.fully_connected _ weights_quantization_term =>
      if !weights_quantization_term then optimize_bias infer get_reorder bias_type p lo prim
      else some (p, lo, [])
    | primitive_desc.embed _ => optimize_bias infer get_reorder bias_type p lo prim
    | _ => some (p, lo, [])

/-- `pre_optimize_bias::run(p, lo)`: the body for every node of the processing order as it
stands when the pass starts; the traces are joined in order. -/
def run {LO T : Type} (infer : program_impl → String → layout)
    (get_reorder : LO → get_reorder_args T → (Option primitive × Bool) × LO)
    (bias_type : T) (p : program_impl) (lo : LO) :
    Option (program_impl × LO × List (get_reorder_args T × (Option primitive × Bool))) :=
  p.processing_order.foldl
    (fun acc prim =>
      match acc with
      | none => none
      | some (p, lo, trace) =>
        match run_node infer get_reorder bias_type p lo prim with
        | none => none
        | some (p, lo, t) => some (p, lo, trace ++ t))
    (some (p, lo, []))

/-- Example optimizer: it asks for the reorder `reorder_<id>` to bfyx in front of every
data that is not bfyx, and counts its calls. -/
def example_get_reorder (lo : Nat) (args : get_reorder_args Unit) :
    (Option primitive × Bool) × Nat :=
  if args.data_layout.format = format.bfyx then ((none, false), lo + 1)
  else
    ((some ⟨"reorder_" ++ args.id, [args.id],
      primitive_desc.reorder format.bfyx args.data_layout.data_type⟩, false), lo + 1)

/-- Example program: the convolution `conv` reads the input `in`, the weights `w` and the
two bias inputs `b0` (bfyx) and `b1` (yxfb). -/
def example_conv : program_impl :=
  { nodes_map := fun id =>
      if id = "in" then some ⟨"in", [], primitive_desc.other "input_layout"⟩
      else if id = "w" then some ⟨"w", [], primitive_desc.other "data"⟩
      else if id = "b0" then some ⟨"b0", [], primitive_desc.other "data"⟩
      else if id = "b1" then some ⟨"b1", [], primitive_desc.other "data"⟩
      else if id = "conv" then some ⟨"conv", ["in"], primitive_desc.convolution ["w"] false⟩
      else none
    dependencies := fun id => if id = "conv" then ["in", "w", "b0", "b1"] else []
    users := fun id =>
      if id = "in" ∨ id = "w" ∨ id = "b0" ∨ id = "b1" then ["conv"] else []
    output_layout := fun id =>
      if id = "b0" then some ⟨data_types.f32, format.bfyx, ⟨1, 1, 8, 1⟩, padding.zero⟩
      else if id = "b1" then some ⟨data_types.f32, format.yxfb, ⟨1, 1, 8, 1⟩, padding.zero⟩
      else if id = "conv" then some ⟨data_types.f32, format.bfyx, ⟨1, 8, 4, 4⟩, padding.zero⟩
      else none
    output := fun _ => false
    optimized := fun _ => false
    processing_order := ["in", "w", "b0", "b1", "conv"] }

end pre_optimize_bias

end cldnn

namespace kernel_selector

/-- The `WeightsLayout` enumerators this kernel names. -/
inductive WeightsLayout
  | iy_xs_os_xsv2_osv16__ao32 | iy_xs_os_xsv2_osv8__ao32
  deriving DecidableEq, Repr

/-- The value of a JIT constant: `MakeJitConstant` is given numbers and strings here. -/
inductive JitValue
  | num (n : Nat)
  | str (s : String)
  deriving DecidableEq, Repr

/-- What `MakeJitConstant(name, value)` builds. -/
structure JitConstant where
  name : String
  value : JitValue
  deriving DecidableEq, Repr

namespace ConvolutionKernel_bfyx_GEMMLike

/-- `ConvolutionKernel_bfyx_GEMMLike::GetKernelName`; `kernelName` is the member of the base
class. -/
def GetKernelName (kernelName : String) (params : convolution_params) : String :=
  if params.input0_DType = Datatype.F32 then kernelName ++ "_fp32"
  else kernelName ++ "_fp16"

/-- `ConvolutionKernel_bfyx_GEMMLike::GetSupportedWeightLayouts`. -/
def GetSupportedWeightLayouts (params : convolution_params) : List WeightsLayout :=
  if params.input0_DType = Datatype.F16 then [WeightsLayout.iy_xs_os_xsv2_osv16__ao32]
  else [WeightsLayout.iy_xs_os_xsv2_osv8__ao32]

/-- `ConvolutionKernel_bfyx_GEMMLike::GetJitConstants`.  `Parent_GetJitConstants` is the
function of the base class, whose body is not among the sources; `AddConstants` and
`AddConstant` add at the end.  `none`: one of the divisions (`RoundUp`, `CeilDiv`, `%`) has
a zero divisor. -/
def GetJitConstants (Parent_GetJitConstants : convolution_params → DispatchData → List JitConstant)
    (params : convolution_params) (runInfo : DispatchData) : Option (List JitConstant) :=
  let jit := Parent_GetJitConstants params runInfo
  if runInfo.gemmStyle.subBlockDimN = 0 ∨ runInfo.gemmStyle.subBlockDimM = 0 ∨
      runInfo.gemmStyle.globalWorkSizeDY = 0 ∨ runInfo.lws1 = 0 then none
  else
    let jit := jit ++
      [ ⟨"ALIGNED_OFM", JitValue.num (RoundUp params.output_Feature runInfo.gemmStyle.subBlockDimN)⟩,
        ⟨"DX", JitValue.num runInfo.gemmStyle.globalWorkSizeDX⟩,
        ⟨"DY", JitValue.num runInfo.gemmStyle.globalWorkSizeDY⟩,
        ⟨"FILTER_SIZE_X_DIV2", JitValue.num (params.filterSize_x / 2)⟩,
        ⟨"INPUT_BUFFER_WIDTH_PADDED", JitValue.str ""⟩,
        ⟨"INPUT_BUFFER_HEIGHT_PADDED", JitValue.str ""⟩ ]
    if CeilDiv (RoundUp (params.output_X * params.output_Y) runInfo.gemmStyle.subBlockDimM)
        runInfo.gemmStyle.globalWorkSizeDY % runInfo.lws1 != 0 then
      some (jit ++ [⟨"LEFTOVERS", JitValue.num 1⟩])
    else some jit

end ConvolutionKernel_bfyx_GEMMLike

end kernel_selector

namespace cldnn

namespace gpu

/-- What an `event_impl::ptr` of the vector points to, as far as `set_queue_stamp` can tell
them apart: a `base_event` (or an object of a class derived from it) with its queue stamp;
an `ocl_base_event` that is not a `base_event`, such as a `base_events`, with its queue
stamp; or nothing (a null pointer). -/
inductive event_impl
  | base_event (_queue_stamp : Nat)
  | base_events (_queue_stamp : Nat)
  | null
  deriving DecidableEq, Repr

/-- The data members of a `base_events` object that `attach_events` reads and writes:
`_attached` (of `event_impl`), `_queue_stamp` (of `ocl_base_event`, a `uint64_t`) and
`_events`. -/
structure base_events where
  _attached : Bool
  _queue_stamp : Nat
  _events : List event_impl
  deriving DecidableEq, Repr

namespace base_events

/-- The loop of `set_queue_stamp` over `_events`, with `_queue_stamp_max` so far.
`dynamic_cast<base_event*>` gives a null pointer for an object that is not a `base_event`,
and the pointer is dereferenced unchecked: `none` is that fault. -/
def set_queue_stamp_loop : List event_impl → Nat → Option Nat
  | [], _queue_stamp_max => some _queue_stamp_max
  | event_impl.base_event _queue_stamp :: rest, _queue_stamp_max =>
    set_queue_stamp_loop rest
      (if _queue_stamp > _queue_stamp_max then _queue_stamp else _queue_stamp_max)
  | _ :: _, _ => none

/-- `base_events::set_queue_stamp`. -/
def set_queue_stamp (self : base_events) : Option base_events :=
  match set_queue_stamp_loop self._events 0 with
  | none => none
  | some _queue_stamp_max => some { self with _queue_stamp := _queue_stamp_max }

/-- The constructor `base_events(ctx, ev)`: `ocl_base_event(0, true)`, the events, then
`set_queue_stamp()`. -/
def ctor_events (ev : List event_impl) : Option base_events :=
  set_queue_stamp { _attached := true, _queue_stamp := 0, _events := ev }

/-- The constructor `base_events(ctx)`: `ocl_base_event(0, false)` and no event. -/
def ctor : base_events := { _attached := false, _queue_stamp := 0, _events := [] }

/-- `base_events::attach_events`: the object afterwards, with the exception if one is
thrown; `none` is a fault. -/
def attach_events (self : base_events) (ev : List event_impl) :
    Option (base_events × Option Exception) :=
  if self._attached then
    some (self, some (Exception.runtime_error "Trying to attach events to valid event object."))
  else
    let self := { self with _events := ev }
    let self := { self with _attached := true }
    match set_queue_stamp self with
    | none => none
    | some self => some (self, none)

end base_events

end gpu

/-- `std::string::npos`, for a 64-bit `size_t`. -/
def npos : Nat := 18446744073709551615

/-- `std::string::find(char)` of the C++ standard library: the position of the first
occurrence, `npos` when there is none. -/
def find (str : List Char) (c : Char) : Nat :=
  if c ∈ str then str.indexOf c else npos

/-- `std::string::substr(pos, count)` of the C++ standard library: the characters from
`pos` on, at most `count` of them; `none` is the `std::out_of_range` it throws when `pos`
is beyond the end. -/
def substr (str : List Char) (pos count : Nat) : Option (List Char) :=
  if pos > str.length then none
  else some ((str.drop pos).take (min count (str.length - pos)))

/-- `get_extr_type` of `to_string_utils.h`; the arithmetic on `size_t` is modulo `2^64`.
`none`: `substr` throws. -/
def get_extr_type (str : String) : Option String :=
  let «begin» := find str.data '<'
  let «end» := find str.data '>'
  if «begin» == npos || «end» == npos then some ""
  else
    (substr str.data ((«begin» + 1) % 2 ^ 64)
      (((«end» + 2 ^ 64 - «begin») % 2 ^ 64 + 2 ^ 64 - 1) % 2 ^ 64)).map String.mk

/-- `dt_to_str` of `to_string_utils.h`. -/
def dt_to_str (dt : data_types) : String :=
  match dt with
  | data_types.i8 => "i8"
  | data_types.u8 => "u8"
  | data_types.i32 => "i32"
  | data_types.i64 => "i64"
  | data_types.f16 => "f16"
  | data_types.f32 => "f32"
  | data_types.other value => "unknown (" ++ toString value ++ ")"

/-- `fmt_to_str` of `to_string_utils.h`. -/
def fmt_to_str (fmt : format) : String :=
  match fmt with
  | format.yxfb => "yxfb"
  | format.byxf => "byxf"
  | format.bfyx => "bfyx"
  | format.fyxb => "fyxb"
  | format.bfyx_f16 => "bfyx_f16"
  | format.o_i_yx_i16_o16 => "o_i_yx_i16_o16"
  | format.os_iyx_osv16 => "os_iyx_osv16"
  | format.os_iyx_osv32 => "os_iyx_osv32"
  | format.os_iyx_osv64 => "os_iyx_osv64"
  | format.bs_xs_xsv8_bsv8 => "bs_xs_xsv8_bsv8"
  | format.bs_xs_xsv8_bsv16 => "bs_xs_xsv8_bsv16"
  | format.bs_x_bsv16 => "bs_x_bsv16"
  | format.bf8_xy16 => "bf8_xy16"
  | format.image_2d_weights_c4_fyx_b => "image_2d_weights_c4_fyx_b"
  | format.image_2d_weights_c1_b_fyx => "image_2d_weights_c1_b_fyx"
  | format.winograd_2x3_s1_data => "winograd_2x3_s1_data"
  | format.winograd_2x3_s1_weights => "winograd_2x3_s1_weights"
  | format.winograd_2x3_s1_fused_weights => "winograd_2x3_s1_fused_weights"
  | format.winograd_6x3_s1_fused_weights => "winograd_6x3_s1_fused_weights"
  | format.image_2d_weights_winograd_6x3_s1_fbxyb => "image_2d_weights_winograd_6x3_s1_fbxyb"
  | format.image_2d_weights_winograd_6x3_s1_xfbyb => "image_2d_weights_winograd_6x3_s1_xfbyb"
  | format.os_is_yx_isa8_osv8_isv4 => "os_is_yx_isa8_osv8_isv4"
  | format.os_is_yx_isa8_osv8_isv4_swizzled_by_4 => "os_is_yx_isa8_osv8_isv4_swizzled_by_4"
  | format.is_o_yx_isv32 => "is_o_yx_isv32"
  | format.is_o32_yx_isv32_swizzled_by_4 => "is_o32_yx_isv32_swizzled_by_4"
  | format.os_is_y_x8_osv8_isv4 => "os_is_y_x8_osv8_isv4"
  | format.os_is_y_x8_osv8_isv4_swizzled_by_4 => "os_is_y_x8_osv8_isv4_swizzled_by_4"
  | format.byxf_af32 => "byxf_af32"
  | format.byx8_f4 => "byx8_f4"
  | format.fs_bs_yx_bsv4_fsv32 => "fs_bs_yx_bsv4_fsv32"
  | format.bf_lyx_yx => "bf_lyx_yx"
  | format.b_fs_yx_fsv4 => "b_fs_yx_fs4"
  | format.os_is_yx_osv16_isv4 => "os_is_yx_osv16_isv4"
  | format.bfzyx => "bfzyx"
  | format.fs_b_yx_fsv32 => "fs_b_yx_fsv32"
  | format.other value => "unknown (" ++ toString value ++ ")"

end cldnn

namespace cldnn

namespace handle_reshape

/-- Example program: the input `I` feeds the reshape `N` (f32, in the format given, batch 2,
feature 3, x 4, y 5), whose only user is the activation `C`. -/
def example_plain (fmt : format) : program_impl :=
  { nodes_map := fun id =>
      if id = "I" then some ⟨"I", [], primitive_desc.other "input_layout"⟩
      else if id = "N" then some ⟨"N", ["I"], primitive_desc.reshape ⟨2, 3, 4, 5⟩⟩
      else if id = "C" then some ⟨"C", ["N"], primitive_desc.other "activation"⟩
      else none
    dependencies := fun id => if id = "N" then ["I"] else if id = "C" then ["N"] else []
    users := fun id => if id = "I" then ["N"] else if id = "N" then ["C"] else []
    output_layout := fun id =>
      if id = "N" then some ⟨data_types.f32, fmt, ⟨2, 3, 4, 5⟩, padding.zero⟩ else none
    output := fun _ => false
    optimized := fun _ => false
    processing_order := ["I", "N", "C"] }

end handle_reshape

end cldnn

namespace cldnn

namespace handle_reshape

/-- Example program: the input `I` feeds the reshape `N` (bfyx, f32), whose users are, in
this order, the reorder `R1` (to byxf, f16), the activation `C` and the reorder `R2` (to
yxfb, f32). -/
def example_two_reorders : program_impl :=
  { nodes_map := fun id =>
      if id = "I" then some ⟨"I", [], primitive_desc.other "input_layout"⟩
      else if id = "N" then some ⟨"N", ["I"], primitive_desc.reshape ⟨1, 12, 1, 1⟩⟩
      else if id = "R1" then
        some ⟨"R1", ["N"], primitive_desc.reorder format.byxf data_types.f16⟩
      else if id = "C" then some ⟨"C", ["N"], primitive_desc.other "activation"⟩
      else if id = "R2" then
        some ⟨"R2", ["N"], primitive_desc.reorder format.yxfb data_types.f32⟩
      else none
    dependencies := fun id =>
      if id = "N" then ["I"] else if id = "R1" then ["N"] else if id = "C" then ["N"]
      else if id = "R2" then ["N"] else []
    users := fun id => if id = "I" then ["N"] else if id = "N" then ["R1", "C", "R2"] else []
    output_layout := fun id =>
      if id = "N" then some ⟨data_types.f32, format.bfyx, ⟨1, 12, 1, 1⟩, padding.zero⟩
      else if id = "R1" then some ⟨data_types.f16, format.byxf, ⟨1, 12, 1, 1⟩, padding.zero⟩
      else if id = "R2" then some ⟨data_types.f32, format.yxfb, ⟨1, 12, 1, 1⟩, padding.zero⟩
      else none
    output := fun _ => false
    optimized := fun _ => false
    processing_order := ["I", "N", "R1", "C", "R2"] }

end handle_reshape

end cldnn

/-! ## Theorems -/

namespace kernel_selector

namespace ROIPoolingKernelRef

/-- Started at any `m ≥ 1` the search loop returns: its result lies in `[1, m]`, divides
`gws0`, and nothing between it and `m` divides `gws0`. -/
theorem lwsLoop_spec (gws0 : Nat) :
    ∀ m : Nat, 1 ≤ m →
      ∃ r, lwsLoop gws0 m = some r ∧ 1 ≤ r ∧ r ≤ m ∧ gws0 % r = 0 ∧
        ∀ k, r < k → k ≤ m → gws0 % k ≠ 0 := by
  intro m
  induction m with
  | zero => intro h; omega
  | succ m ih =>
    intro _
    by_cases hdiv : gws0 % (m + 1) = 0
    · refine ⟨m + 1, ?_, by omega, le_refl _, hdiv, ?_⟩
      · simp [lwsLoop, hdiv]
      · intro k h1 h2; omega
    · have hm : 1 ≤ m := by
        rcases Nat.eq_zero_or_pos m with h0 | hpos
        · subst h0; simp [Nat.mod_one] at hdiv
        · exact hpos
      obtain ⟨r, hr, h1, h2, h3, h4⟩ := ih hm
      refine ⟨r, ?_, h1, by omega, h3, ?_⟩
      · simp [lwsLoop, hdiv, hr]
      · intro k hk1 hk2
        rcases Nat.lt_or_ge m k with hlt | hge
        · have : k = m + 1 := by omega
          subst this; exact hdiv
        · exact h4 k hk1 hge

end ROIPoolingKernelRef

/-- `CeilDiv a b` is the ceiling of `a / b`: the least `q` with `a ≤ q * b`. -/
theorem CeilDiv_is_ceiling (a b : Nat) (hb : 0 < b) :
    a ≤ CeilDiv a b * b ∧ ∀ q, a ≤ q * b → CeilDiv a b ≤ q := by
  unfold CeilDiv
  constructor
  · have h1 := Nat.div_add_mod (a + b - 1) b
    have h2 := Nat.mod_lt (a + b - 1) hb
    have h3 : (a + b - 1) / b * b = b * ((a + b - 1) / b) := Nat.mul_comm _ _
    omega
  · intro q hq
    apply Nat.le_of_lt_succ
    rw [Nat.div_lt_iff_lt_mul hb, Nat.succ_mul]
    omega

/-- `RoundUp a b` is a multiple of `b`. -/
theorem RoundUp_mod (a b : Nat) : RoundUp a b % b = 0 := by
  unfold RoundUp
  exact Nat.mul_mod_left _ _

/-- `RoundUp a b` is the least multiple of `b` that is at least `a`. -/
theorem RoundUp_is_least_multiple (a b : Nat) (hb : 0 < b) :
    b ∣ RoundUp a b ∧ a ≤ RoundUp a b ∧ ∀ m, b ∣ m → a ≤ m → RoundUp a b ≤ m := by
  refine ⟨Dvd.intro_left _ rfl, (CeilDiv_is_ceiling a b hb).1, ?_⟩
  rintro m ⟨q, rfl⟩ hm
  unfold RoundUp
  have := (CeilDiv_is_ceiling a b hb).2 q (by rw [Nat.mul_comm]; exact hm)
  calc CeilDiv a b * b ≤ q * b := Nat.mul_le_mul_right b this
    _ = b * q := Nat.mul_comm _ _

namespace ROIPoolingKernelRef

/-- `SetDefault` always returns: the record it fills in, with a local size `r` found by
the search loop in `[1, min (max n 1) 32]`, dividing `n`, and maximal with that property. -/
theorem SetDefault_returns (params : roi_pooling_params) :
    ∃ r, SetDefault params =
        some { gws0 := params.output_LogicalSize, gws1 := 1, gws2 := 1,
               lws0 := r, lws1 := 1, lws2 := 1,
               fp16UnitUsed := params.input0_DType == Datatype.F16,
               effiency := Priority.unset } ∧
      1 ≤ r ∧ r ≤ min (max params.output_LogicalSize 1) 32 ∧
      params.output_LogicalSize % r = 0 ∧
      ∀ k, r < k → k ≤ min (max params.output_LogicalSize 1) 32 →
        params.output_LogicalSize % k ≠ 0 := by
  obtain ⟨r, hr, h1, h2, h3, h4⟩ :=
    lwsLoop_spec params.output_LogicalSize (min (max params.output_LogicalSize 1) 32)
      (by omega)
  exact ⟨r, by simp only [SetDefault, hr], h1, h2, h3, h4⟩

/-- C1: for every `roi_pooling_params` (every output logical size, zero included)
`SetDefault` returns dispatch data with `gws = (n, 1, 1)`, `lws1 = lws2 = 1`,
`1 ≤ lws0 ≤ 32` and `n mod lws0 = 0`; so in every dimension the global size is a multiple of
the local size and the local size is at least one. -/
theorem roi_SetDefault_geometry (params : roi_pooling_params) :
    ∃ kd, SetDefault params = some kd ∧
      kd.gws0 = params.output_LogicalSize ∧ kd.gws1 = 1 ∧ kd.gws2 = 1 ∧
      kd.lws1 = 1 ∧ kd.lws2 = 1 ∧ 1 ≤ kd.lws0 ∧ kd.lws0 ≤ 32 ∧
      params.output_LogicalSize % kd.lws0 = 0 ∧
      (kd.gws0 % kd.lws0 = 0 ∧ kd.gws1 % kd.lws1 = 0 ∧ kd.gws2 % kd.lws2 = 0) ∧
      (1 ≤ kd.lws0 ∧ 1 ≤ kd.lws1 ∧ 1 ≤ kd.lws2) := by
  obtain ⟨r, hr, h1, h2, h3, _⟩ := SetDefault_returns params
  refine ⟨_, hr, rfl, rfl, rfl, rfl, rfl, h1, ?_, h3,
    ⟨h3, Nat.mod_one _, Nat.mod_one _⟩, h1, le_refl _, le_refl _⟩
  exact le_trans h2 (Nat.min_le_right _ _)

/-- C2: for every output logical size `n ≥ 1` the local size `lws0` chosen by `SetDefault` is
the largest divisor of `n` not exceeding `min n 32`: it divides `n`, it is at most
`min n 32`, and no `k` with `lws0 < k ≤ min n 32` divides `n`.  For `n = 100` it is `25`. -/
theorem roi_SetDefault_largest_divisor :
    (∀ params : roi_pooling_params, 1 ≤ params.output_LogicalSize →
      ∃ kd, SetDefault params = some kd ∧
        kd.lws0 ∣ params.output_LogicalSize ∧
        kd.lws0 ≤ min params.output_LogicalSize 32 ∧
        ∀ k, kd.lws0 < k → k ≤ min params.output_LogicalSize 32 →
          ¬ k ∣ params.output_LogicalSize) ∧
    (∀ params : roi_pooling_params, params.output_LogicalSize = 100 →
      ∃ kd, SetDefault params = some kd ∧ kd.lws0 = 25) := by
  constructor
  · intro params hn
    obtain ⟨r, hr, _, h2, h3, h4⟩ := SetDefault_returns params
    have hmax : max params.output_LogicalSize 1 = params.output_LogicalSize :=
      Nat.max_eq_left hn
    rw [hmax] at h2 h4
    refine ⟨_, hr, Nat.dvd_of_mod_eq_zero h3, h2, ?_⟩
    intro k hk1 hk2 hdvd
    exact h4 k hk1 hk2 (Nat.mod_eq_zero_of_dvd hdvd)
  · intro params hn
    refine ⟨_, by simp only [SetDefault, hn]; rfl, rfl⟩

/-- Witness of C2 at the scenario of the specification: an output of 100 elements. -/
theorem roi_SetDefault_largest_divisor_witness :
    (∃ kd, SetDefault ⟨Datatype.F32, 100, ⟨true, 256⟩⟩ = some kd ∧
        kd.lws0 ∣ 100 ∧ kd.lws0 ≤ min 100 32 ∧
        ∀ k, kd.lws0 < k → k ≤ min 100 32 → ¬ k ∣ 100) ∧
    (∃ kd, SetDefault ⟨Datatype.F32, 100, ⟨true, 256⟩⟩ = some kd ∧ kd.lws0 = 25) :=
  ⟨roi_SetDefault_largest_divisor.1 ⟨Datatype.F32, 100, ⟨true, 256⟩⟩ (by decide),
   roi_SetDefault_largest_divisor.2 ⟨Datatype.F32, 100, ⟨true, 256⟩⟩ rfl⟩

end ROIPoolingKernelRef

namespace ConvolutionKernel_bfyx_GEMMLike

/-- The local sizes `SetDefault` chooses: `(1, 16, 1)` for an `F16` input, `(1, 8, 1)`
otherwise. -/
theorem SetDefault_lws (Parent_SetDefault : convolution_params → Int → DispatchData)
    (arg : convolution_params) (autoTuneIndex : Int) :
    (SetDefault Parent_SetDefault arg autoTuneIndex).lws0 = 1 ∧
    (SetDefault Parent_SetDefault arg autoTuneIndex).lws1 =
      (if arg.input0_DType = Datatype.F16 then 16 else 8) ∧
    (SetDefault Parent_SetDefault arg autoTuneIndex).lws2 = 1 := by
  by_cases h : arg.input0_DType = Datatype.F16
  · simp only [SetDefault, h, if_true]
    exact ⟨trivial, trivial, trivial⟩
  · simp only [SetDefault, h, if_false]
    exact ⟨trivial, trivial, trivial⟩

/-- The global sizes `SetDefault` computes, written with the local size `lws1` it chose. -/
theorem SetDefault_gws (Parent_SetDefault : convolution_params → Int → DispatchData)
    (arg : convolution_params) (autoTuneIndex : Int) :
    (SetDefault Parent_SetDefault arg autoTuneIndex).gws0 =
      RoundUp (CeilDiv (RoundUp arg.output_Feature 32) 32) 1 ∧
    (SetDefault Parent_SetDefault arg autoTuneIndex).gws1 =
      RoundUp
        (CeilDiv
          (RoundUp (arg.output_X * arg.output_Y)
            (if arg.input0_DType = Datatype.F16 then 1 else 2))
          (if arg.input0_DType = Datatype.F16 then 1 else 2))
        (SetDefault Parent_SetDefault arg autoTuneIndex).lws1 ∧
    (SetDefault Parent_SetDefault arg autoTuneIndex).gws2 = arg.output_Batch := by
  by_cases h : arg.input0_DType = Datatype.F16
  · simp only [SetDefault, h, if_true]
    exact ⟨trivial, trivial, trivial⟩
  · simp only [SetDefault, h, if_false]
    exact ⟨trivial, trivial, trivial⟩

/-- C3: for every `convolution_params` (and whatever the base class filled in) the dispatch
data returned by `SetDefault` has `lws0 = lws2 = 1`, `lws1 = 16` for an `F16` input and `8`
otherwise, `gws2` equal to the output batch size, and `gws[d] mod lws[d] = 0` for
`d = 0, 1, 2`. -/
theorem conv_SetDefault_geometry (Parent_SetDefault : convolution_params → Int → DispatchData)
    (arg : convolution_params) (autoTuneIndex : Int) :
    (SetDefault Parent_SetDefault arg autoTuneIndex).lws0 = 1 ∧
    (SetDefault Parent_SetDefault arg autoTuneIndex).lws2 = 1 ∧
    (SetDefault Parent_SetDefault arg autoTuneIndex).lws1 =
      (if arg.input0_DType = Datatype.F16 then 16 else 8) ∧
    (SetDefault Parent_SetDefault arg autoTuneIndex).gws2 = arg.output_Batch ∧
    (SetDefault Parent_SetDefault arg autoTuneIndex).gws0 %
      (SetDefault Parent_SetDefault arg autoTuneIndex).lws0 = 0 ∧
    (SetDefault Parent_SetDefault arg autoTuneIndex).gws1 %
      (SetDefault Parent_SetDefault arg autoTuneIndex).lws1 = 0 ∧
    (SetDefault Parent_SetDefault arg autoTuneIndex).gws2 %
      (SetDefault Parent_SetDefault arg autoTuneIndex).lws2 = 0 := by
  obtain ⟨h0, h1, h2⟩ := SetDefault_lws Parent_SetDefault arg autoTuneIndex
  obtain ⟨_, g1, g2⟩ := SetDefault_gws Parent_SetDefault arg autoTuneIndex
  refine ⟨h0, h2, h1, g2, ?_, ?_, ?_⟩
  · rw [h0]; exact Nat.mod_one _
  · rw [g1]; exact RoundUp_mod _ _
  · rw [h2]; exact Nat.mod_one _

end ConvolutionKernel_bfyx_GEMMLike

/-- C4, as stated, fails: a device reporting a maximum work-group size of 16 and an output of
32 elements get the local size 32 from the ROI pooling `SetDefault`. -/
theorem roi_lws0_exceeds_small_device :
    ∃ kd, ROIPoolingKernelRef.SetDefault
        ⟨Datatype.F32, 32, ⟨true, cldnn.gpu.cap_work_group_size 16⟩⟩ = some kd ∧
      ¬ kd.lws0 ≤ cldnn.gpu.cap_work_group_size 16 :=
  ⟨_, rfl, by decide⟩

/-- C4, amended: neither `SetDefault` reads the device limit; the ROI pooling local sizes are
`(lws0, 1, 1)` with `1 ≤ lws0 ≤ 32` and the GEMM-like ones `(1, 16 or 8, 1)`.  So every local
size of both kernels lies between 1 and the device maximum work-group size (the reported
value capped at 256) for all parameters exactly when the device reports at least 32. -/
theorem lws_within_device_max (reported : Nat) :
    32 ≤ reported ↔
    ((∀ params : ROIPoolingKernelRef.roi_pooling_params,
      ∃ kd, ROIPoolingKernelRef.SetDefault params = some kd ∧
        (1 ≤ kd.lws0 ∧ kd.lws0 ≤ cldnn.gpu.cap_work_group_size reported) ∧
        (1 ≤ kd.lws1 ∧ kd.lws1 ≤ cldnn.gpu.cap_work_group_size reported) ∧
        (1 ≤ kd.lws2 ∧ kd.lws2 ≤ cldnn.gpu.cap_work_group_size reported)) ∧
    (∀ (Parent_SetDefault : ConvolutionKernel_bfyx_GEMMLike.convolution_params → Int →
          ConvolutionKernel_bfyx_GEMMLike.DispatchData)
        (arg : ConvolutionKernel_bfyx_GEMMLike.convolution_params) (autoTuneIndex : Int),
      (1 ≤ (ConvolutionKernel_bfyx_GEMMLike.SetDefault Parent_SetDefault arg autoTuneIndex).lws0 ∧
        (ConvolutionKernel_bfyx_GEMMLike.SetDefault Parent_SetDefault arg autoTuneIndex).lws0 ≤
          cldnn.gpu.cap_work_group_size reported) ∧
      (1 ≤ (ConvolutionKernel_bfyx_GEMMLike.SetDefault Parent_SetDefault arg autoTuneIndex).lws1 ∧
        (ConvolutionKernel_bfyx_GEMMLike.SetDefault Parent_SetDefault arg autoTuneIndex).lws1 ≤
          cldnn.gpu.cap_work_group_size reported) ∧
      (1 ≤ (ConvolutionKernel_bfyx_GEMMLike.SetDefault Parent_SetDefault arg autoTuneIndex).lws2 ∧
        (ConvolutionKernel_bfyx_GEMMLike.SetDefault Parent_SetDefault arg autoTuneIndex).lws2 ≤
          cldnn.gpu.cap_work_group_size reported))) := by
  constructor
  · intro h
    have hcap : 32 ≤ cldnn.gpu.cap_work_group_size reported := by
      unfold cldnn.gpu.cap_work_group_size
      split <;> omega
    constructor
    · intro params
      obtain ⟨r, hr, h1, h2, _⟩ := ROIPoolingKernelRef.SetDefault_returns params
      have h32 : r ≤ 32 := le_trans h2 (Nat.min_le_right _ _)
      exact ⟨_, hr, ⟨h1, by simp only; omega⟩, ⟨le_refl _, by simp only; omega⟩,
        ⟨le_refl _, by simp only; omega⟩⟩
    · intro P arg idx
      obtain ⟨h0, h1, h2⟩ := ConvolutionKernel_bfyx_GEMMLike.SetDefault_lws P arg idx
      rw [h0, h2, h1]
      refine ⟨⟨le_refl _, by omega⟩, ?_, ⟨le_refl _, by omega⟩⟩
      split <;> omega
  · rintro ⟨hroi, _⟩
    obtain ⟨kd, hkd, ⟨_, hle⟩, _⟩ := hroi ⟨Datatype.F32, 32, ⟨true, 256⟩⟩
    have hev : ROIPoolingKernelRef.SetDefault ⟨Datatype.F32, 32, ⟨true, 256⟩⟩ =
        some ⟨32, 1, 1, 32, 1, 1, false, Priority.unset⟩ := rfl
    rw [hev] at hkd
    injection hkd with hkd
    subst hkd
    have hcap : cldnn.gpu.cap_work_group_size reported ≤ reported := by
      unfold cldnn.gpu.cap_work_group_size
      split <;> omega
    exact le_trans hle hcap

/-- Witness of the amended C4: a device reporting a maximum work-group size of 512, an ROI
pooling output of 100 elements and a half-precision convolution. -/
theorem lws_within_device_max_witness :
    (∃ kd, ROIPoolingKernelRef.SetDefault ⟨Datatype.F32, 100, ⟨true, 256⟩⟩ = some kd ∧
        (1 ≤ kd.lws0 ∧ kd.lws0 ≤ cldnn.gpu.cap_work_group_size 512) ∧
        (1 ≤ kd.lws1 ∧ kd.lws1 ≤ cldnn.gpu.cap_work_group_size 512) ∧
        (1 ≤ kd.lws2 ∧ kd.lws2 ≤ cldnn.gpu.cap_work_group_size 512)) ∧
    (1 ≤ (ConvolutionKernel_bfyx_GEMMLike.SetDefault
            (fun _ _ => ⟨⟨0, 0, 0, 0, 0, 0, false, Priority.unset⟩, ⟨0, 0, 0, 0, 0, 0⟩⟩)
            ⟨Datatype.F16, 3, 10, 10, 3, 2, ⟨true, 256⟩⟩ 0).lws1 ∧
      (ConvolutionKernel_bfyx_GEMMLike.SetDefault
            (fun _ _ => ⟨⟨0, 0, 0, 0, 0, 0, false, Priority.unset⟩, ⟨0, 0, 0, 0, 0, 0⟩⟩)
            ⟨Datatype.F16, 3, 10, 10, 3, 2, ⟨true, 256⟩⟩ 0).lws1 ≤
        cldnn.gpu.cap_work_group_size 512) :=
  ⟨((lws_within_device_max 512).1 (by decide)).1 ⟨Datatype.F32, 100, ⟨true, 256⟩⟩,
   (((lws_within_device_max 512).1 (by decide)).2
      (fun _ _ => ⟨⟨0, 0, 0, 0, 0, 0, false, Priority.unset⟩, ⟨0, 0, 0, 0, 0, 0⟩⟩)
      ⟨Datatype.F16, 3, 10, 10, 3, 2, ⟨true, 256⟩⟩ 0).2.1⟩

namespace ConvolutionKernel_bfyx_GEMMLike

/-- C5: `Validate(p, o)` is `Parent::Validate(p, o) AND CovolutionCheckInput(p, o) AND NOT
(input is F16 AND the engine lacks short sub-group support)`.  The capability matters for a
half-precision input only: for any other input type the result is that of the two earlier
checks, and an `F16` input without the capability is always rejected. -/
theorem Validate_short_subgroup_gate {optional_params : Type}
    (Parent_Validate CovolutionCheckInput : convolution_params → optional_params → Bool)
    (p : convolution_params) (o : optional_params) :
    Validate Parent_Validate CovolutionCheckInput p o =
        (Parent_Validate p o && CovolutionCheckInput p o &&
          !(p.input0_DType == Datatype.F16 && !p.engineInfo.bSubGroupShortSupport)) ∧
    (p.input0_DType ≠ Datatype.F16 →
      Validate Parent_Validate CovolutionCheckInput p o =
        (Parent_Validate p o && CovolutionCheckInput p o)) ∧
    (p.input0_DType = Datatype.F16 → p.engineInfo.bSubGroupShortSupport = false →
      Validate Parent_Validate CovolutionCheckInput p o = false) := by
  unfold Validate
  refine ⟨?_, ?_, ?_⟩
  · cases Parent_Validate p o <;> cases CovolutionCheckInput p o <;>
      cases p.engineInfo.bSubGroupShortSupport <;>
      by_cases h : p.input0_DType = Datatype.F16 <;> simp [h]
  · intro h
    cases Parent_Validate p o <;> cases CovolutionCheckInput p o <;>
      cases p.engineInfo.bSubGroupShortSupport <;> simp [h]
  · intro h hs
    cases Parent_Validate p o <;> cases CovolutionCheckInput p o <;> simp [h, hs]

/-- Witness of C5: an `F32` input on an engine without short sub-group support is accepted
when the two earlier checks pass, and an `F16` input on the same engine is rejected. -/
theorem Validate_short_subgroup_gate_witness :
    Validate (fun _ (_ : Unit) => true) (fun _ _ => true)
        ⟨Datatype.F32, 3, 10, 10, 3, 2, ⟨false, 256⟩⟩ () = (true && true) ∧
    Validate (fun _ (_ : Unit) => true) (fun _ _ => true)
        ⟨Datatype.F16, 3, 10, 10, 3, 2, ⟨false, 256⟩⟩ () = false :=
  ⟨(Validate_short_subgroup_gate (fun _ (_ : Unit) => true) (fun _ _ => true)
      ⟨Datatype.F32, 3, 10, 10, 3, 2, ⟨false, 256⟩⟩ ()).2.1 (by decide),
   (Validate_short_subgroup_gate (fun _ (_ : Unit) => true) (fun _ _ => true)
      ⟨Datatype.F16, 3, 10, 10, 3, 2, ⟨false, 256⟩⟩ ()).2.2 rfl rfl⟩

end ConvolutionKernel_bfyx_GEMMLike

end kernel_selector

namespace cldnn

namespace gpu

open rapidjson

/-- On an object `HasMember` answers whether the member list holds the name. -/
theorem HasMember_object (members : List (String × Value)) (name : String) :
    (Value.object members).HasMember name = some (members.lookup name).isSome := rfl

/-- C6: for a readable cache file that parsed to a JSON object `D` and every compute-unit
count `c`, `get_cache_from_file` returns `D[decimal c]` when `D` has that member (whether or
not it also has a `"24"` member), otherwise `D["24"]` when `D` has that member, otherwise the
empty object; with `c = 48` and a document holding only bucket `"24"` the result is that
bucket. -/
theorem get_cache_from_file_precedence :
    (∀ (c : Nat) (members : List (String × Value)),
      get_cache_from_file c (some (Document.parsed (Value.object members))) =
        some (match members.lookup (toString c) with
              | some bucket => bucket
              | none =>
                match members.lookup "24" with
                | some bucket => bucket
                | none => emptyObject)) ∧
    (∀ bucket : Value,
      get_cache_from_file 48 (some (Document.parsed (Value.object [("24", bucket)]))) =
        some bucket) := by
  constructor
  · intro c members
    simp only [get_cache_from_file, Document.parsed, HasMember_object, Value.getMember]
    cases h1 : members.lookup (toString c) with
    | some b => simp [h1]
    | none =>
      cases h2 : members.lookup "24" with
      | some b => simp [h1, h2]
      | none => simp [h1, h2]
  · intro bucket
    simp only [get_cache_from_file, Document.parsed, HasMember_object, Value.getMember]
    have h48 : toString (48 : Nat) = "48" := by decide
    rw [h48]
    have hl : List.lookup "48" [("24", bucket)] = none := by
      simp [List.lookup]
    have hl2 : List.lookup "24" [("24", bucket)] = some bucket := by
      simp [List.lookup]
    simp [hl, hl2]

/-- C7, what the code does: an unreadable file gives the empty object, but for a file whose
text fails to parse, and for one that parses to a value that is not an object (an array
here), `HasMember` is called on a value that is not an object before the error code is
looked at, which is a fault. -/
theorem get_cache_from_file_unparsable :
    (∀ c : Nat, get_cache_from_file c none = some emptyObject) ∧
    (∀ c code : Nat, get_cache_from_file c (some (Document.failed code)) = none) ∧
    (∀ (c : Nat) (elements : List Value),
      get_cache_from_file c (some (Document.parsed (Value.array elements))) = none) :=
  ⟨fun _ => rfl, fun _ _ => rfl, fun _ _ => rfl⟩

/-- C8, what the code does: when the cache load throws, the handler prints the warning and
then dereferences `device_cache`, which is still null, so the constructor faults; it returns
an object for no platform. -/
theorem ctor_handler_dereferences_null (context : gpu_toolkit) (thrown : Exception) :
    engine_info_internal.ctor { context with platform := Platform.linux }
        (fun _ => Outcome.throws thrown) = ([cache_warning], Outcome.fault) ∧
    (∀ (out : List String) (e : engine_info_internal),
      engine_info_internal.ctor context (fun _ => Outcome.throws thrown) ≠
        (out, Outcome.returns e)) := by
  have hhex : to_string_hex 0x7012 = some "0x7012" := by decide
  constructor
  · simp [engine_info_internal.ctor, get_gpu_device_id, hhex, Parse_through]
  · intro out e
    rcases context with ⟨platform, a, b, c, d⟩
    rcases platform with (_ | _ | _) | _ | _ <;>
      simp [engine_info_internal.ctor, get_gpu_device_id, hhex, Parse_through]

end gpu

/-- Converting to `int` gives a value in the `int` range. -/
theorem int_of_uint32_range (n : Nat) : is_int32 (int_of_uint32 n) := by
  unfold is_int32 int_of_uint32
  split <;> omega

/-- An `int` survives the trip through a `uint32_t`. -/
theorem int_of_uint32_of_int (x : Int) (hx : is_int32 x) :
    int_of_uint32 (uint32_of_int x) = x := by
  unfold is_int32 at hx
  unfold int_of_uint32 uint32_of_int
  split <;> omega

/-- The value of an unsigned 32-bit number converted to `int`: unchanged below `2^31`,
lowered by `2^32` from there on. -/
theorem int_of_uint32_value (n : Nat) (hn : is_uint32 n) :
    int_of_uint32 n =
      if n < 2147483648 then (n : Int) else (n : Int) - 4294967296 := by
  unfold is_uint32 at hn
  unfold int_of_uint32
  rw [Nat.mod_eq_of_lt hn]

/-- A `bool` survives the trip through an unsigned flag. -/
theorem uint32_of_bool_ne_zero (b : Bool) : (uint32_of_bool b != 0) = b := by
  cases b <;> rfl

/-- A `bool` survives the trip through a signed flag. -/
theorem int32_of_bool_ne_zero (b : Bool) : (int32_of_bool b != 0) = b := by
  cases b <;> rfl

namespace detection_output

/-- The first constructor, by cases on its check: it throws, or returns the members as
initialised. -/
theorem ctor_cases (a : detection_output_args) :
    ((a.decrease_label_id && a.background_label_id != 0) = true ∧
      ctor a = Except.error detection_output_error) ∨
    ((a.decrease_label_id && a.background_label_id != 0) = false ∧
      ctor a = Except.ok
        { num_classes := a.num_classes
          keep_top_k := int_of_uint32 a.keep_top_k
          share_location := a.share_location
          background_label_id := a.background_label_id
          nms_threshold := a.nms_threshold
          top_k := a.top_k
          eta := a.eta
          code_type := a.code_type
          variance_encoded_in_target := a.variance_encoded_in_target
          confidence_threshold := a.confidence_threshold
          prior_info_size := a.prior_info_size
          prior_coordinates_offset := a.prior_coordinates_offset
          prior_is_normalized := a.prior_is_normalized
          input_width := a.input_width
          input_height := a.input_height
          decrease_label_id := a.decrease_label_id
          clip := a.clip }) := by
  cases hc : (a.decrease_label_id && a.background_label_id != 0)
  · right; exact ⟨rfl, by simp only [ctor, hc]; rfl⟩
  · left; exact ⟨rfl, by simp only [ctor, hc]; rfl⟩

/-- The descriptor constructor, by cases on its check: it throws, or returns the members as
initialised. -/
theorem ctor_dto_cases (t : detection_output_dto) :
    (((t.decrease_label_id != 0) && t.background_label_id != 0) = true ∧
      ctor_dto t = Except.error detection_output_error) ∨
    (((t.decrease_label_id != 0) && t.background_label_id != 0) = false ∧
      ctor_dto t = Except.ok
        { num_classes := t.num_classes
          keep_top_k := int_of_uint32 t.keep_top_k
          share_location := t.share_location != 0
          background_label_id := t.background_label_id
          nms_threshold := t.nms_threshold
          top_k := t.top_k
          eta := t.eta
          code_type := ⟨t.code_type⟩
          variance_encoded_in_target := t.variance_encoded_in_target != 0
          confidence_threshold := t.confidence_threshold
          prior_info_size := t.prior_info_size
          prior_coordinates_offset := t.prior_coordinates_offset
          prior_is_normalized := t.prior_is_normalized != 0
          input_width := t.input_width
          input_height := t.input_height
          decrease_label_id := t.decrease_label_id != 0
          clip := t.clip != 0 }) := by
  cases hc : ((t.decrease_label_id != 0) && t.background_label_id != 0)
  · right; exact ⟨rfl, by simp only [ctor_dto, hc]; rfl⟩
  · left; exact ⟨rfl, by simp only [ctor_dto, hc]; rfl⟩

/-- An object sent through a descriptor comes back unchanged, provided its `keep_top_k` is in
the `int` range and its two label options are not both used. -/
theorem ctor_dto_update_dto (d : detection_output) (dto0 : detection_output_dto)
    (hk : is_int32 d.keep_top_k)
    (hc : (d.decrease_label_id && d.background_label_id != 0) = false) :
    ctor_dto (update_dto d dto0) = Except.ok d := by
  rcases ctor_dto_cases (update_dto d dto0) with ⟨h, _⟩ | ⟨_, h⟩
  · simp only [update_dto, int32_of_bool_ne_zero] at h
    rw [hc] at h
    cases h
  · rw [h]
    simp only [update_dto, uint32_of_bool_ne_zero, int32_of_bool_ne_zero,
      int_of_uint32_of_int _ hk]

/-- The first constructor throws exactly when both label options are used. -/
theorem ctor_error_iff (a : detection_output_args) :
    ctor a = Except.error detection_output_error ↔
      (a.decrease_label_id = true ∧ a.background_label_id ≠ 0) := by
  rcases ctor_cases a with ⟨hc, h⟩ | ⟨hc, h⟩
  · rw [h]
    simpa using hc
  · rw [h]
    constructor
    · intro h'; cases h'
    · intro h'
      simp [h'.1, h'.2] at hc

/-- The descriptor constructor throws exactly when both label options are used. -/
theorem ctor_dto_error_iff (t : detection_output_dto) :
    ctor_dto t = Except.error detection_output_error ↔
      (t.decrease_label_id ≠ 0 ∧ t.background_label_id ≠ 0) := by
  rcases ctor_dto_cases t with ⟨hc, h⟩ | ⟨hc, h⟩
  · rw [h]
    simpa using hc
  · rw [h]
    constructor
    · intro h'; cases h'
    · intro h'
      simp [h'.1, h'.2] at hc

/-- C9, as stated, fails: with `keep_top_k = 2^31`, a value of the parameter's type
`uint32_t`, construction succeeds and `get_keep_top_k` returns `-2^31`, not the value
supplied. -/
theorem ctor_keep_top_k_not_returned :
    detection_output_args.WellTyped
        ⟨21, 2147483648, true, 0, ⟨0⟩, -1, ⟨0⟩, ⟨0⟩, false, ⟨0⟩, 4, 0, true, -1, -1,
          false, false⟩ ∧
    ∃ d, ctor ⟨21, 2147483648, true, 0, ⟨0⟩, -1, ⟨0⟩, ⟨0⟩, false, ⟨0⟩, 4, 0, true, -1, -1,
          false, false⟩ = Except.ok d ∧
      get_keep_top_k d = -2147483648 ∧
      ¬ get_keep_top_k d = ((2147483648 : Nat) : Int) :=
  ⟨by decide, _, rfl, by decide, by decide⟩

/-- C9, amended: either constructor throws `std::invalid_argument` if and only if
`decrease_label_id` is set and `background_label_id != 0`; for every other combination
construction succeeds and each getter returns the value supplied, where `get_keep_top_k`
returns the supplied unsigned value converted to `int` (the same number below `2^31`, the
number less `2^32` from there on) and, from a C descriptor, a boolean getter returns whether
the integer flag is nonzero. -/
theorem ctor_contract :
    (∀ a : detection_output_args, a.WellTyped →
      (ctor a = Except.error detection_output_error ↔
        (a.decrease_label_id = true ∧ a.background_label_id ≠ 0)) ∧
      (¬ (a.decrease_label_id = true ∧ a.background_label_id ≠ 0) →
        ∃ d, ctor a = Except.ok d ∧
          get_num_classes d = a.num_classes ∧
          get_keep_top_k d =
            (if a.keep_top_k < 2147483648 then (a.keep_top_k : Int)
             else (a.keep_top_k : Int) - 4294967296) ∧
          get_share_location d = a.share_location ∧
          get_background_label_id d = a.background_label_id ∧
          get_nms_threshold d = a.nms_threshold ∧
          get_top_k d = a.top_k ∧
          get_eta d = a.eta ∧
          get_code_type d = a.code_type ∧
          get_variance_encoded_in_target d = a.variance_encoded_in_target ∧
          get_confidence_threshold d = a.confidence_threshold ∧
          get_prior_info_size d = a.prior_info_size ∧
          get_prior_coordinates_offset d = a.prior_coordinates_offset ∧
          get_prior_is_normalized d = a.prior_is_normalized ∧
          get_input_width d = a.input_width ∧
          get_input_height d = a.input_height ∧
          get_decrease_label_id d = a.decrease_label_id ∧
          get_clip d = a.clip)) ∧
    (∀ t : detection_output_dto, t.WellTyped →
      (ctor_dto t = Except.error detection_output_error ↔
        (t.decrease_label_id ≠ 0 ∧ t.background_label_id ≠ 0)) ∧
      (¬ (t.decrease_label_id ≠ 0 ∧ t.background_label_id ≠ 0) →
        ∃ d, ctor_dto t = Except.ok d ∧
          get_num_classes d = t.num_classes ∧
          get_keep_top_k d =
            (if t.keep_top_k < 2147483648 then (t.keep_top_k : Int)
             else (t.keep_top_k : Int) - 4294967296) ∧
          get_share_location d = (t.share_location != 0) ∧
          get_background_label_id d = t.background_label_id ∧
          get_nms_threshold d = t.nms_threshold ∧
          get_top_k d = t.top_k ∧
          get_eta d = t.eta ∧
          (get_code_type d).value = t.code_type ∧
          get_variance_encoded_in_target d = (t.variance_encoded_in_target != 0) ∧
          get_confidence_threshold d = t.confidence_threshold ∧
          get_prior_info_size d = t.prior_info_size ∧
          get_prior_coordinates_offset d = t.prior_coordinates_offset ∧
          get_prior_is_normalized d = (t.prior_is_normalized != 0) ∧
          get_input_width d = t.input_width ∧
          get_input_height d = t.input_height ∧
          get_decrease_label_id d = (t.decrease_label_id != 0) ∧
          get_clip d = (t.clip != 0))) := by
  constructor
  · intro a ha
    refine ⟨ctor_error_iff a, ?_⟩
    intro hno
    have hk := int_of_uint32_value a.keep_top_k ha.2.1
    rcases ctor_cases a with ⟨_, h⟩ | ⟨_, h⟩
    · exact absurd ((ctor_error_iff a).1 h) hno
    · exact ⟨_, h, rfl, hk, rfl, rfl, rfl, rfl, rfl, rfl, rfl, rfl, rfl, rfl, rfl, rfl, rfl,
        rfl, rfl⟩
  · intro t ht
    refine ⟨ctor_dto_error_iff t, ?_⟩
    intro hno
    have hk := int_of_uint32_value t.keep_top_k ht.2.1
    rcases ctor_dto_cases t with ⟨_, h⟩ | ⟨_, h⟩
    · exact absurd ((ctor_dto_error_iff t).1 h) hno
    · exact ⟨_, h, rfl, hk, rfl, rfl, rfl, rfl, rfl, rfl, rfl, rfl, rfl, rfl, rfl, rfl, rfl,
        rfl, rfl⟩

/-- Witness of the amended C9: the forbidden combination is rejected by both constructors,
and a large `keep_top_k` is accepted and comes back lowered by `2^32`. -/
theorem ctor_contract_witness :
    ctor ⟨21, 200, true, 3, ⟨0⟩, -1, ⟨0⟩, ⟨0⟩, false, ⟨0⟩, 4, 0, true, -1, -1,
          true, false⟩ = Except.error detection_output_error ∧
    (∃ d, ctor ⟨21, 4294967295, true, 0, ⟨0⟩, -1, ⟨0⟩, ⟨0⟩, false, ⟨0⟩, 4, 0, true, -1, -1,
          false, false⟩ = Except.ok d ∧
      get_num_classes d = 21 ∧ get_keep_top_k d = -1) ∧
    ctor_dto ⟨21, 200, 1, 3, ⟨0⟩, -1, ⟨0⟩, 0, 0, ⟨0⟩, 4, 0, 1, -1, -1, 1, 0⟩ =
      Except.error detection_output_error ∧
    (∃ d, ctor_dto ⟨21, 200, 5, -1, ⟨0⟩, -1, ⟨0⟩, 2, 0, ⟨0⟩, 4, 0, 1, -1, -1, 0, 0⟩ =
        Except.ok d ∧
      get_num_classes d = 21 ∧ get_keep_top_k d = 200 ∧ get_share_location d = true) :=
  ⟨((ctor_contract.1 ⟨21, 200, true, 3, ⟨0⟩, -1, ⟨0⟩, ⟨0⟩, false, ⟨0⟩, 4, 0, true, -1, -1,
        true, false⟩ (by decide)).1).2 ⟨rfl, by decide⟩,
   (by
    obtain ⟨d, hd, h1, h2, _⟩ :=
      (ctor_contract.1 ⟨21, 4294967295, true, 0, ⟨0⟩, -1, ⟨0⟩, ⟨0⟩, false, ⟨0⟩, 4, 0, true,
        -1, -1, false, false⟩ (by decide)).2 (by decide)
    exact ⟨d, hd, h1, h2⟩),
   ((ctor_contract.2 ⟨21, 200, 1, 3, ⟨0⟩, -1, ⟨0⟩, 0, 0, ⟨0⟩, 4, 0, 1, -1, -1, 1, 0⟩
        (by decide)).1).2 ⟨by decide, by decide⟩,
   (by
    obtain ⟨d, hd, h1, h2, h3, _⟩ :=
      (ctor_contract.2 ⟨21, 200, 5, -1, ⟨0⟩, -1, ⟨0⟩, 2, 0, ⟨0⟩, 4, 0, 1, -1, -1, 0, 0⟩
        (by decide)).2 (by decide)
    exact ⟨d, hd, h1, h2, h3⟩)⟩

/-- C10: for every `detection_output` that either constructor built, filling a descriptor
with `update_dto` (whatever the descriptor held before) and constructing from it succeeds and
gives back an object equal in all seventeen members; the same holds for the six members of
`detection_output_sort`. -/
theorem dto_round_trip :
    (∀ (a : detection_output_args) (d : detection_output) (dto0 : detection_output_dto),
      ctor a = Except.ok d → ctor_dto (update_dto d dto0) = Except.ok d) ∧
    (∀ (t : detection_output_dto) (d : detection_output) (dto0 : detection_output_dto),
      ctor_dto t = Except.ok d → ctor_dto (update_dto d dto0) = Except.ok d) ∧
    (∀ (a : detection_output_sort_args) (dto0 : detection_output_sort_dto),
      detection_output_sort.ctor_dto
        (detection_output_sort.update_dto (detection_output_sort.ctor a) dto0) =
        detection_output_sort.ctor a) ∧
    (∀ (t dto0 : detection_output_sort_dto),
      detection_output_sort.ctor_dto
        (detection_output_sort.update_dto (detection_output_sort.ctor_dto t) dto0) =
        detection_output_sort.ctor_dto t) := by
  refine ⟨?_, ?_, ?_, ?_⟩
  · intro a d dto0 h
    rcases ctor_cases a with ⟨_, h'⟩ | ⟨hc, h'⟩
    · rw [h'] at h; cases h
    · rw [h'] at h
      injection h with h
      subst h
      exact ctor_dto_update_dto _ dto0 (int_of_uint32_range _) hc
  · intro t d dto0 h
    rcases ctor_dto_cases t with ⟨_, h'⟩ | ⟨hc, h'⟩
    · rw [h'] at h; cases h
    · rw [h'] at h
      injection h with h
      subst h
      exact ctor_dto_update_dto _ dto0 (int_of_uint32_range _) hc
  · intro a dto0
    simp only [detection_output_sort.ctor_dto, detection_output_sort.update_dto,
      detection_output_sort.ctor, uint32_of_bool_ne_zero,
      int_of_uint32_of_int _ (int_of_uint32_range _)]
  · intro t dto0
    simp only [detection_output_sort.ctor_dto, detection_output_sort.update_dto,
      uint32_of_bool_ne_zero, int_of_uint32_of_int _ (int_of_uint32_range _)]

/-- Witness of C10: an object built from explicit arguments and one built from a C
descriptor, each sent through a descriptor that held other values before. -/
theorem dto_round_trip_witness :
    ctor_dto (update_dto
        ⟨21, -1, true, 0, ⟨0⟩, -1, ⟨0⟩, ⟨0⟩, false, ⟨0⟩, 4, 0, true, -1, -1, false, false⟩
        ⟨7, 7, 7, 7, ⟨7⟩, 7, ⟨7⟩, 7, 7, ⟨7⟩, 7, 7, 7, 7, 7, 7, 7⟩) =
      Except.ok
        ⟨21, -1, true, 0, ⟨0⟩, -1, ⟨0⟩, ⟨0⟩, false, ⟨0⟩, 4, 0, true, -1, -1, false, false⟩ ∧
    ctor_dto (update_dto
        ⟨21, 200, true, -1, ⟨0⟩, -1, ⟨0⟩, ⟨2⟩, false, ⟨0⟩, 4, 0, true, -1, -1, false, true⟩
        ⟨7, 7, 7, 7, ⟨7⟩, 7, ⟨7⟩, 7, 7, ⟨7⟩, 7, 7, 7, 7, 7, 7, 7⟩) =
      Except.ok
        ⟨21, 200, true, -1, ⟨0⟩, -1, ⟨0⟩, ⟨2⟩, false, ⟨0⟩, 4, 0, true, -1, -1, false, true⟩ :=
  ⟨dto_round_trip.1
    ⟨21, 4294967295, true, 0, ⟨0⟩, -1, ⟨0⟩, ⟨0⟩, false, ⟨0⟩, 4, 0, true, -1, -1, false, false⟩
    ⟨21, -1, true, 0, ⟨0⟩, -1, ⟨0⟩, ⟨0⟩, false, ⟨0⟩, 4, 0, true, -1, -1, false, false⟩
    ⟨7, 7, 7, 7, ⟨7⟩, 7, ⟨7⟩, 7, 7, ⟨7⟩, 7, 7, 7, 7, 7, 7, 7⟩ rfl,
   dto_round_trip.2.1
    ⟨21, 200, 5, -1, ⟨0⟩, -1, ⟨0⟩, 2, 0, ⟨0⟩, 4, 0, 1, -1, -1, 0, 9⟩
    ⟨21, 200, true, -1, ⟨0⟩, -1, ⟨0⟩, ⟨2⟩, false, ⟨0⟩, 4, 0, true, -1, -1, false, true⟩
    ⟨7, 7, 7, 7, ⟨7⟩, 7, ⟨7⟩, 7, 7, ⟨7⟩, 7, 7, 7, 7, 7, 7, 7⟩ rfl⟩

end detection_output

end cldnn

namespace kernel_selector

namespace ROIPoolingKernelRef

/-- Started at any `m ≥ 1` the counting loop returns the same local size as `lwsLoop`, at
least 1, and the decrements it made are exactly the distance from the start. -/
theorem lwsLoopSteps_spec (gws0 : Nat) :
    ∀ m : Nat, 1 ≤ m →
      ∃ r k, lwsLoopSteps gws0 m = some (r, k) ∧ lwsLoop gws0 m = some r ∧
        1 ≤ r ∧ r + k = m := by
  intro m
  induction m with
  | zero => intro h; omega
  | succ m ih =>
    intro _
    by_cases hdiv : gws0 % (m + 1) = 0
    · exact ⟨m + 1, 0, by simp [lwsLoopSteps, hdiv], by simp [lwsLoop, hdiv], by omega, rfl⟩
    · have hm : 1 ≤ m := by
        rcases Nat.eq_zero_or_pos m with h0 | hpos
        · subst h0; simp [Nat.mod_one] at hdiv
        · exact hpos
      obtain ⟨r, k, hs, hl, h1, h2⟩ := ih hm
      exact ⟨r, k + 1, by simp [lwsLoopSteps, hdiv, hs], by simp [lwsLoop, hdiv, hl], h1,
        by omega⟩

/-- C20: for every global size `n ≥ 0` the local-size search of `SetDefault` starts at an
`lws0` in `[1, 32]` and terminates after at most 31 decrements with `lws0 ≥ 1`; it never
reaches the evaluation of `n mod 0` (the loop returns a value, and each decrement lowers
`lws0` by one from its start). -/
theorem lwsLoop_terminates (n : Nat) :
    1 ≤ min (max n 1) 32 ∧ min (max n 1) 32 ≤ 32 ∧
    ∃ r k, lwsLoopSteps n (min (max n 1) 32) = some (r, k) ∧
      lwsLoop n (min (max n 1) 32) = some r ∧
      k ≤ 31 ∧ 1 ≤ r ∧ r + k = min (max n 1) 32 := by
  have hs : 1 ≤ min (max n 1) 32 := by omega
  obtain ⟨r, k, h1, h2, h3, h4⟩ := lwsLoopSteps_spec n (min (max n 1) 32) hs
  exact ⟨hs, Nat.min_le_right _ _, r, k, h1, h2, by omega, h3, h4⟩

end ROIPoolingKernelRef

namespace ReshapeKernelRef

/-- The number of elements of a tensor is the product of its first two extents and of the
product of the others, a missing extent counting as 1. -/
theorem prod_eq_head_mul_rest (dims : List Nat) :
    dims.prod = dims.getD 0 1 * dims.getD 1 1 * (dims.drop 2).prod := by
  match dims with
  | [] => simp
  | [a] => simp
  | a :: b :: rest => simp [Nat.mul_assoc]

/-- The counterexample to C17: for the extents `(1, 1, 2^32, 2^32)` the global work size is
`(1, 1, 0)`, because the product of the last two extents wraps around in `size_t`; the
product of the three global sizes is 0, and the tensor has `2^64` elements. -/
theorem reshape_GetKernelsData_global_wraps :
    (GetKernelsData (fun g => g) ⟨[1, 1, 4294967296, 4294967296]⟩).map
        (fun kd => kd.kernels.map fun kernel => kernel.workGroups.global) = [[[1, 1, 0]]] ∧
    ([1, 1, 4294967296, 4294967296].drop 2).prod = 18446744073709551616 ∧
    [1, 1, 0].prod ≠ [1, 1, 4294967296, 4294967296].prod := by
  decide

/-- C17, amended: for every input tensor whose `GetDims()` lists `n ≤ 5` extents (a missing
extent counting as 1), `GetKernelsData` returns a single kernel, with
`estimatedTime = DONT_USE_IF_HAVE_SOMETHING_ELSE`, whose global work size is
`(d_0, d_1, product of the remaining extents modulo 2^64)`; when the product of the
remaining extents is below `2^64` the third global size is that product, and the product of
the three global sizes is the number of elements of the input. -/
theorem reshape_GetKernelsData_global (GetOptimalLocalWorkGroupSizes : List Nat → List Nat)
    (params : reshape_params) (hn : params.input0_Dims.length ≤ 5) :
    ∃ kd kernel,
      GetKernelsData GetOptimalLocalWorkGroupSizes params = [kd] ∧
      kd.kernels = [kernel] ∧
      kd.estimatedTime = Priority.DONT_USE_IF_HAVE_SOMETHING_ELSE ∧
      kernel.workGroups.global =
        [params.input0_Dims.getD 0 1, params.input0_Dims.getD 1 1,
          (params.input0_Dims.drop 2).prod % 2 ^ 64] ∧
      ((params.input0_Dims.drop 2).prod < 2 ^ 64 →
        kernel.workGroups.global =
          [params.input0_Dims.getD 0 1, params.input0_Dims.getD 1 1,
            (params.input0_Dims.drop 2).prod] ∧
        kernel.workGroups.global.prod = params.input0_Dims.prod) := by
  rcases params with ⟨dims⟩
  have hglobal : ((GetKernelsData GetOptimalLocalWorkGroupSizes ⟨dims⟩).map
      (fun kd => kd.kernels.map fun kernel => kernel.workGroups.global)) =
      [[[dims.getD 0 1, dims.getD 1 1, (dims.drop 2).prod % 2 ^ 64]]] := by
    match dims, hn with
    | [], _ => simp [GetKernelsData, padTo4]
    | [a], _ => simp [GetKernelsData, padTo4]
    | [a, b], _ => simp [GetKernelsData, padTo4]
    | [a, b, c], _ => simp [GetKernelsData, padTo4]
    | [a, b, c, d], _ => simp [GetKernelsData, padTo4]
    | [a, b, c, d, e], _ => simp [GetKernelsData, padTo4, Nat.mul_assoc, Nat.mod_mul_mod]
    | _ :: _ :: _ :: _ :: _ :: _ :: _, h => simp at h
  have hg : ∀ kd ∈ GetKernelsData GetOptimalLocalWorkGroupSizes ⟨dims⟩,
      ∀ kernel ∈ kd.kernels, kernel.workGroups.global =
        [dims.getD 0 1, dims.getD 1 1, (dims.drop 2).prod % 2 ^ 64] := by
    intro kd hkd kernel hk
    have h1 : kd.kernels.map (fun kernel => kernel.workGroups.global) ∈
        (GetKernelsData GetOptimalLocalWorkGroupSizes ⟨dims⟩).map
          (fun kd => kd.kernels.map fun kernel => kernel.workGroups.global) :=
      List.mem_map.2 ⟨kd, hkd, rfl⟩
    rw [hglobal, List.mem_singleton] at h1
    have h2 : kernel.workGroups.global ∈
        kd.kernels.map (fun kernel => kernel.workGroups.global) :=
      List.mem_map.2 ⟨kernel, hk, rfl⟩
    rw [h1, List.mem_singleton] at h2
    exact h2
  refine ⟨_, _, rfl, rfl, rfl, ?_⟩
  have hthis := hg _ (List.mem_singleton.2 rfl) _ (List.mem_singleton.2 rfl)
  refine ⟨hthis, fun hlt => ?_⟩
  rw [hthis, Nat.mod_eq_of_lt hlt]
  refine ⟨rfl, ?_⟩
  rw [prod_eq_head_mul_rest dims]
  simp [Nat.mul_assoc]

/-- Witness of C17: a `bfyx` input of extents `(10, 10, 3, 2)`. -/
theorem reshape_GetKernelsData_global_witness :
    ∃ kd kernel,
      GetKernelsData (fun g => g) ⟨[10, 10, 3, 2]⟩ = [kd] ∧
      kd.kernels = [kernel] ∧
      kd.estimatedTime = Priority.DONT_USE_IF_HAVE_SOMETHING_ELSE ∧
      kernel.workGroups.global = [10, 10, 6] ∧
      kernel.workGroups.global.prod = 600 := by
  obtain ⟨kd, kernel, h1, h2, h3, _, h5⟩ :=
    reshape_GetKernelsData_global (fun g => g) ⟨[10, 10, 3, 2]⟩ (by decide)
  obtain ⟨h6, h7⟩ := h5 (by decide)
  exact ⟨kd, kernel, h1, h2, h3, h6, h7⟩

end ReshapeKernelRef

end kernel_selector

namespace cldnn

namespace one_hot_inst

open gpu (Outcome)

/-- C11: for a descriptor that does not force an output data type (what the function
asserts), `calc_output_layout` reports an error if and only if `one_hot_axis > 3`; for every
`one_hot_axis ≤ 3` it returns the layout with the data type and format of the input's
output layout, the shape declared in the descriptor as size, and no padding, whatever the
input's sizes. -/
theorem calc_output_layout_spec (node : one_hot_node)
    (hforce : node.primitive.output_data_type = none) :
    ((∃ e, calc_output_layout node = Outcome.throws e) ↔ node.primitive.one_hot_axis > 3) ∧
    (node.primitive.one_hot_axis ≤ 3 →
      calc_output_layout node =
        Outcome.returns
          { data_type := node.input_layout.data_type
            format := node.input_layout.format
            size := node.primitive.shape
            data_padding := padding.zero }) := by
  unfold calc_output_layout
  by_cases h : node.primitive.one_hot_axis > 3
  · refine ⟨⟨fun _ => h, fun _ => ⟨CLDNN_ERROR_MESSAGE node.id
      "Incorrect parameters configuration: one_hot_axis should be less or equal to 3.",
      by simp [hforce, h]⟩⟩, fun h' => absurd h (by omega)⟩
  · refine ⟨⟨fun ⟨e, he⟩ => ?_, fun h' => absurd h' h⟩, fun _ => by simp [hforce, h, layout.ctor]⟩
    simp [hforce, h] at he

/-- Witness of C11: axis 2 on a `bfyx` input of sizes `(1, 3, 5, 4)`, shape `(3, 4, 7, 5)`. -/
theorem calc_output_layout_spec_witness :
    calc_output_layout
        ⟨"oh", ⟨⟨3, 4, 5, 7⟩, 2, none⟩, ⟨data_types.f32, format.bfyx, ⟨1, 3, 5, 4⟩, padding.zero⟩⟩ =
      Outcome.returns ⟨data_types.f32, format.bfyx, ⟨3, 4, 5, 7⟩, padding.zero⟩ :=
  (calc_output_layout_spec
    ⟨"oh", ⟨⟨3, 4, 5, 7⟩, 2, none⟩, ⟨data_types.f32, format.bfyx, ⟨1, 3, 5, 4⟩, padding.zero⟩⟩
    rfl).2 (by decide)

end one_hot_inst

end cldnn

namespace cldnn

namespace one_hot_inst

open gpu (Outcome)

/-- C12: for `one_hot_axis = a` in `{0, 1, 2, 3}`, input extents `(b, f, y, x)` and declared
output extents `(B, F, Y, X)` in bfyx order, the constructor raises no configuration error
if and only if `b = 1` and `[B, F, Y, X]` without its `a`-th entry is `[f, y, x]` (the
output extent along the axis itself is free); otherwise it throws. -/
theorem ctor_shape_check (node : one_hot_node) (ha : node.primitive.one_hot_axis ≤ 3) :
    (ctor node = Outcome.returns () ↔
      (node.input_layout.size.batch0 = 1 ∧
        [node.primitive.shape.batch0, node.primitive.shape.feature0,
          node.primitive.shape.spatial1, node.primitive.shape.spatial0].eraseIdx
            node.primitive.one_hot_axis =
          [node.input_layout.size.feature0, node.input_layout.size.spatial1,
            node.input_layout.size.spatial0])) ∧
    (ctor node = Outcome.returns () ∨ ∃ e, ctor node = Outcome.throws e) := by
  rcases node with ⟨id, ⟨⟨B, F, X, Y⟩, a, odt⟩, ⟨dt, fmt, ⟨b, f, x, y⟩, pad⟩⟩
  simp only at ha
  have hcases : a = 0 ∨ a = 1 ∨ a = 2 ∨ a = 3 := by omega
  by_cases hb : b = 1 <;> by_cases h3 : x = (if a = 3 then Y else X) <;>
    by_cases h2 : y = (if a ≤ 1 then Y else F) <;>
    by_cases h1 : f = (if a = 0 then F else B) <;>
    rcases hcases with rfl | rfl | rfl | rfl <;>
    simp_all [ctor, shape_loop, List.eraseIdx] <;> omega

/-- Witness of C12: axis 2, input `(1, 3, 5, 4)`, output `(3, 5, 7, 4)` in bfyx order. -/
theorem ctor_shape_check_witness :
    ctor ⟨"oh", ⟨⟨3, 5, 4, 7⟩, 2, none⟩,
        ⟨data_types.f32, format.bfyx, ⟨1, 3, 4, 5⟩, padding.zero⟩⟩ = Outcome.returns () :=
  ((ctor_shape_check
    ⟨"oh", ⟨⟨3, 5, 4, 7⟩, 2, none⟩, ⟨data_types.f32, format.bfyx, ⟨1, 3, 4, 5⟩, padding.zero⟩⟩
    (by decide)).1).2 ⟨rfl, by decide⟩

end one_hot_inst

end cldnn

namespace kernel_selector

namespace ParamsKey

/-- Masking `a` with `k` gives `k` back exactly when every bit of `k` is a bit of `a`. -/
theorem and_eq_right_iff_bits (a k : Nat) :
    a &&& k = k ↔ ∀ i, k.testBit i = true → a.testBit i = true := by
  constructor
  · intro h i hi
    have := congrArg (fun n => n.testBit i) h
    simp only [Nat.testBit_and, hi, Bool.and_true] at this
    exact this
  · intro h
    apply Nat.eq_of_testBit_eq
    intro i
    rw [Nat.testBit_and]
    cases hk : k.testBit i
    · simp
    · simp [h i hk]

/-- `Support` holds exactly when, field by field, every bit of the required key is a bit of
the implementation's key. -/
theorem Support_iff (impl required : ParamsKey) :
    impl.Support required = true ↔
      ((∀ i, required.inputType.testBit i = true → impl.inputType.testBit i = true) ∧
       (∀ i, required.outputType.testBit i = true → impl.outputType.testBit i = true) ∧
       (∀ i, required.inputLayout.testBit i = true → impl.inputLayout.testBit i = true) ∧
       (∀ i, required.outputLayout.testBit i = true → impl.outputLayout.testBit i = true) ∧
       (∀ i, required.restrict.testBit i = true → impl.restrict.testBit i = true)) := by
  simp only [Support, Bool.and_eq_true, beq_iff_eq, and_eq_right_iff_bits, and_assoc]

/-- C19: `Compatible(I, K)` holds if and only if in every field (input data types, output
data types, input layouts, output layouts, feature flags) the bits enabled in `K` are bits
enabled in `I`; hence `Compatible(I, I)` always holds, and if `K'` is field-wise a subset of
`K` then `Compatible(I, K)` implies `Compatible(I, K')`.  In particular the keys of the
GEMM-like convolution and of the within-spatial normalize kernel support themselves. -/
theorem Support_superset_law :
    (∀ I K : ParamsKey,
      I.Support K = true ↔
        ((∀ i, K.inputType.testBit i = true → I.inputType.testBit i = true) ∧
         (∀ i, K.outputType.testBit i = true → I.outputType.testBit i = true) ∧
         (∀ i, K.inputLayout.testBit i = true → I.inputLayout.testBit i = true) ∧
         (∀ i, K.outputLayout.testBit i = true → I.outputLayout.testBit i = true) ∧
         (∀ i, K.restrict.testBit i = true → I.restrict.testBit i = true))) ∧
    (∀ I : ParamsKey, I.Support I = true) ∧
    (∀ I K K' : ParamsKey,
      ((∀ i, K'.inputType.testBit i = true → K.inputType.testBit i = true) ∧
       (∀ i, K'.outputType.testBit i = true → K.outputType.testBit i = true) ∧
       (∀ i, K'.inputLayout.testBit i = true → K.inputLayout.testBit i = true) ∧
       (∀ i, K'.outputLayout.testBit i = true → K.outputLayout.testBit i = true) ∧
       (∀ i, K'.restrict.testBit i = true → K.restrict.testBit i = true)) →
      I.Support K = true → I.Support K' = true) ∧
    ConvolutionKernel_bfyx_GEMMLike.GetSupportedKey.Support
      ConvolutionKernel_bfyx_GEMMLike.GetSupportedKey = true ∧
    NormalizeKernelWithinSpatialRef.GetSupportedKey.Support
      NormalizeKernelWithinSpatialRef.GetSupportedKey = true := by
  refine ⟨Support_iff, ?_, ?_, ?_, ?_⟩
  · intro I
    exact (Support_iff I I).2 ⟨fun _ h => h, fun _ h => h, fun _ h => h, fun _ h => h,
      fun _ h => h⟩
  · intro I K K' ⟨h1, h2, h3, h4, h5⟩ hK
    obtain ⟨k1, k2, k3, k4, k5⟩ := (Support_iff I K).1 hK
    exact (Support_iff I K').2 ⟨fun i h => k1 i (h1 i h), fun i h => k2 i (h2 i h),
      fun i h => k3 i (h3 i h), fun i h => k4 i (h4 i h), fun i h => k5 i (h5 i h)⟩
  · decide
  · decide

/-- Witness of C19: a request for an `F32` `bfyx` convolution with batching is a field-wise
subset of the GEMM-like kernel's key, which supports itself, so the kernel supports it. -/
theorem Support_superset_law_witness :
    ConvolutionKernel_bfyx_GEMMLike.GetSupportedKey.Support
      ((((ParamsKey.empty.EnableInputDataType Datatype.F32).EnableOutputDataType
        Datatype.F32).EnableInputLayout DataLayout.bfyx).EnableFeature Feature.Batching) =
      true :=
  Support_superset_law.2.2.1 ConvolutionKernel_bfyx_GEMMLike.GetSupportedKey
    ConvolutionKernel_bfyx_GEMMLike.GetSupportedKey
    ((((ParamsKey.empty.EnableInputDataType Datatype.F32).EnableOutputDataType
      Datatype.F32).EnableInputLayout DataLayout.bfyx).EnableFeature Feature.Batching)
    ((Support_iff _ _).1 (by decide))
    (Support_superset_law.2.1 ConvolutionKernel_bfyx_GEMMLike.GetSupportedKey)

end ParamsKey

end kernel_selector

namespace cldnn

namespace program_impl

/-- `get_or_create` with an id that names no node: the node is added, bare. -/
theorem get_or_create_new (p : program_impl) (prim : primitive)
    (h : p.nodes_map prim.id = none) :
    p.get_or_create prim =
      { p with
          nodes_map := Function.update p.nodes_map prim.id (some prim)
          dependencies := Function.update p.dependencies prim.id []
          users := Function.update p.users prim.id []
          output_layout := Function.update p.output_layout prim.id none
          output := Function.update p.output prim.id false
          optimized := Function.update p.optimized prim.id false } := by
  simp [get_or_create, h]

/-- `get_or_create` with an id that names a node: nothing changes. -/
theorem get_or_create_old (p : program_impl) (prim : primitive)
    (h : (p.nodes_map prim.id).isSome = true) : p.get_or_create prim = p := by
  simp [get_or_create, h]

/-- `replace_dependency` on an edge that points elsewhere: the edge is repointed and the
two user lists follow. -/
theorem replace_dependency_eq (p : program_impl) (self : String) (idx : Nat)
    (old new_dep : String) (h : (p.dependencies self)[idx]? = some old) (hne : old ≠ new_dep) :
    p.replace_dependency self idx new_dep =
      { p with
          users :=
            Function.update
              (Function.update p.users old ((p.users old).filter fun u => u != self))
              new_dep
              (Function.update p.users old ((p.users old).filter fun u => u != self) new_dep
                ++ [self])
          dependencies :=
            Function.update p.dependencies self ((p.dependencies self).set idx new_dep) } := by
  simp [replace_dependency, h, hne]

end program_impl

end cldnn

namespace cldnn

namespace handle_reshape

open program_impl

/-- The bridging loop once the output reorder exists and has its dependency: every user
left has its edge to the reshape repointed to the output reorder, and nothing else moves. -/
theorem output_loop_existing (node : String) (l : layout) :
    ∀ (rest : List String) (p : program_impl),
      (p.nodes_map ("_reshape_output_" ++ node)).isSome = true →
      (p.dependencies ("_reshape_output_" ++ node)).isEmpty = false →
      rest.Nodup →
      (∀ u ∈ rest, node ∈ p.dependencies u) →
      (∀ u ∈ rest, u ≠ "_reshape_output_" ++ node) →
      node ≠ "_reshape_output_" ++ node →
      ∃ q, output_loop node l rest p = some q ∧
        q.nodes_map = p.nodes_map ∧ q.output_layout = p.output_layout ∧
        q.output = p.output ∧ q.optimized = p.optimized ∧
        (∀ u ∈ rest, q.dependencies u =
          (p.dependencies u).set ((p.dependencies u).indexOf node)
            ("_reshape_output_" ++ node)) ∧
        (∀ k, k ∉ rest → q.dependencies k = p.dependencies k) ∧
        q.users node = (p.users node).filter (fun k => decide (k ∉ rest)) ∧
        q.users ("_reshape_output_" ++ node) =
          p.users ("_reshape_output_" ++ node) ++ rest ∧
        (∀ k, k ≠ node → k ≠ "_reshape_output_" ++ node → q.users k = p.users k) := by
  intro rest
  induction rest with
  | nil =>
    intro p _ _ _ _ _ _
    exact ⟨p, rfl, rfl, rfl, rfl, rfl, by simp, by simp, by simp, by simp, by simp⟩
  | cons u rest ih =>
    intro p hex hdeps hnd hmem hro hroN
    have hu_mem : node ∈ p.dependencies u := hmem u (List.mem_cons_self _ _)
    have hu_ro : u ≠ "_reshape_output_" ++ node := hro u (List.mem_cons_self _ _)
    have hidx := List.getElem?_indexOf hu_mem
    have hu_rest : u ∉ rest := (List.nodup_cons.1 hnd).1
    have hstep : output_loop node l (u :: rest) p =
        output_loop node l rest
          (p.replace_dependency u ((p.dependencies u).indexOf node)
            ("_reshape_output_" ++ node)) := by
      rw [output_loop]
      simp only []
      rw [get_or_create_old p _ hex]
      simp [add_intermediate_between, add_intermediate, hu_mem, hidx, hdeps]
    rw [hstep, replace_dependency_eq p u _ node _ hidx hroN]
    obtain ⟨q, hq, h1, h2, h3, h4, h5, h6, h7, h8, h9⟩ := ih
      { p with
          users :=
            Function.update
              (Function.update p.users node ((p.users node).filter fun x => x != u))
              ("_reshape_output_" ++ node)
              (Function.update p.users node ((p.users node).filter fun x => x != u)
                ("_reshape_output_" ++ node) ++ [u])
          dependencies :=
            Function.update p.dependencies u
              ((p.dependencies u).set ((p.dependencies u).indexOf node)
                ("_reshape_output_" ++ node)) }
      hex
      (by simp only [Function.update_apply, if_neg (Ne.symm hu_ro)]; exact hdeps)
      (List.nodup_cons.1 hnd).2
      (by
        intro v hv
        have hvu : v ≠ u := fun e => hu_rest (e ▸ hv)
        simp only [Function.update_apply, if_neg hvu]
        exact hmem v (List.mem_cons_of_mem _ hv))
      (fun v hv => hro v (List.mem_cons_of_mem _ hv))
      hroN
    refine ⟨q, hq, h1, h2, h3, h4, ?_, ?_, ?_, ?_, ?_⟩
    · intro v hv
      rcases List.mem_cons.1 hv with rfl | hv'
      · rw [h6 v hu_rest]
        simp only [Function.update_apply, if_true]
      · have hvu : v ≠ u := fun e => hu_rest (e ▸ hv')
        rw [h5 v hv']
        simp only [Function.update_apply, if_neg hvu]
    · intro k hk
      have hku : k ≠ u := fun e => hk (e ▸ List.mem_cons_self _ _)
      rw [h6 k (fun hk' => hk (List.mem_cons_of_mem _ hk'))]
      simp only [Function.update_apply, if_neg hku]
    · rw [h7]
      simp only [Function.update_apply, if_neg hroN, if_true, List.filter_filter]
      apply List.filter_congr
      intro x _
      by_cases hx : x = u <;> simp [hx, hu_rest]
    · rw [h8]
      simp only [Function.update_apply, if_true, if_neg (Ne.symm hroN), List.append_assoc,
        List.singleton_append]
    · intro k hk1 hk2
      rw [h9 k hk1 hk2]
      simp only [Function.update_apply, if_neg hk1, if_neg hk2]

end handle_reshape

end cldnn

namespace cldnn

/-- Two strings that start with different prefixes of the same length are different. -/
theorem append_ne_of_prefix_ne (a b x y : String) (hlen : a.length = b.length)
    (hne : a ≠ b) : a ++ x ≠ b ++ y := by
  intro h
  have hd : a.data ++ x.data = b.data ++ y.data := by
    have := congrArg String.data h
    rwa [String.data_append, String.data_append] at this
  exact hne (String.ext (List.append_inj hd hlen).1)

/-- The id of the bridging output reorder is not the id of the bridging input reorder. -/
theorem reshape_output_ne_input (node : String) :
    "_reshape_output_" ++ node ≠ "_reshape_input_" ++ node := by
  intro h
  have h1 := congrArg String.length h
  rw [String.length_append, String.length_append] at h1
  have h2 : "_reshape_output_".length = 16 := by decide
  have h3 : "_reshape_input_".length = 15 := by decide
  omega

end cldnn

namespace cldnn

namespace program_impl

/-- An id that names a node is not an id that names none. -/
theorem ne_of_isSome_of_none {α : Type} (f : String → Option α) (a b : String)
    (ha : (f a).isSome = true) (hb : f b = none) : a ≠ b := by
  intro h
  rw [h, hb] at ha
  cases ha

/-- `add_intermediate` with the connecting flag set: `node` gets the edge from the old
input `prev`, the consumer `next` is repointed to `node`. -/
theorem add_intermediate_connect (p : program_impl) (node next prev : String) (idx : Nat)
    (hget : (p.dependencies next)[idx]? = some prev) (hpn : prev ≠ node)
    (hnn : next ≠ node) :
    p.add_intermediate node next idx true =
      some
        { p with
            users :=
              Function.update
                (Function.update p.users prev
                  ((p.users prev ++ [node]).filter fun u => u != next))
                node (p.users node ++ [next])
            dependencies :=
              Function.update
                (Function.update p.dependencies node (p.dependencies node ++ [prev]))
                next ((p.dependencies next).set idx node) } := by
  have hget' : ((p.add_connection prev node).dependencies next)[idx]? = some prev := by
    simp [add_connection, Function.update_apply, hnn, hget]
  simp only [add_intermediate, hget, if_true]
  rw [replace_dependency_eq _ next idx prev node hget' hpn]
  simp only [add_connection, Function.update_apply, if_neg hnn, if_neg (Ne.symm hpn), if_true,
    Option.some.injEq]
  congr 1
  · funext k
    by_cases hk : k = node
    · subst hk
      simp [Function.update_apply, Ne.symm hpn]
    · by_cases hk2 : k = prev
      · subst hk2
        simp [Function.update_apply, hk]
      · simp [Function.update_apply, hk, hk2]

end program_impl

end cldnn

namespace cldnn

namespace handle_reshape

open program_impl

/-- The bridging loop from a program without the output reorder: the first user creates
it and connects it to the reshape, and every user has its edge to the reshape repointed
to it. -/
theorem output_loop_fresh (node : String) (l : layout) (u : String) (rest : List String)
    (p : program_impl)
    (hfresh : p.nodes_map ("_reshape_output_" ++ node) = none)
    (hnode : (p.nodes_map node).isSome = true)
    (hnd : (u :: rest).Nodup)
    (hmem : ∀ v ∈ u :: rest, node ∈ p.dependencies v)
    (hex : ∀ v ∈ u :: rest, (p.nodes_map v).isSome = true) :
    ∃ q, output_loop node l (u :: rest) p = some q ∧
      q.nodes_map =
        Function.update p.nodes_map ("_reshape_output_" ++ node)
          (some ⟨"_reshape_output_" ++ node, [u],
            primitive_desc.reorder l.format l.data_type⟩) ∧
      (∀ v ∈ u :: rest, q.dependencies v =
        (p.dependencies v).set ((p.dependencies v).indexOf node)
          ("_reshape_output_" ++ node)) ∧
      (∀ k, k ∉ u :: rest → k ≠ "_reshape_output_" ++ node →
        q.dependencies k = p.dependencies k) ∧
      q.dependencies ("_reshape_output_" ++ node) = [node] ∧
      q.users node =
        (p.users node ++ ["_reshape_output_" ++ node]).filter
          (fun k => decide (k ∉ u :: rest)) ∧
      q.users ("_reshape_output_" ++ node) = u :: rest ∧
      (∀ k, k ≠ node → k ≠ "_reshape_output_" ++ node → q.users k = p.users k) := by
  have hNro : node ≠ "_reshape_output_" ++ node := ne_of_isSome_of_none _ _ _ hnode hfresh
  have hvro : ∀ v ∈ u :: rest, v ≠ "_reshape_output_" ++ node :=
    fun v hv => ne_of_isSome_of_none _ _ _ (hex v hv) hfresh
  have huro := hvro u (List.mem_cons_self _ _)
  have hu_mem := hmem u (List.mem_cons_self _ _)
  have hu_rest : u ∉ rest := (List.nodup_cons.1 hnd).1
  have hidx := List.getElem?_indexOf hu_mem
  -- the first round
  have hstep : ∃ P : program_impl,
      output_loop node l (u :: rest) p = output_loop node l rest P ∧
      P.nodes_map = Function.update p.nodes_map ("_reshape_output_" ++ node)
        (some ⟨"_reshape_output_" ++ node, [u],
          primitive_desc.reorder l.format l.data_type⟩) ∧
      P.users =
        Function.update
          (Function.update (Function.update p.users ("_reshape_output_" ++ node) []) node
            ((p.users node ++ ["_reshape_output_" ++ node]).filter fun x => x != u))
          ("_reshape_output_" ++ node) [u] ∧
      P.dependencies =
        Function.update
          (Function.update p.dependencies ("_reshape_output_" ++ node) [node])
          u ((p.dependencies u).set ((p.dependencies u).indexOf node)
            ("_reshape_output_" ++ node)) := by
    refine ⟨{ p with
        nodes_map := Function.update p.nodes_map ("_reshape_output_" ++ node)
          (some ⟨"_reshape_output_" ++ node, [u],
            primitive_desc.reorder l.format l.data_type⟩)
        output_layout := Function.update p.output_layout ("_reshape_output_" ++ node) none
        output := Function.update p.output ("_reshape_output_" ++ node) false
        optimized := Function.update p.optimized ("_reshape_output_" ++ node) false
        users :=
          Function.update
            (Function.update (Function.update p.users ("_reshape_output_" ++ node) []) node
              ((p.users node ++ ["_reshape_output_" ++ node]).filter fun x => x != u))
            ("_reshape_output_" ++ node) [u]
        dependencies :=
          Function.update
            (Function.update p.dependencies ("_reshape_output_" ++ node) [node])
            u ((p.dependencies u).set ((p.dependencies u).indexOf node)
              ("_reshape_output_" ++ node)) }, ?_, rfl, rfl, rfl⟩
    rw [output_loop]
    simp only []
    rw [get_or_create_new p _ hfresh]
    simp only [add_intermediate_between, Function.update_apply, if_neg huro, if_true,
      if_pos hu_mem, List.isEmpty_nil]
    rw [add_intermediate_connect _ _ u node _ (by simpa [Function.update_apply, huro] using hidx)
      hNro huro]
    simp [Function.update_apply, huro, hNro, Ne.symm hNro]
  obtain ⟨P, hstep, hPn, hPu, hPd⟩ := hstep
  rw [hstep]
  obtain ⟨q, hq, h1, _, _, _, h5, h6, h7, h8, h9⟩ := output_loop_existing node l rest P
    (by rw [hPn]; simp [Function.update_apply])
    (by rw [hPd]; simp [Function.update_apply, Ne.symm huro])
    (List.nodup_cons.1 hnd).2
    (by
      intro v hv
      have hvu : v ≠ u := fun e => hu_rest (e ▸ hv)
      have hvro' := hvro v (List.mem_cons_of_mem _ hv)
      rw [hPd]
      simp only [Function.update_apply, if_neg hvu, if_neg hvro']
      exact hmem v (List.mem_cons_of_mem _ hv))
    (fun v hv => hvro v (List.mem_cons_of_mem _ hv))
    hNro
  rw [hPn] at h1
  rw [hPd] at h5 h6
  rw [hPu] at h7 h8 h9
  refine ⟨q, hq, h1, ?_, ?_, ?_, ?_, ?_, ?_⟩
  · intro v hv
    rcases List.mem_cons.1 hv with rfl | hv'
    · rw [h6 v hu_rest]
      simp only [Function.update_apply, if_true]
    · have hvu : v ≠ u := fun e => hu_rest (e ▸ hv')
      have hvro' := hvro v hv
      rw [h5 v hv']
      simp only [Function.update_apply, if_neg hvu, if_neg hvro']
  · intro k hk hkro
    have hku : k ≠ u := fun e => hk (e ▸ List.mem_cons_self _ _)
    rw [h6 k (fun hk' => hk (List.mem_cons_of_mem _ hk'))]
    simp only [Function.update_apply, if_neg hku, if_neg hkro]
  · have : "_reshape_output_" ++ node ∉ rest :=
      fun hm => hvro _ (List.mem_cons_of_mem _ hm) rfl
    rw [h6 _ this]
    simp only [Function.update_apply, if_neg (Ne.symm huro), if_true]
  · rw [h7]
    simp only [Function.update_apply, if_neg hNro, if_true, List.filter_filter]
    apply List.filter_congr
    intro x _
    by_cases hx : x = u <;> simp [hx, hu_rest]
  · rw [h8]
    simp only [Function.update_apply, if_true, List.singleton_append]
  · intro k hk1 hk2
    rw [h9 k hk1 hk2]
    simp only [Function.update_apply, if_neg hk1, if_neg hk2]

end handle_reshape

end cldnn

namespace cldnn

namespace handle_reshape

open program_impl

/-- The bridging block when it applies: the input reorder to bfyx goes between the reshape
and its dependency 0, the output reorder back to the reshape's layout goes between the
reshape and each of its users. -/
theorem bridge_block_spec (h : helpers) (node input_node : String) (l : layout)
    (q : program_impl) (d0 : String) (dt : List String)
    (hout : q.output node = false) (hfmt : l.format ≠ format.bfyx)
    (hid : (h.are_layouts_identical l
      (layout.ctor l.data_type format.bfyx l.size)).2 = false)
    (hrin : q.nodes_map ("_reshape_input_" ++ node) = none)
    (hrout : q.nodes_map ("_reshape_output_" ++ node) = none)
    (hN : (q.nodes_map node).isSome = true)
    (hdep : q.dependencies node = d0 :: dt)
    (hd0 : (q.nodes_map d0).isSome = true) (hd0N : d0 ≠ node)
    (hnd : (q.users node).Nodup)
    (husers : ∀ u ∈ q.users node,
      node ∈ q.dependencies u ∧ (q.nodes_map u).isSome = true ∧ u ≠ node) :
    ∃ q', bridge_block h node input_node l q = some q' ∧
      q'.nodes_map ("_reshape_input_" ++ node) =
        some ⟨"_reshape_input_" ++ node, [input_node],
          primitive_desc.reorder format.bfyx l.data_type⟩ ∧
      q'.dependencies node = ("_reshape_input_" ++ node) :: dt ∧
      q'.dependencies ("_reshape_input_" ++ node) = [d0] ∧
      (∀ u ∈ q.users node, q'.dependencies u =
        (q.dependencies u).set ((q.dependencies u).indexOf node)
          ("_reshape_output_" ++ node)) ∧
      (q.users node ≠ [] →
        (∃ first, q'.nodes_map ("_reshape_output_" ++ node) =
          some ⟨"_reshape_output_" ++ node, [first],
            primitive_desc.reorder l.format l.data_type⟩) ∧
        q'.dependencies ("_reshape_output_" ++ node) = [node] ∧
        q'.users node = ["_reshape_output_" ++ node] ∧
        q'.users ("_reshape_output_" ++ node) = q.users node) := by
  have hNrin : node ≠ "_reshape_input_" ++ node := ne_of_isSome_of_none _ _ _ hN hrin
  have hd0rin : d0 ≠ "_reshape_input_" ++ node := ne_of_isSome_of_none _ _ _ hd0 hrin
  have hror := reshape_output_ne_input node
  have hurin : ∀ u ∈ q.users node, u ≠ "_reshape_input_" ++ node :=
    fun u hu => ne_of_isSome_of_none _ _ _ (husers u hu).2.1 hrin
  -- the input reorder
  have hqa : ∃ QA : program_impl,
      bridge_block h node input_node l q =
        output_loop node l (QA.users node) QA ∧
      QA.nodes_map = Function.update q.nodes_map ("_reshape_input_" ++ node)
        (some ⟨"_reshape_input_" ++ node, [input_node],
          primitive_desc.reorder format.bfyx l.data_type⟩) ∧
      QA.users =
        Function.update
          (Function.update (Function.update q.users ("_reshape_input_" ++ node) []) d0
            ((q.users d0 ++ ["_reshape_input_" ++ node]).filter fun x => x != node))
          ("_reshape_input_" ++ node) [node] ∧
      QA.dependencies =
        Function.update
          (Function.update q.dependencies ("_reshape_input_" ++ node) [d0])
          node (("_reshape_input_" ++ node) :: dt) := by
    refine ⟨{ q with
        nodes_map := Function.update q.nodes_map ("_reshape_input_" ++ node)
          (some ⟨"_reshape_input_" ++ node, [input_node],
            primitive_desc.reorder format.bfyx l.data_type⟩)
        output_layout := Function.update q.output_layout ("_reshape_input_" ++ node) none
        output := Function.update q.output ("_reshape_input_" ++ node) false
        optimized := Function.update q.optimized ("_reshape_input_" ++ node) false
        users :=
          Function.update
            (Function.update (Function.update q.users ("_reshape_input_" ++ node) []) d0
              ((q.users d0 ++ ["_reshape_input_" ++ node]).filter fun x => x != node))
            ("_reshape_input_" ++ node) [node]
        dependencies :=
          Function.update
            (Function.update q.dependencies ("_reshape_input_" ++ node) [d0])
            node (("_reshape_input_" ++ node) :: dt) }, ?_, rfl, rfl, rfl⟩
    unfold bridge_block
    simp only [hout, hfmt, hid, Bool.not_false, Bool.true_and, bne_iff_ne, ne_eq,
      not_false_eq_true, decide_True, if_true]
    rw [get_or_create_new q _ hrin]
    simp only [Function.update_apply, if_true, List.isEmpty_nil]
    rw [add_intermediate_connect _ _ node d0 0
      (by simp [Function.update_apply, hNrin, hdep]) hd0rin hNrin]
    simp [Function.update_apply, hNrin, hd0rin, Ne.symm hd0rin, hdep, hd0N, Ne.symm hd0N]
  obtain ⟨QA, hrun, hAn, hAu, hAd⟩ := hqa
  have hAusers : QA.users node = q.users node := by
    rw [hAu]; simp only [Function.update_apply, if_neg hNrin, if_neg (Ne.symm hd0N)]
  have hAdeps : ∀ u ∈ q.users node, QA.dependencies u = q.dependencies u := by
    intro u hu
    rw [hAd]
    simp only [Function.update_apply, if_neg (husers u hu).2.2, if_neg (hurin u hu)]
  rw [hrun, hAusers]
  have hAnode : QA.dependencies node = ("_reshape_input_" ++ node) :: dt := by
    rw [hAd]; simp only [Function.update_apply, if_true]
  have hArin : QA.dependencies ("_reshape_input_" ++ node) = [d0] := by
    rw [hAd]; simp only [Function.update_apply, if_neg (Ne.symm hNrin), if_true]
  have hAnrin : QA.nodes_map ("_reshape_input_" ++ node) =
      some ⟨"_reshape_input_" ++ node, [input_node],
        primitive_desc.reorder format.bfyx l.data_type⟩ := by
    rw [hAn]; simp only [Function.update_apply, if_true]
  cases hus : q.users node with
  | nil =>
    refine ⟨QA, rfl, hAnrin, hAnode, hArin, ?_, ?_⟩
    · intro u hu; cases hu
    · intro hne; exact absurd rfl hne
  | cons u rest =>
    rw [hus] at hnd husers hAdeps hurin
    obtain ⟨q', hq', h1, h2, h3, h4, h5, h6, _⟩ := output_loop_fresh node l u rest QA
      (by rw [hAn]; simp only [Function.update_apply, if_neg hror]; exact hrout)
      (by rw [hAn]; simp only [Function.update_apply, if_neg hNrin]; exact hN)
      hnd
      (fun v hv => by rw [hAdeps v hv]; exact (husers v hv).1)
      (fun v hv => by
        rw [hAn]; simp only [Function.update_apply, if_neg (hurin v hv)]
        exact (husers v hv).2.1)
    have hNro : node ≠ "_reshape_output_" ++ node := ne_of_isSome_of_none _ _ _ hN hrout
    have huro : ∀ v ∈ u :: rest, v ≠ "_reshape_output_" ++ node :=
      fun v hv => ne_of_isSome_of_none _ _ _ (husers v hv).2.1 hrout
    have hNus : node ∉ u :: rest := fun hm => (husers node hm).2.2 rfl
    have hrinus : "_reshape_input_" ++ node ∉ u :: rest := fun hm => hurin _ hm rfl
    refine ⟨q', hq', ?_, ?_, ?_, ?_, ?_⟩
    · rw [h1, hAn]
      simp only [Function.update_apply, if_neg (Ne.symm hror), if_true]
    · rw [h3 node hNus hNro, hAnode]
    · rw [h3 _ hrinus (Ne.symm hror), hArin]
    · intro v hv
      rw [h2 v hv, hAdeps v hv]
    · intro _
      refine ⟨⟨u, ?_⟩, h4, ?_, h6⟩
      · rw [h1]; simp only [Function.update_apply, if_true]
      · rw [h5, hAusers, hus]
        rw [List.filter_append, List.filter_eq_nil_iff.2 (by
          intro x hx; simp [hx])]
        have hro : "_reshape_output_" ++ node ∉ u :: rest := fun hm => huro _ hm rfl
        rw [List.nil_append, List.filter_cons_of_pos (by simpa using hro), List.filter_nil]

end handle_reshape

end cldnn

namespace cldnn

namespace program_impl

/-- `replace_dependency` leaves the descriptors and the output flags alone. -/
theorem replace_dependency_keeps (p : program_impl) (self : String) (idx : Nat)
    (new_dep : String) :
    (p.replace_dependency self idx new_dep).nodes_map = p.nodes_map ∧
    (p.replace_dependency self idx new_dep).output = p.output := by
  unfold replace_dependency
  split
  · exact ⟨rfl, rfl⟩
  · split
    · exact ⟨rfl, rfl⟩
    · exact ⟨rfl, rfl⟩

/-- `add_intermediate` leaves the descriptors and the output flags alone. -/
theorem add_intermediate_keeps (p p' : program_impl) (node next : String) (idx : Nat)
    (c : Bool) (h : p.add_intermediate node next idx c = some p') :
    p'.nodes_map = p.nodes_map ∧ p'.output = p.output := by
  unfold add_intermediate at h
  split at h
  · cases h
  · injection h with h
    subst h
    cases c
    · simpa using replace_dependency_keeps p next idx node
    · simpa [add_connection] using
        replace_dependency_keeps (p.add_connection _ node) next idx node

/-- `get_or_create` leaves the descriptor and the output flag of every existing node
alone. -/
theorem get_or_create_keeps (p : program_impl) (prim : primitive) (k : String)
    (hk : (p.nodes_map k).isSome = true) :
    (p.get_or_create prim).nodes_map k = p.nodes_map k ∧
    (p.get_or_create prim).output k = p.output k := by
  unfold get_or_create
  split
  · exact ⟨rfl, rfl⟩
  · rename_i hnew
    have hne : k ≠ prim.id := by
      intro e
      rw [e] at hk
      exact hnew hk
    simp [Function.update_apply, hne]

/-- `get_output_layout` leaves the descriptors and the output flags alone. -/
theorem get_output_layout_keeps (infer : program_impl → String → layout) (p : program_impl)
    (id : String) :
    (p.get_output_layout infer id).2.nodes_map = p.nodes_map ∧
    (p.get_output_layout infer id).2.output = p.output := by
  unfold get_output_layout
  split <;> exact ⟨rfl, rfl⟩

end program_impl

namespace handle_reshape

open program_impl

/-- The split loop leaves the descriptor and the output flag of every existing node alone. -/
theorem split_loop_keeps (node input_node : String) (output_shape : tensor)
    (rts : List String) :
    ∀ (rest : List String) (skip : Bool) (p : program_impl) (acc : List String)
      (q : program_impl) (acc' : List String),
      split_loop node input_node output_shape rts rest skip p acc = some (q, acc') →
      ∀ k, (p.nodes_map k).isSome = true →
        q.nodes_map k = p.nodes_map k ∧ q.output k = p.output k := by
  intro rest
  induction rest with
  | nil =>
    intro skip p acc q acc' h k _
    simp only [split_loop, Option.some.injEq, Prod.mk.injEq] at h
    rw [← h.1]
    exact ⟨rfl, rfl⟩
  | cons u rest ih =>
    intro skip p acc q acc' h k hk
    rw [split_loop] at h
    split at h
    · exact ih _ _ _ _ _ h k hk
    · split at h
      · simp only [] at h
        split at h
        · cases h
        · rename_i p3 hp3
          have h3 := add_intermediate_keeps _ _ _ _ _ _ hp3
          have h2 := replace_dependency_keeps
            (p.get_or_create ⟨"_reshape_split_" ++ u ++ "_" ++ node, [input_node],
              primitive_desc.reshape output_shape⟩) u 0 input_node
          have h1 := get_or_create_keeps p
            ⟨"_reshape_split_" ++ u ++ "_" ++ node, [input_node],
              primitive_desc.reshape output_shape⟩ k hk
          have hk3 : p3.nodes_map k = p.nodes_map k := by rw [h3.1, h2.1, h1.1]
          have ho3 : p3.output k = p.output k := by rw [h3.2, h2.2, h1.2]
          obtain ⟨e1, e2⟩ := ih _ _ _ _ _ h k (by rw [hk3]; exact hk)
          exact ⟨by rw [e1, hk3], by rw [e2, ho3]⟩
      · exact ih _ _ _ _ _ h k hk

/-- The loop that inserts the input reorders leaves the descriptor and the output flag of
every existing node alone. -/
theorem insert_loop_keeps (h : helpers) (input_node : String) (rrn : List String) :
    ∀ (rest : List String) (i : Nat) (p q : program_impl),
      insert_loop h input_node rrn rest i p = some q →
      ∀ k, (p.nodes_map k).isSome = true →
        q.nodes_map k = p.nodes_map k ∧ q.output k = p.output k := by
  intro rest
  induction rest with
  | nil =>
    intro i p q hq k _
    simp only [insert_loop, Option.some.injEq] at hq
    rw [← hq]
    exact ⟨rfl, rfl⟩
  | cons r rest ih =>
    intro i p q hq k hk
    rw [insert_loop] at hq
    split at hq
    · cases hq
    · simp only [] at hq
      split at hq
      · cases hq
      · rename_i x _ _ p3 hp3
        have h3 := add_intermediate_keeps _ _ _ _ _ _ hp3
        have h0 := get_output_layout_keeps h.calc_output_layout p r
        have h1 := get_or_create_keeps (p.get_output_layout h.calc_output_layout r).2
          ⟨"_reshape_input_" ++ r ++ "_" ++ x, [input_node],
            primitive_desc.reorder
              (p.get_output_layout h.calc_output_layout r).1.format
              (p.get_output_layout h.calc_output_layout r).1.data_type⟩ k
          (by rw [h0.1]; exact hk)
        have hk3 : p3.nodes_map k = p.nodes_map k := by rw [h3.1, h1.1, h0.1]
        have ho3 : p3.output k = p.output k := by rw [h3.2, h1.2, h0.2]
        obtain ⟨e1, e2⟩ := ih _ _ _ hq k (by rw [hk3]; exact hk)
        exact ⟨by rw [e1, hk3], by rw [e2, ho3]⟩

/-- Lines 45 to 104 leave the descriptor and the output flag of every existing node alone. -/
theorem split_block_keeps (h : helpers) (node input_node : String) (output_shape : tensor)
    (p q : program_impl)
    (hq : split_block h node input_node output_shape (prepare h p node).2 = some q) :
    ∀ k, (p.nodes_map k).isSome = true →
      q.nodes_map k = p.nodes_map k ∧ q.output k = p.output k := by
  intro k hk
  have hprep : (prepare h p node).2.nodes_map = p.nodes_map ∧
      (prepare h p node).2.output = p.output := by
    unfold prepare
    simp only []
    split <;> exact get_output_layout_keeps _ _ _
  unfold split_block at hq
  simp only [] at hq
  split at hq
  · split at hq
    · cases hq
    · rename_i p2 rrn hsplit
      obtain ⟨a1, a2⟩ := split_loop_keeps _ _ _ _ _ _ _ _ _ _ hsplit k
        (by rw [hprep.1]; exact hk)
      obtain ⟨b1, b2⟩ := insert_loop_keeps _ _ _ _ _ _ _ hq k
        (by rw [a1, hprep.1]; exact hk)
      exact ⟨by rw [b1, a1, hprep.1], by rw [b2, a2, hprep.2]⟩
  · injection hq with hq
    rw [← hq, hprep.1, hprep.2]
    exact ⟨rfl, rfl⟩

end handle_reshape

end cldnn

namespace cldnn

namespace handle_reshape

open program_impl

/-- The counterexample to C13: on the example program whose reshape `N` (input `I`, not a
reorder, layout bfyx) has the users `R1` (a reorder) and `C` (an activation) in this order,
the pass clones nothing: after it the reorder `R1` and the activation `C` both still read
the original reshape `N`, whose users are still `R1` and `C`, no clone
`_reshape_split_R1_N` exists, and `N` now reads `I` through the reorder
`_reshape_input_R1_N` to the layout of `R1` (byxf, f16). -/
theorem run_node_first_reorder_user_shares :
    (run_node example_helpers example_shared "N").map (fun q => q.dependencies "R1") =
      some ["N"] ∧
    (run_node example_helpers example_shared "N").map (fun q => q.dependencies "C") =
      some ["N"] ∧
    (run_node example_helpers example_shared "N").map (fun q => q.users "N") =
      some ["R1", "C"] ∧
    (run_node example_helpers example_shared "N").map
      (fun q => q.nodes_map "_reshape_split_R1_N") = some none ∧
    (run_node example_helpers example_shared "N").map (fun q => q.dependencies "N") =
      some ["_reshape_input_R1_N"] ∧
    (run_node example_helpers example_shared "N").map
      (fun q => q.nodes_map "_reshape_input_R1_N") =
      some (some ⟨"_reshape_input_R1_N", ["I"],
        primitive_desc.reorder format.byxf data_types.f16⟩) := by
  decide

/-- C14: the body of the pass for a reshape `node` whose input `input_node` is not a
reorder, with `q` the program after the split of the reorder users (lines 49 to 104), in
which the two bridging ids are new, the first dependency `d0` of `node` exists, and the users
of `node` are distinct existing nodes that read `node`.  When `node` is not a graph output
and its layout is not bfyx (and not identical to the bfyx layout of its size and data type),
the body returns a program in which `node` reads its former first dependency through the
new reorder `_reshape_input_<node>` (to bfyx, with the data type of the reshape), and every
user of `node` reads, in the place of `node`, the reorder `_reshape_output_<node>`, which has
the format and data type of the reshape, reads `node`, and is then the only user of `node`.
When `node` is a graph output, or its layout is bfyx or identical to that bfyx layout, the
body returns `q`: neither bridging reorder is added. -/
theorem run_node_bridging (h : helpers) (p q : program_impl) (node input_node : String)
    (prim : primitive) (output_shape : tensor) (d0 : String) (dt : List String)
    (hprim : p.nodes_map node = some prim)
    (hdesc : prim.desc = primitive_desc.reshape output_shape)
    (hin : (p.dependencies node)[0]? = some input_node)
    (hnr : p.is_reorder input_node = false)
    (hsplit : split_block h node input_node output_shape (prepare h p node).2 = some q)
    (hrin : q.nodes_map ("_reshape_input_" ++ node) = none)
    (hrout : q.nodes_map ("_reshape_output_" ++ node) = none)
    (hdep : q.dependencies node = d0 :: dt)
    (hd0 : (q.nodes_map d0).isSome = true) (hd0N : d0 ≠ node)
    (hnd : (q.users node).Nodup)
    (husers : ∀ u ∈ q.users node,
      node ∈ q.dependencies u ∧ (q.nodes_map u).isSome = true ∧ u ≠ node) :
    (p.output node = false ∧ (prepare h p node).1.format ≠ format.bfyx ∧
        (h.are_layouts_identical (prepare h p node).1
          (layout.ctor (prepare h p node).1.data_type format.bfyx
            (prepare h p node).1.size)).2 = false →
      ∃ q', run_node h p node = some q' ∧
        q'.nodes_map ("_reshape_input_" ++ node) =
          some ⟨"_reshape_input_" ++ node, [input_node],
            primitive_desc.reorder format.bfyx (prepare h p node).1.data_type⟩ ∧
        q'.dependencies node = ("_reshape_input_" ++ node) :: dt ∧
        q'.dependencies ("_reshape_input_" ++ node) = [d0] ∧
        (∀ u ∈ q.users node,
          q'.dependencies u =
            (q.dependencies u).set ((q.dependencies u).indexOf node)
              ("_reshape_output_" ++ node)) ∧
        (q.users node ≠ [] →
          (∃ first, q'.nodes_map ("_reshape_output_" ++ node) =
            some ⟨"_reshape_output_" ++ node, [first],
              primitive_desc.reorder (prepare h p node).1.format
                (prepare h p node).1.data_type⟩) ∧
          q'.dependencies ("_reshape_output_" ++ node) = [node] ∧
          q'.users node = ["_reshape_output_" ++ node] ∧
          q'.users ("_reshape_output_" ++ node) = q.users node)) ∧
    (p.output node = true ∨ (prepare h p node).1.format = format.bfyx ∨
        (h.are_layouts_identical (prepare h p node).1
          (layout.ctor (prepare h p node).1.data_type format.bfyx
            (prepare h p node).1.size)).2 = true →
      run_node h p node = some q) := by
  have hrun : run_node h p node =
      bridge_block h node input_node (prepare h p node).1 q := by
    unfold run_node
    rw [hprim]
    simp only [hdesc, hin, hnr, hsplit]
    rfl
  have hkeep := split_block_keeps h node input_node output_shape p q hsplit node
    (by rw [hprim]; rfl)
  constructor
  · rintro ⟨ho, hf, hid⟩
    obtain ⟨q', hq', rest⟩ := bridge_block_spec h node input_node (prepare h p node).1 q
      d0 dt (by rw [hkeep.2]; exact ho) hf hid hrin hrout
      (by rw [hkeep.1, hprim]; rfl) hdep hd0 hd0N hnd husers
    exact ⟨q', by rw [hrun]; exact hq', rest⟩
  · intro hcase
    rw [hrun]
    unfold bridge_block
    rcases hcase with ho | hf | hid
    · simp [hkeep.2, ho]
    · simp [hf]
    · simp [hid]

/-- Witness of C14: on the example program whose reshape `N` is yxfb with the users `C` and
`R1`, the reorder `R1` gets its clone and `N` is bridged: it reads `I` through
`_reshape_input_N`, and `C` reads it through `_reshape_output_N`. -/
theorem run_node_bridging_witness :
    ∃ q', run_node example_helpers example_bridge "N" = some q' ∧
      q'.nodes_map "_reshape_input_N" =
        some ⟨"_reshape_input_N", ["I"], primitive_desc.reorder format.bfyx data_types.f32⟩ ∧
      q'.dependencies "N" = ["_reshape_input_N"] ∧
      q'.dependencies "_reshape_input_N" = ["I"] ∧
      q'.dependencies "C" = ["_reshape_output_N"] ∧
      q'.dependencies "_reshape_output_N" = ["N"] ∧
      q'.users "N" = ["_reshape_output_N"] ∧
      q'.users "_reshape_output_N" = ["C"] := by
  have hq : split_block example_helpers "N" "I" ⟨1, 12, 1, 1⟩
      (prepare example_helpers example_bridge "N").2 = some example_bridge_split := by
    obtain ⟨x, hx⟩ := Option.isSome_iff_exists.1
      (by decide : (split_block example_helpers "N" "I" ⟨1, 12, 1, 1⟩
        (prepare example_helpers example_bridge "N").2).isSome = true)
    unfold example_bridge_split
    rw [hx]
    rfl
  obtain ⟨q', h1, h2, h3, h4, h5, h6⟩ :=
    (run_node_bridging example_helpers example_bridge example_bridge_split
      "N" "I" ⟨"N", ["I"], primitive_desc.reshape ⟨1, 12, 1, 1⟩⟩ ⟨1, 12, 1, 1⟩ "I" []
      (by decide) rfl (by decide) (by decide) hq
      (by decide) (by decide) (by decide) (by decide) (by decide) (by decide)
      (by decide)).1 ⟨by decide, by decide, by decide⟩
  obtain ⟨_, h7, h8, h9⟩ := h6 (by decide)
  exact ⟨q', h1, h2, h3, h4, (h5 "C" (by decide)).trans (by decide), h7, h8,
    h9.trans (by decide)⟩

end handle_reshape

end cldnn

namespace cldnn

/-- Writing at a position what is already there changes nothing. -/
theorem set_of_getElem? {α : Type} (l : List α) (i : Nat) (a : α) (h : l[i]? = some a) :
    l.set i a = l := by
  induction l generalizing i with
  | nil => rfl
  | cons x xs ih =>
    cases i with
    | zero => simp at h; simp [h]
    | succ i => simp at h; simp [ih i h]

/-- The list from position `i` on starts with the element of position `i`. -/
theorem drop_of_getElem? {α : Type} (l : List α) (i : Nat) (a : α) (h : l[i]? = some a) :
    l.drop i = a :: l.drop (i + 1) := by
  induction l generalizing i with
  | nil => simp at h
  | cons x xs ih =>
    cases i with
    | zero => simp at h; simp [h]
    | succ i => simp at h; simpa using ih i h

/-- Writing at position `i` leaves the list after position `i` alone. -/
theorem drop_succ_set {α : Type} (l : List α) (i : Nat) (a : α) :
    (l.set i a).drop (i + 1) = l.drop (i + 1) := by
  induction l generalizing i with
  | nil => rfl
  | cons x xs ih =>
    cases i with
    | zero => simp
    | succ i => simpa using ih i

/-- Writing at position `i` leaves the list before position `i` alone. -/
theorem take_set_self {α : Type} (l : List α) (i : Nat) (a : α) :
    (l.set i a).take i = l.take i := by
  induction l generalizing i with
  | nil => rfl
  | cons x xs ih =>
    cases i with
    | zero => simp
    | succ i => simpa using ih i

namespace program_impl

/-- `get_output_layout` leaves the edges alone. -/
theorem get_output_layout_dependencies (infer : program_impl → String → layout)
    (p : program_impl) (id : String) :
    (p.get_output_layout infer id).2.dependencies = p.dependencies := by
  unfold get_output_layout
  split <;> rfl

end program_impl

namespace pre_optimize_bias

open program_impl

end pre_optimize_bias

end cldnn

namespace cldnn

namespace pre_optimize_bias

open program_impl

/-- C16: the body of `pre_optimize_bias::run` for an existing node is `optimize_bias` when
the node is a convolution or a fully_connected without weights quantization term, a
deconvolution or an embed; for every other node (a quantized convolution or fully_connected,
or a node of another kind) it returns the program and the optimizer state as they are and
calls `get_reorder` not once. -/
theorem run_node_dispatch {LO T : Type} (infer : program_impl → String → layout)
    (get_reorder : LO → get_reorder_args T → (Option primitive × Bool) × LO)
    (bias_type : T) (p : program_impl) (lo : LO) (prim : String) (d : primitive)
    (hd : p.nodes_map prim = some d) :
    ((∃ ws, d.desc = primitive_desc.convolution ws false) ∨
        (∃ ws, d.desc = primitive_desc.deconvolution ws) ∨
        (∃ w, d.desc = primitive_desc.fully_connected w false) ∨
        (∃ w, d.desc = primitive_desc.embed w) →
      run_node infer get_reorder bias_type p lo prim =
        optimize_bias infer get_reorder bias_type p lo prim) ∧
    (¬ ((∃ ws, d.desc = primitive_desc.convolution ws false) ∨
        (∃ ws, d.desc = primitive_desc.deconvolution ws) ∨
        (∃ w, d.desc = primitive_desc.fully_connected w false) ∨
        (∃ w, d.desc = primitive_desc.embed w)) →
      run_node infer get_reorder bias_type p lo prim = some (p, lo, [])) := by
  unfold run_node
  rw [hd]
  constructor
  · rintro (⟨ws, h⟩ | ⟨ws, h⟩ | ⟨w, h⟩ | ⟨w, h⟩) <;> simp [h]
  · intro hn
    rcases hx : d.desc with _ | _ | ⟨ws, wqt⟩ | ws | ⟨w, wqt⟩ | w | _
    · simp [hx]
    · simp [hx]
    · cases wqt
      · exact absurd (Or.inl ⟨ws, hx⟩) hn
      · simp [hx]
    · exact absurd (Or.inr (Or.inl ⟨ws, hx⟩)) hn
    · cases wqt
      · exact absurd (Or.inr (Or.inr (Or.inl ⟨w, hx⟩))) hn
      · simp [hx]
    · exact absurd (Or.inr (Or.inr (Or.inr ⟨w, hx⟩))) hn
    · simp [hx]

/-- Witness of C16: in the example program the convolution `conv` (not quantized) goes to
`optimize_bias`, and the input `in` leaves everything as it is. -/
theorem run_node_dispatch_witness :
    run_node handle_reshape.example_helpers.calc_output_layout example_get_reorder ()
        example_conv 0 "conv" =
      optimize_bias handle_reshape.example_helpers.calc_output_layout example_get_reorder ()
        example_conv 0 "conv" ∧
    run_node handle_reshape.example_helpers.calc_output_layout example_get_reorder ()
        example_conv 0 "in" = some (example_conv, 0, []) :=
  ⟨(run_node_dispatch handle_reshape.example_helpers.calc_output_layout example_get_reorder
      () example_conv 0 "conv" ⟨"conv", ["in"], primitive_desc.convolution ["w"] false⟩
      (by decide)).1 (Or.inl ⟨["w"], rfl⟩),
   (run_node_dispatch handle_reshape.example_helpers.calc_output_layout example_get_reorder
      () example_conv 0 "in" ⟨"in", [], primitive_desc.other "input_layout"⟩
      (by decide)).2 (by simp)⟩

end pre_optimize_bias

end cldnn

namespace kernel_selector

/-- `RoundUp q L` leaves `q` alone exactly when `q` is a multiple of `L`. -/
theorem RoundUp_eq_iff (q L : Nat) (hL : 0 < L) : RoundUp q L = q ↔ q % L = 0 := by
  obtain ⟨hdvd, hge, hmin⟩ := RoundUp_is_least_multiple q L hL
  constructor
  · intro h
    rw [h] at hdvd
    exact Nat.mod_eq_zero_of_dvd hdvd
  · intro h
    exact Nat.le_antisymm (hmin q (Nat.dvd_of_mod_eq_zero h) (Nat.le_refl q)) hge

/-- `RoundUp q L` adds less than `L`. -/
theorem RoundUp_lt_add (q L : Nat) (hL : 0 < L) : RoundUp q L < q + L := by
  obtain ⟨_, hge, hmin⟩ := RoundUp_is_least_multiple q L hL
  by_cases h : q % L = 0
  · rw [(RoundUp_eq_iff q L hL).2 h]
    omega
  · have h1 := hmin (L * (q / L + 1)) (Dvd.intro _ rfl)
      (by have := Nat.div_add_mod q L; have := Nat.mod_lt q hL; rw [Nat.mul_add]; omega)
    have h2 := Nat.div_add_mod q L
    rw [Nat.mul_add] at h1
    omega

namespace ConvolutionKernel_bfyx_GEMMLike

/-- The GEMM block description `SetDefault` chooses. -/
theorem SetDefault_gemmStyle (Parent_SetDefault : convolution_params → Int → DispatchData)
    (arg : convolution_params) (autoTuneIndex : Int) :
    (SetDefault Parent_SetDefault arg autoTuneIndex).gemmStyle =
      (if arg.input0_DType = Datatype.F16 then ⟨1, arg.filterSize_x, 32, 32, 1, 1⟩
       else ⟨2, arg.filterSize_x, 32, 32, 2, 1⟩) ∧
    (SetDefault Parent_SetDefault arg autoTuneIndex).effiency =
      (if arg.input0_DType = Datatype.F16 then Priority.FORCE_PRIORITY_6
       else Priority.FORCE_PRIORITY_8) := by
  by_cases h : arg.input0_DType = Datatype.F16
  · simp only [SetDefault, h, if_true]
    exact ⟨trivial, trivial⟩
  · simp only [SetDefault, h, if_false]
    exact ⟨trivial, trivial⟩

/-- C21: for every `convolution_params` (and whatever the base class contributes), with
`runInfo = SetDefault(params)`, `GetJitConstants` returns the constants of the base class
followed by its own, and among its own there is one named `LEFTOVERS` if and only if
`runInfo.gws1` differs from `CeilDiv(RoundUp(out_x * out_y, subBlockDimM), globalWorkSizeDY)`,
which is the case if and only if that quotient is not a multiple of `lws1`; `gws1` is never
below the quotient and exceeds it by less than `lws1`. -/
theorem GetJitConstants_LEFTOVERS
    (Parent_SetDefault : convolution_params → Int → DispatchData)
    (Parent_GetJitConstants : convolution_params → DispatchData → List JitConstant)
    (params : convolution_params) (autoTuneIndex : Int) :
    ∃ added,
      GetJitConstants Parent_GetJitConstants params
          (SetDefault Parent_SetDefault params autoTuneIndex) =
        some (Parent_GetJitConstants params (SetDefault Parent_SetDefault params autoTuneIndex)
          ++ added) ∧
      ("LEFTOVERS" ∈ added.map JitConstant.name ↔
        (SetDefault Parent_SetDefault params autoTuneIndex).gws1 ≠
          CeilDiv
            (RoundUp (params.output_X * params.output_Y)
              (SetDefault Parent_SetDefault params autoTuneIndex).gemmStyle.subBlockDimM)
            (SetDefault Parent_SetDefault params autoTuneIndex).gemmStyle.globalWorkSizeDY) ∧
      ("LEFTOVERS" ∈ added.map JitConstant.name ↔
        CeilDiv
            (RoundUp (params.output_X * params.output_Y)
              (SetDefault Parent_SetDefault params autoTuneIndex).gemmStyle.subBlockDimM)
            (SetDefault Parent_SetDefault params autoTuneIndex).gemmStyle.globalWorkSizeDY %
          (SetDefault Parent_SetDefault params autoTuneIndex).lws1 ≠ 0) ∧
      CeilDiv
          (RoundUp (params.output_X * params.output_Y)
            (SetDefault Parent_SetDefault params autoTuneIndex).gemmStyle.subBlockDimM)
          (SetDefault Parent_SetDefault params autoTuneIndex).gemmStyle.globalWorkSizeDY ≤
        (SetDefault Parent_SetDefault params autoTuneIndex).gws1 ∧
      (SetDefault Parent_SetDefault params autoTuneIndex).gws1 <
        CeilDiv
            (RoundUp (params.output_X * params.output_Y)
              (SetDefault Parent_SetDefault params autoTuneIndex).gemmStyle.subBlockDimM)
            (SetDefault Parent_SetDefault params autoTuneIndex).gemmStyle.globalWorkSizeDY +
          (SetDefault Parent_SetDefault params autoTuneIndex).lws1 := by
  obtain ⟨_, hl, _⟩ := SetDefault_lws Parent_SetDefault params autoTuneIndex
  obtain ⟨_, hg, _⟩ := SetDefault_gws Parent_SetDefault params autoTuneIndex
  obtain ⟨hs, _⟩ := SetDefault_gemmStyle Parent_SetDefault params autoTuneIndex
  generalize SetDefault Parent_SetDefault params autoTuneIndex = runInfo at hl hg hs ⊢
  have hM : runInfo.gemmStyle.subBlockDimM =
      (if params.input0_DType = Datatype.F16 then 1 else 2) := by
    rw [hs]; split <;> rfl
  have hDY : runInfo.gemmStyle.globalWorkSizeDY =
      (if params.input0_DType = Datatype.F16 then 1 else 2) := by
    rw [hs]; split <;> rfl
  have hN : runInfo.gemmStyle.subBlockDimN = 32 := by
    rw [hs]; split <;> rfl
  have hL : 0 < runInfo.lws1 := by
    rw [hl]; split <;> decide
  have hMpos : 0 < runInfo.gemmStyle.subBlockDimM := by
    rw [hM]; split <;> decide
  have hDYpos : 0 < runInfo.gemmStyle.globalWorkSizeDY := by
    rw [hDY]; split <;> decide
  have hguard : ¬ (runInfo.gemmStyle.subBlockDimN = 0 ∨ runInfo.gemmStyle.subBlockDimM = 0 ∨
      runInfo.gemmStyle.globalWorkSizeDY = 0 ∨ runInfo.lws1 = 0) := by
    rw [hN]; omega
  have hg' : runInfo.gws1 =
      RoundUp (CeilDiv (RoundUp (params.output_X * params.output_Y)
        runInfo.gemmStyle.subBlockDimM) runInfo.gemmStyle.globalWorkSizeDY) runInfo.lws1 := by
    rw [hg, hM, hDY]
  unfold GetJitConstants
  simp only [if_neg hguard]
  generalize CeilDiv (RoundUp (params.output_X * params.output_Y)
    runInfo.gemmStyle.subBlockDimM) runInfo.gemmStyle.globalWorkSizeDY = q at hg' ⊢
  have hiff := RoundUp_eq_iff q runInfo.lws1 hL
  have hlt := RoundUp_lt_add q runInfo.lws1 hL
  have hge := (RoundUp_is_least_multiple q runInfo.lws1 hL).2.1
  rw [← hg'] at hiff hlt hge
  by_cases hq : q % runInfo.lws1 = 0
  · refine ⟨[ ⟨"ALIGNED_OFM",
          JitValue.num (RoundUp params.output_Feature runInfo.gemmStyle.subBlockDimN)⟩,
        ⟨"DX", JitValue.num runInfo.gemmStyle.globalWorkSizeDX⟩,
        ⟨"DY", JitValue.num runInfo.gemmStyle.globalWorkSizeDY⟩,
        ⟨"FILTER_SIZE_X_DIV2", JitValue.num (params.filterSize_x / 2)⟩,
        ⟨"INPUT_BUFFER_WIDTH_PADDED", JitValue.str ""⟩,
        ⟨"INPUT_BUFFER_HEIGHT_PADDED", JitValue.str ""⟩ ], ?_, ?_, ?_, hge, hlt⟩
    · simp only [hq, bne_self_eq_false, Bool.false_eq_true, if_false]
    · have : runInfo.gws1 = q := hiff.2 hq
      simp [this]
    · simp [hq]
  · refine ⟨[ ⟨"ALIGNED_OFM",
          JitValue.num (RoundUp params.output_Feature runInfo.gemmStyle.subBlockDimN)⟩,
        ⟨"DX", JitValue.num runInfo.gemmStyle.globalWorkSizeDX⟩,
        ⟨"DY", JitValue.num runInfo.gemmStyle.globalWorkSizeDY⟩,
        ⟨"FILTER_SIZE_X_DIV2", JitValue.num (params.filterSize_x / 2)⟩,
        ⟨"INPUT_BUFFER_WIDTH_PADDED", JitValue.str ""⟩,
        ⟨"INPUT_BUFFER_HEIGHT_PADDED", JitValue.str ""⟩ ] ++ [⟨"LEFTOVERS", JitValue.num 1⟩], ?_, ?_, ?_, hge, hlt⟩
    · simp only [bne_iff_ne, ne_eq, hq, not_false_eq_true, if_true, List.append_assoc]
    · have : runInfo.gws1 ≠ q := fun e => hq (hiff.1 e)
      simp [this]
    · simp [hq]

end ConvolutionKernel_bfyx_GEMMLike

end kernel_selector

namespace kernel_selector

namespace ConvolutionKernel_bfyx_GEMMLike

/-- C28: the input data types the supported key enables are exactly `F16` and `F32`, and for
them the kernel chooses consistently: an `F16` input gives the name suffix `_fp16`, the one
weight layout `iy_xs_os_xsv2_osv16__ao32`, `lws1 = 16` and `FORCE_PRIORITY_6`; an `F32`
input gives the suffix `_fp32`, the one weight layout `iy_xs_os_xsv2_osv8__ao32`, `lws1 = 8`
and `FORCE_PRIORITY_8`. -/
theorem GEMMLike_choices_consistent
    (Parent_SetDefault : convolution_params → Int → DispatchData) (kernelName : String)
    (params : convolution_params) (autoTuneIndex : Int) :
    (∀ dt : Datatype, GetSupportedKey.inputType.testBit dt.bit = true ↔
      dt = Datatype.F16 ∨ dt = Datatype.F32) ∧
    (params.input0_DType = Datatype.F16 →
      GetKernelName kernelName params = kernelName ++ "_fp16" ∧
      GetSupportedWeightLayouts params = [WeightsLayout.iy_xs_os_xsv2_osv16__ao32] ∧
      (SetDefault Parent_SetDefault params autoTuneIndex).lws1 = 16 ∧
      (SetDefault Parent_SetDefault params autoTuneIndex).effiency =
        Priority.FORCE_PRIORITY_6) ∧
    (params.input0_DType = Datatype.F32 →
      GetKernelName kernelName params = kernelName ++ "_fp32" ∧
      GetSupportedWeightLayouts params = [WeightsLayout.iy_xs_os_xsv2_osv8__ao32] ∧
      (SetDefault Parent_SetDefault params autoTuneIndex).lws1 = 8 ∧
      (SetDefault Parent_SetDefault params autoTuneIndex).effiency =
        Priority.FORCE_PRIORITY_8) := by
  obtain ⟨_, hl, _⟩ := SetDefault_lws Parent_SetDefault params autoTuneIndex
  obtain ⟨_, he⟩ := SetDefault_gemmStyle Parent_SetDefault params autoTuneIndex
  refine ⟨?_, ?_, ?_⟩
  · intro dt
    cases dt <;> decide
  · intro h
    rw [hl, he]
    simp [GetKernelName, GetSupportedWeightLayouts, h]
  · intro h
    rw [hl, he]
    simp [GetKernelName, GetSupportedWeightLayouts, h]

end ConvolutionKernel_bfyx_GEMMLike

end kernel_selector

namespace cldnn

namespace gpu

namespace base_events

/-- The loop of `set_queue_stamp` on `base_event` objects only: it ends with the greatest
of the start value and their queue stamps. -/
theorem set_queue_stamp_loop_base_event (stamps : List Nat) :
    ∀ m, set_queue_stamp_loop (stamps.map event_impl.base_event) m =
      some (stamps.foldl max m) := by
  induction stamps with
  | nil => intro m; rfl
  | cons s rest ih =>
    intro m
    simp only [List.map_cons, set_queue_stamp_loop, List.foldl_cons]
    rw [ih]
    congr 2
    split <;> omega

/-- The behaviour of `attach_events`: on an attached object (such as one built by the
event-list constructor) it throws `std::runtime_error` and changes nothing; on an
unattached object given `base_event` objects only, it stores them, sets the attached flag
and sets the queue stamp to the greatest of their stamps (0 for none). -/
theorem attach_events_of_base_event (self : base_events) (stamps : List Nat) :
    (self._attached = true →
      ∀ ev, attach_events self ev =
        some (self,
          some (Exception.runtime_error "Trying to attach events to valid event object."))) ∧
    (self._attached = false →
      attach_events self (stamps.map event_impl.base_event) =
        some ({ _attached := true, _queue_stamp := stamps.foldl max 0,
                _events := stamps.map event_impl.base_event }, none)) ∧
    (∀ s, ctor_events (stamps.map event_impl.base_event) = some s → s._attached = true) := by
  refine ⟨?_, ?_, ?_⟩
  · intro h ev
    simp [attach_events, h]
  · intro h
    simp [attach_events, h, set_queue_stamp, set_queue_stamp_loop_base_event]
  · intro s hs
    simp only [ctor_events, set_queue_stamp, set_queue_stamp_loop_base_event,
      Option.some.injEq] at hs
    rw [← hs]

/-- C24: on the unattached object built by `base_events(ctx)`, `attach_events` with a
`base_event` of queue stamp 3 followed by a `base_events` object of queue stamp 7 faults:
the `dynamic_cast<base_event*>` of the second is null and is dereferenced, so no queue stamp
is set.  With the `base_event` alone the call stores it and sets the stamp 3. -/
theorem attach_events_non_base_event_faults :
    attach_events ctor [event_impl.base_event 3, event_impl.base_events 7] = none ∧
    attach_events ctor [event_impl.base_event 3] =
      some ({ _attached := true, _queue_stamp := 3, _events := [event_impl.base_event 3] },
        none) := by
  decide

end base_events

/-- The counterexample to C29: on Windows with an invalid device-information set
`get_gpu_device_id` returns 0, and the constructor throws `Device lookup failed`. -/
theorem get_gpu_device_id_zero_on_invalid_handle :
    get_gpu_device_id (Platform.win32 Win32Lookup.invalid_handle) = Outcome.returns 0 ∧
    (engine_info_internal.ctor
        ⟨Platform.win32 Win32Lookup.invalid_handle, "driver", 24, 1000, 512⟩
        (fun _ => Outcome.returns rapidjson.emptyObject)).2 =
      Outcome.throws (Exception.runtime_error "Device lookup failed") :=
  ⟨rfl, rfl⟩

/-- C29, amended: `get_gpu_device_id` returns `0x7012` on Linux, on any other non-Windows
platform, and on Windows whenever the device enumeration completes; on Windows with an
invalid device-information set it returns 0, and then the constructor throws
`Device lookup failed`.  On the platforms where it returns `0x7012` the constructor throws
nothing, and whenever the constructor returns an object its `dev_id` is `0x7012` and its
`max_work_group_size` is the smaller of the value the device reports and 256. -/
theorem device_id_and_work_group_cap (context : gpu_toolkit)
    (load : Nat → Outcome rapidjson.Value) :
    ((context.platform = Platform.linux ∨ context.platform = Platform.other ∨
        ∃ r, context.platform = Platform.win32 (Win32Lookup.enumerated r)) →
      get_gpu_device_id context.platform = Outcome.returns 0x7012 ∧
      ∀ e, (engine_info_internal.ctor context load).2 ≠ Outcome.throws e) ∧
    (context.platform = Platform.win32 Win32Lookup.invalid_handle →
      get_gpu_device_id context.platform = Outcome.returns 0 ∧
      engine_info_internal.ctor context load =
        ([], Outcome.throws (Exception.runtime_error "Device lookup failed"))) ∧
    (∀ out e, engine_info_internal.ctor context load = (out, Outcome.returns e) →
      e.dev_id = "0x7012" ∧
      e.max_work_group_size = min context.CL_DEVICE_MAX_WORK_GROUP_SIZE 256) := by
  have hhex : to_string_hex 0x7012 = some "0x7012" := by decide
  have hcap : ∀ n, cap_work_group_size n = min n 256 := by
    intro n
    unfold cap_work_group_size
    split <;> omega
  have hgood : get_gpu_device_id context.platform = Outcome.returns 0x7012 →
      (∀ e, (engine_info_internal.ctor context load).2 ≠ Outcome.throws e) ∧
      (∀ out e, engine_info_internal.ctor context load = (out, Outcome.returns e) →
        e.dev_id = "0x7012" ∧
        e.max_work_group_size = min context.CL_DEVICE_MAX_WORK_GROUP_SIZE 256) := by
    intro hid
    unfold engine_info_internal.ctor
    rw [hid]
    simp only [hhex]
    cases load context.CL_DEVICE_MAX_COMPUTE_UNITS with
    | returns doc =>
      refine ⟨fun e h => by simp at h, fun out e h => ?_⟩
      simp at h
      rw [← h.2]
      exact ⟨rfl, hcap _⟩
    | throws x =>
      refine ⟨fun e h => by simp [Parse_through] at h, fun out e h => ?_⟩
      simp [Parse_through] at h
    | fault =>
      refine ⟨fun e h => by simp at h, fun out e h => ?_⟩
      simp at h
  refine ⟨?_, ?_, ?_⟩
  · intro hp
    have hid : get_gpu_device_id context.platform = Outcome.returns 0x7012 := by
      rcases hp with h | h | ⟨r, h⟩ <;> rw [h] <;> rfl
    exact ⟨hid, (hgood hid).1⟩
  · intro hp
    refine ⟨by rw [hp]; rfl, ?_⟩
    unfold engine_info_internal.ctor
    rw [hp]
    rfl
  · intro out e h
    rcases hplat : context.platform with l | _ | _
    · rcases l with _ | x | r
      · simp [engine_info_internal.ctor, hplat, get_gpu_device_id] at h
      · simp [engine_info_internal.ctor, hplat, get_gpu_device_id] at h
      · exact (hgood (by rw [hplat]; rfl)).2 out e h
    · exact (hgood (by rw [hplat]; rfl)).2 out e h
    · exact (hgood (by rw [hplat]; rfl)).2 out e h

/-- Witness of C29: on a Linux device that reports a maximum work-group size of 512 and whose cache loads,
the constructor returns an object with `dev_id` `0x7012` and `max_work_group_size` 256. -/
theorem device_id_and_work_group_cap_witness :
    get_gpu_device_id Platform.linux = Outcome.returns 0x7012 ∧
    ∀ out e,
      engine_info_internal.ctor ⟨Platform.linux, "driver", 24, 1000, 512⟩
          (fun _ => Outcome.returns rapidjson.emptyObject) = (out, Outcome.returns e) →
        e.dev_id = "0x7012" ∧ e.max_work_group_size = min 512 256 :=
  ⟨((device_id_and_work_group_cap ⟨Platform.linux, "driver", 24, 1000, 512⟩
      (fun _ => Outcome.returns rapidjson.emptyObject)).1 (Or.inl rfl)).1,
   (device_id_and_work_group_cap ⟨Platform.linux, "driver", 24, 1000, 512⟩
      (fun _ => Outcome.returns rapidjson.emptyObject)).2.2⟩

end gpu

/-- C30: `fmt_to_str` gives `format::b_fs_yx_fsv4` the string `b_fs_yx_fs4`, which is not the
name of the enumerator; a neighbouring case, `format::fs_bs_yx_bsv4_fsv32`, gets its name. -/
theorem fmt_to_str_b_fs_yx_fsv4 :
    fmt_to_str format.b_fs_yx_fsv4 = "b_fs_yx_fs4" ∧
    fmt_to_str format.b_fs_yx_fsv4 ≠ "b_fs_yx_fsv4" ∧
    fmt_to_str format.fs_bs_yx_bsv4_fsv32 = "fs_bs_yx_bsv4_fsv32" := by
  decide

end cldnn

namespace cldnn

/-- `find` of a character that occurs: its first position, which is not `npos` in a string
whose length fits a `size_t`. -/
theorem find_of_mem (str : List Char) (c : Char) (h : c ∈ str) (hlen : str.length < 2 ^ 64) :
    find str c = str.indexOf c ∧ str.indexOf c < str.length ∧ find str c ≠ npos := by
  have hlt : str.indexOf c < str.length := List.indexOf_lt_length.2 h
  refine ⟨by simp [find, h], hlt, ?_⟩
  simp only [find, h, if_true, npos]
  omega

/-- C26: for a string whose length fits a `size_t`, `get_extr_type` returns the empty string
when there is no `<` or no `>`; the characters strictly between the first `<` and the first
`>` when the `<` comes first; and, when the first `>` comes first, the whole remainder of
the string after the first `<` (the length computed on `size_t` wraps around). -/
theorem get_extr_type_spec (str : String) (hlen : str.length < 2 ^ 64) :
    ((¬ '<' ∈ str.data ∨ ¬ '>' ∈ str.data) → get_extr_type str = some "") ∧
    ('<' ∈ str.data → '>' ∈ str.data → str.data.indexOf '<' < str.data.indexOf '>' →
      get_extr_type str =
        some (String.mk ((str.data.drop (str.data.indexOf '<' + 1)).take
          (str.data.indexOf '>' - str.data.indexOf '<' - 1)))) ∧
    ('<' ∈ str.data → '>' ∈ str.data → str.data.indexOf '>' < str.data.indexOf '<' →
      get_extr_type str = some (String.mk (str.data.drop (str.data.indexOf '<' + 1)))) := by
  have hlen' : str.data.length < 2 ^ 64 := hlen
  refine ⟨?_, ?_, ?_⟩
  · rintro (h | h)
    · simp [get_extr_type, find, h]
    · simp [get_extr_type, find, h]
  · intro hb he hlt
    obtain ⟨fb, lb, nb⟩ := find_of_mem str.data '<' hb hlen'
    obtain ⟨fe, le, ne⟩ := find_of_mem str.data '>' he hlen'
    rw [fb] at nb
    rw [fe] at ne
    unfold get_extr_type
    simp only [fb, fe]
    have h1 : (str.data.indexOf '<' + 1) % 2 ^ 64 = str.data.indexOf '<' + 1 := by omega
    have h2 : ((str.data.indexOf '>' + 2 ^ 64 - str.data.indexOf '<') % 2 ^ 64 + 2 ^ 64 - 1)
        % 2 ^ 64 = str.data.indexOf '>' - str.data.indexOf '<' - 1 := by omega
    rw [h1, h2]
    unfold substr
    have hpos : ¬ (str.data.indexOf '<' + 1 > str.data.length) := by omega
    have hmin : min (str.data.indexOf '>' - str.data.indexOf '<' - 1)
        (str.data.length - (str.data.indexOf '<' + 1)) =
        str.data.indexOf '>' - str.data.indexOf '<' - 1 := by omega
    rw [if_neg hpos, hmin]
    simp [nb, ne]
  · intro hb he hlt
    obtain ⟨fb, lb, nb⟩ := find_of_mem str.data '<' hb hlen'
    obtain ⟨fe, le, ne⟩ := find_of_mem str.data '>' he hlen'
    rw [fb] at nb
    rw [fe] at ne
    unfold get_extr_type
    simp only [fb, fe]
    have h1 : (str.data.indexOf '<' + 1) % 2 ^ 64 = str.data.indexOf '<' + 1 := by omega
    have h2 : ((str.data.indexOf '>' + 2 ^ 64 - str.data.indexOf '<') % 2 ^ 64 + 2 ^ 64 - 1)
        % 2 ^ 64 = str.data.indexOf '>' + 2 ^ 64 - str.data.indexOf '<' - 1 := by omega
    rw [h1, h2]
    unfold substr
    have hpos : ¬ (str.data.indexOf '<' + 1 > str.data.length) := by omega
    have hmin : min (str.data.indexOf '>' + 2 ^ 64 - str.data.indexOf '<' - 1)
        (str.data.length - (str.data.indexOf '<' + 1)) =
        str.data.length - (str.data.indexOf '<' + 1) := by omega
    rw [if_neg hpos, hmin, List.take_of_length_le (by rw [List.length_drop])]
    simp [nb, ne]

/-- Witness of C26: `a>b<cd` has its first `>` before its first `<`, and the result is the
remainder `cd`; `x<int>y` gives `int`. -/
theorem get_extr_type_spec_witness :
    get_extr_type "a>b<cd" = some "cd" ∧ get_extr_type "x<int>y" = some "int" :=
  ⟨(get_extr_type_spec "a>b<cd" (by decide)).2.2 (by decide) (by decide) (by decide),
   (get_extr_type_spec "x<int>y" (by decide)).2.1 (by decide) (by decide) (by decide)⟩

end cldnn

namespace cldnn

namespace gpu

/-- A number below `16 ^ i` has at most `i` hexadecimal digits. -/
theorem digits_length_le_of_lt : ∀ (i tmp : Nat), tmp < 16 ^ i →
    (Nat.digits 16 tmp).length ≤ i := by
  intro i
  induction i with
  | zero =>
    intro tmp h
    have : tmp = 0 := by simpa using h
    subst this
    simp
  | succ i ih =>
    intro tmp h
    by_cases h0 : tmp = 0
    · subst h0
      simp
    · rw [Nat.digits_def' (by decide) (Nat.pos_of_ne_zero h0), List.length_cons]
      have : tmp / 16 < 16 ^ i := by
        apply Nat.div_lt_of_lt_mul
        rw [Nat.pow_succ, Nat.mul_comm] at h
        exact h
      exact Nat.succ_le_succ (ih _ this)

/-- The loop of `to_string_hex`, started at position `i` of a buffer with a number that has
at most `i` hexadecimal digits: it consumes the whole number and writes its digits, most
significant first, right before position `i`. -/
theorem to_string_hex_loop_spec : ∀ (i tmp : Nat) (buf : List Char),
    i ≤ buf.length → tmp < 16 ^ i →
    to_string_hex_loop i tmp buf =
      (i - (Nat.digits 16 tmp).length, 0,
        buf.take (i - (Nat.digits 16 tmp).length) ++
          (Nat.digits 16 tmp).reverse.map (fun d => hex_chars.getD d '0') ++ buf.drop i) := by
  intro i
  induction i with
  | zero =>
    intro tmp buf _ h
    have : tmp = 0 := by simpa using h
    subst this
    simp [to_string_hex_loop]
  | succ i ih =>
    intro tmp buf hlen h
    by_cases h0 : tmp = 0
    · subst h0
      simp [to_string_hex_loop]
    · have hpos : tmp > 0 := Nat.pos_of_ne_zero h0
      have hdiv : tmp / 16 < 16 ^ i := by
        apply Nat.div_lt_of_lt_mul
        rw [Nat.pow_succ, Nat.mul_comm] at h
        exact h
      have hd := digits_length_le_of_lt i (tmp / 16) hdiv
      have hshift : tmp >>> 4 = tmp / 16 := by
        rw [Nat.shiftRight_eq_div_pow]
      have hand : tmp &&& 0xF = tmp % 16 := Nat.and_pow_two_sub_one_eq_mod tmp 4
      rw [to_string_hex_loop, if_pos hpos, hshift, hand,
        ih (tmp / 16) _ (by rw [List.length_set]; omega) hdiv,
        Nat.digits_def' (by decide) hpos]
      have hi : i < buf.length := hlen
      have hget : (buf.set i (hex_chars.getD (tmp % 16) '0'))[i]? =
          some (hex_chars.getD (tmp % 16) '0') := by
        rw [List.getElem?_set_self hi]
      have hdrop : (buf.set i (hex_chars.getD (tmp % 16) '0')).drop i =
          hex_chars.getD (tmp % 16) '0' :: buf.drop (i + 1) := by
        rw [drop_of_getElem? _ _ _ hget, drop_succ_set]
      have htake : (buf.set i (hex_chars.getD (tmp % 16) '0')).take
          (i - (Nat.digits 16 (tmp / 16)).length) =
          buf.take (i - (Nat.digits 16 (tmp / 16)).length) := by
        by_cases hz : (Nat.digits 16 (tmp / 16)).length = 0
        · rw [hz, Nat.sub_zero, take_set_self]
        · exact List.take_set_of_lt _ _ (by omega)
      rw [hdrop, htake]
      simp only [List.length_cons, Nat.add_sub_add_right, List.reverse_cons, List.map_append,
        List.map_cons, List.map_nil, List.append_assoc, List.singleton_append]

/-- Each value below 16 is found again from its digit character. -/
theorem hex_chars_indexOf (d : Nat) (h : d < 16) :
    hex_chars.indexOf (hex_chars.getD d '0') = d ∧ hex_chars.getD d '0' ∈ hex_chars := by
  have : ∀ k : Fin 16, hex_chars.indexOf (hex_chars.getD k.1 '0') = k.1 ∧
      hex_chars.getD k.1 '0' ∈ hex_chars := by decide
  exact this ⟨d, h⟩

end gpu

end cldnn

namespace cldnn

namespace gpu

/-- Reading the digit characters of a list of hexadecimal digits, least significant first,
gives the number the digits stand for. -/
theorem foldr_hex_chars (L : List Nat) (h : ∀ d ∈ L, d < 16) :
    L.foldr (fun d acc => 16 * acc + hex_chars.indexOf (hex_chars.getD d '0')) 0 =
      Nat.ofDigits 16 L := by
  induction L with
  | nil => rfl
  | cons d L ih =>
    rw [List.foldr_cons, ih (fun x hx => h x (List.mem_cons_of_mem _ hx)),
      (hex_chars_indexOf d (h d (List.mem_cons_self _ _))).1, Nat.ofDigits_cons]
    omega

/-- C25: for every `int` value, with `n` the value seen as an unsigned 32-bit number,
`to_string_hex` returns (its assertion holds) `0x` followed by between 1 and 8 characters
of `0123456789ABCDEF`: the single digit `0` when `n = 0`, and otherwise digits that do not
start with `0`; read in base 16 the digits give `n`.  The loop stops with all bits consumed
and at least 8 of the 16 buffer positions unused. -/
theorem to_string_hex_spec (val : Int) :
    ∃ digits : List Char,
      to_string_hex val = some ("0x" ++ String.mk digits) ∧
      1 ≤ digits.length ∧ digits.length ≤ 8 ∧
      (∀ c ∈ digits, c ∈ hex_chars) ∧
      ((val % 4294967296).toNat = 0 → digits = ['0']) ∧
      ((val % 4294967296).toNat ≠ 0 → digits.head? ≠ some '0') ∧
      digits.foldl (fun acc c => 16 * acc + hex_chars.indexOf c) 0 =
        (val % 4294967296).toNat ∧
      (to_string_hex_loop 16 (val % 4294967296).toNat "0000000000000000".toList).2.1 = 0 ∧
      8 ≤ (to_string_hex_loop 16 (val % 4294967296).toNat "0000000000000000".toList).1 := by
  have hn : (val % 4294967296).toNat < 4294967296 := by
    have h1 := Int.emod_lt_of_pos val (by decide : (0 : Int) < 4294967296)
    have h2 := Int.emod_nonneg val (by decide : (4294967296 : Int) ≠ 0)
    omega
  unfold to_string_hex
  simp only []
  generalize (val % 4294967296).toNat = n at hn ⊢
  have h16 : n < 16 ^ 16 := by
    have : (16 : Nat) ^ 16 = 18446744073709551616 := by norm_num
    omega
  have h8 : n < 16 ^ 8 := by
    have : (16 : Nat) ^ 8 = 4294967296 := by norm_num
    omega
  have hlen := digits_length_le_of_lt 8 n h8
  have hbuf : (16 : Nat) ≤ "0000000000000000".toList.length := by decide
  have hloop := to_string_hex_loop_spec 16 n "0000000000000000".toList hbuf h16
  by_cases h0 : n = 0
  · subst h0
    refine ⟨['0'], by decide, by decide, by decide, by decide, fun _ => rfl,
      fun h => absurd rfl h, by decide, by decide, by decide⟩
  · have hne : Nat.digits 16 n ≠ [] := Nat.digits_ne_nil_iff_ne_zero.2 h0
    have hpos : 1 ≤ (Nat.digits 16 n).length := List.length_pos.2 hne
    have hlt : ∀ d ∈ Nat.digits 16 n, d < 16 := fun d hd => Nat.digits_lt_base (by decide) hd
    refine ⟨(Nat.digits 16 n).reverse.map (fun d => hex_chars.getD d '0'),
      ?_, ?_, ?_, ?_, fun h => absurd h h0, ?_, ?_, ?_, ?_⟩
    · have hb : (n == 0) = false := by simpa using h0
      rw [hloop]
      simp only [hb, Bool.false_eq_true, if_false, beq_self_eq_true, if_true]
      rw [List.append_assoc, List.drop_left' (by rw [List.length_take]; omega)]
      simp
    · simpa using hpos
    · simpa using hlen
    · intro c hc
      obtain ⟨d, hd, rfl⟩ := List.mem_map.1 hc
      exact (hex_chars_indexOf d (hlt d (List.mem_reverse.1 hd))).2
    · intro _ hhead
      rw [List.head?_map, List.head?_reverse, List.getLast?_eq_getLast _ hne] at hhead
      simp only [Option.map_some', Option.some.injEq] at hhead
      have hl : (Nat.digits 16 n).getLast hne < 16 := hlt _ (List.getLast_mem hne)
      have h1 := (hex_chars_indexOf _ hl).1
      rw [hhead] at h1
      have h2 : hex_chars.indexOf '0' = 0 := by decide
      exact Nat.getLast_digit_ne_zero 16 h0 (by omega)
    · rw [List.foldl_map, List.foldl_reverse, foldr_hex_chars _ hlt, Nat.ofDigits_digits]
    · rw [hloop]
    · rw [hloop]
      simp only []
      omega

end gpu

end cldnn

namespace cldnn

/-- Writing beyond the end of a list changes nothing. -/
theorem set_of_getElem?_none {α : Type} (l : List α) (i : Nat) (a : α) (h : l[i]? = none) :
    l.set i a = l := by
  induction l generalizing i with
  | nil => rfl
  | cons x xs ih =>
    cases i with
    | zero => simp at h
    | succ i => simp at h; simp [ih i (by simpa using h)]

/-- The id of a clone of the reshape `node` tells the user it is made for. -/
theorem reshape_split_injective (u v node : String)
    (h : "_reshape_split_" ++ u ++ "_" ++ node = "_reshape_split_" ++ v ++ "_" ++ node) :
    u = v := by
  have hd := congrArg String.data h
  simp only [String.data_append] at hd
  have h1 := List.append_cancel_right hd
  have h2 := List.append_cancel_right h1
  exact String.ext (List.append_cancel_left h2)

/-- The id of a clone is not the id of an input reorder. -/
theorem reshape_split_ne_input (u node x : String) :
    "_reshape_split_" ++ u ++ "_" ++ node ≠ "_reshape_input_" ++ x := by
  rw [String.append_assoc, String.append_assoc]
  exact append_ne_of_prefix_ne _ _ _ _ (by decide) (by decide)

namespace program_impl

/-- The dependencies after `replace_dependency`: those of `self` with position `idx`
overwritten, all others as before. -/
theorem replace_dependency_dependencies (p : program_impl) (self : String) (idx : Nat)
    (new_dep : String) :
    (p.replace_dependency self idx new_dep).dependencies =
      Function.update p.dependencies self ((p.dependencies self).set idx new_dep) := by
  unfold replace_dependency
  split
  · rename_i hnone
    rw [set_of_getElem?_none _ _ _ hnone, Function.update_eq_self]
  · rename_i old hold
    split
    · rename_i e
      rw [← e, set_of_getElem? _ _ _ hold, Function.update_eq_self]
    · rfl

/-- `replace_dependency` leaves the memoized layouts alone. -/
theorem replace_dependency_output_layout (p : program_impl) (self : String) (idx : Nat)
    (new_dep : String) :
    (p.replace_dependency self idx new_dep).output_layout = p.output_layout := by
  unfold replace_dependency
  split
  · rfl
  · split <;> rfl

/-- `add_intermediate` of a node without dependencies, with the connecting flag set, on an
existing dependency `prev` of `next`: the node reads `prev`, `next` reads the node in the
place of `prev`, and nothing else changes among descriptors, dependencies and layouts. -/
theorem add_intermediate_splice (p : program_impl) (node next prev : String) (idx : Nat)
    (hget : (p.dependencies next)[idx]? = some prev) (hnn : node ≠ next)
    (hempty : p.dependencies node = []) :
    ∃ P, p.add_intermediate node next idx true = some P ∧
      P.dependencies =
        Function.update (Function.update p.dependencies node [prev]) next
          ((p.dependencies next).set idx node) ∧
      P.nodes_map = p.nodes_map ∧ P.output_layout = p.output_layout := by
  refine ⟨(p.add_connection prev node).replace_dependency next idx node, ?_, ?_, ?_, ?_⟩
  · unfold add_intermediate
    rw [hget]
    rfl
  · rw [replace_dependency_dependencies]
    simp [add_connection, Function.update_apply, hnn, Ne.symm hnn, hempty]
  · rw [(replace_dependency_keeps _ _ _ _).1]
    rfl
  · rw [replace_dependency_output_layout]
    rfl

/-- `add_intermediate` leaves the memoized layouts alone. -/
theorem add_intermediate_output_layout (p p' : program_impl) (node next : String) (idx : Nat)
    (c : Bool) (h : p.add_intermediate node next idx c = some p') :
    p'.output_layout = p.output_layout := by
  unfold add_intermediate at h
  split at h
  · cases h
  · injection h with h
    subst h
    cases c
    · simpa using replace_dependency_output_layout p next idx node
    · simpa [add_connection] using
        replace_dependency_output_layout (p.add_connection _ node) next idx node

end program_impl

end cldnn

namespace cldnn

namespace handle_reshape

open program_impl

/-- The split loop after the first user: every remaining user that is in
`reorder_node_to_split` gets a fresh clone of the reshape, which reads `input_node` and
takes the place of the user's first dependency; the clones are recorded in order, and
nothing else changes among descriptors and dependencies. -/
theorem split_loop_clones (node input_node : String) (output_shape : tensor)
    (rts : List String) :
    ∀ (us : List String) (p : program_impl) (acc : List String),
      us.Nodup →
      (∀ u ∈ us, u ∈ rts →
        (p.nodes_map u).isSome = true ∧ (p.dependencies u)[0]?.isSome = true ∧
        p.nodes_map ("_reshape_split_" ++ u ++ "_" ++ node) = none) →
      ∃ q, split_loop node input_node output_shape rts us true p acc =
          some (q, acc ++ (us.filter (fun u => decide (u ∈ rts))).map
            (fun u => "_reshape_split_" ++ u ++ "_" ++ node)) ∧
        (∀ u ∈ us, u ∈ rts →
          q.dependencies u =
            (p.dependencies u).set 0 ("_reshape_split_" ++ u ++ "_" ++ node) ∧
          q.nodes_map ("_reshape_split_" ++ u ++ "_" ++ node) =
            some ⟨"_reshape_split_" ++ u ++ "_" ++ node, [input_node],
              primitive_desc.reshape output_shape⟩ ∧
          q.dependencies ("_reshape_split_" ++ u ++ "_" ++ node) = [input_node]) ∧
        (∀ k, (∀ u ∈ us, u ∈ rts → k ≠ u ∧ k ≠ "_reshape_split_" ++ u ++ "_" ++ node) →
          q.dependencies k = p.dependencies k) ∧
        (∀ k, (∀ u ∈ us, u ∈ rts → k ≠ "_reshape_split_" ++ u ++ "_" ++ node) →
          q.nodes_map k = p.nodes_map k) := by
  intro us
  induction us with
  | nil =>
    intro p acc _ _
    exact ⟨p, by simp [split_loop], by simp, fun _ _ => rfl, fun _ _ => rfl⟩
  | cons u rest ih =>
    intro p acc hnd hyp
    have hrest_nd : rest.Nodup := (List.nodup_cons.1 hnd).2
    have hu_rest : u ∉ rest := (List.nodup_cons.1 hnd).1
    by_cases hu : u ∈ rts
    · obtain ⟨hex, hdep, hfresh⟩ := hyp u (List.mem_cons_self _ _) hu
      have huc : u ≠ "_reshape_split_" ++ u ++ "_" ++ node :=
        ne_of_isSome_of_none _ _ _ hex hfresh
      obtain ⟨d0, hd0⟩ := Option.isSome_iff_exists.1 hdep
      have hlen : 0 < (p.dependencies u).length := by
        rcases hl : p.dependencies u with _ | ⟨x, xs⟩
        · rw [hl] at hd0; simp at hd0
        · simp
      -- the clone is created and the user repointed to the input
      obtain ⟨p1, hp1⟩ : ∃ p1, p1 = p.get_or_create
          ⟨"_reshape_split_" ++ u ++ "_" ++ node, [input_node],
            primitive_desc.reshape output_shape⟩ := ⟨_, rfl⟩
      have hp1d : p1.dependencies =
          Function.update p.dependencies ("_reshape_split_" ++ u ++ "_" ++ node) [] := by
        rw [hp1, get_or_create_new p _ hfresh]
      have hp1n : p1.nodes_map =
          Function.update p.nodes_map ("_reshape_split_" ++ u ++ "_" ++ node)
            (some ⟨"_reshape_split_" ++ u ++ "_" ++ node, [input_node],
              primitive_desc.reshape output_shape⟩) := by
        rw [hp1, get_or_create_new p _ hfresh]
      obtain ⟨p2, hp2⟩ : ∃ p2, p2 = p1.replace_dependency u 0 input_node := ⟨_, rfl⟩
      have hp2d : p2.dependencies =
          Function.update p1.dependencies u ((p1.dependencies u).set 0 input_node) := by
        rw [hp2, replace_dependency_dependencies]
      have hp2n : p2.nodes_map = p1.nodes_map := by
        rw [hp2, (replace_dependency_keeps p1 u 0 input_node).1]
      rw [hp1d] at hp2d
      rw [hp1n] at hp2n
      simp only [Function.update_apply, if_neg huc] at hp2d
      have hget2 : (p2.dependencies u)[0]? = some input_node := by
        rw [hp2d]
        simp [Function.update_apply, hlen]
      have hempty2 : p2.dependencies ("_reshape_split_" ++ u ++ "_" ++ node) = [] := by
        rw [hp2d]
        simp [Function.update_apply, Ne.symm huc]
      obtain ⟨P, hP, hPd, hPn, _⟩ := add_intermediate_splice p2
        ("_reshape_split_" ++ u ++ "_" ++ node) u input_node 0 hget2 (Ne.symm huc) hempty2
      rw [hp2d] at hPd
      rw [hp2n] at hPn
      simp only [Function.update_apply, if_true, if_neg huc, if_neg (Ne.symm huc),
        List.set_set] at hPd
      -- facts about the program after this round
      have hPu : P.dependencies u =
          (p.dependencies u).set 0 ("_reshape_split_" ++ u ++ "_" ++ node) := by
        rw [hPd]; simp [Function.update_apply]
      have hPc : P.dependencies ("_reshape_split_" ++ u ++ "_" ++ node) = [input_node] := by
        rw [hPd]; simp [Function.update_apply, Ne.symm huc]
      have hPk : ∀ k, k ≠ u → k ≠ "_reshape_split_" ++ u ++ "_" ++ node →
          P.dependencies k = p.dependencies k := by
        intro k h1 h2
        rw [hPd]; simp [Function.update_apply, h1, h2]
      have hPnc : P.nodes_map ("_reshape_split_" ++ u ++ "_" ++ node) =
          some ⟨"_reshape_split_" ++ u ++ "_" ++ node, [input_node],
            primitive_desc.reshape output_shape⟩ := by
        rw [hPn]; simp [Function.update_apply]
      have hPnk : ∀ k, k ≠ "_reshape_split_" ++ u ++ "_" ++ node →
          P.nodes_map k = p.nodes_map k := by
        intro k h2
        rw [hPn]; simp [Function.update_apply, h2]
      -- the remaining users are as before
      have hyp' : ∀ v ∈ rest, v ∈ rts →
          (P.nodes_map v).isSome = true ∧ (P.dependencies v)[0]?.isSome = true ∧
          P.nodes_map ("_reshape_split_" ++ v ++ "_" ++ node) = none := by
        intro v hv hvr
        obtain ⟨a, b, c⟩ := hyp v (List.mem_cons_of_mem _ hv) hvr
        have hvu : v ≠ u := fun e => hu_rest (e ▸ hv)
        have hvc : v ≠ "_reshape_split_" ++ u ++ "_" ++ node :=
          ne_of_isSome_of_none _ _ _ a hfresh
        have hcc : "_reshape_split_" ++ v ++ "_" ++ node ≠
            "_reshape_split_" ++ u ++ "_" ++ node :=
          fun e => hvu (reshape_split_injective _ _ _ e)
        exact ⟨by rw [hPnk v hvc]; exact a, by rw [hPk v hvu hvc]; exact b,
          by rw [hPnk _ hcc]; exact c⟩
      obtain ⟨q, hq, hq1, hq2, hq3⟩ := ih P
        (acc ++ ["_reshape_split_" ++ u ++ "_" ++ node]) hrest_nd hyp'
      have hsep : ∀ v ∈ rest, v ∈ rts →
          (u ≠ v ∧ u ≠ "_reshape_split_" ++ v ++ "_" ++ node) ∧
          ("_reshape_split_" ++ u ++ "_" ++ node ≠ v ∧
            "_reshape_split_" ++ u ++ "_" ++ node ≠
              "_reshape_split_" ++ v ++ "_" ++ node) := by
        intro v hv hvr
        obtain ⟨a, _, c⟩ := hyp v (List.mem_cons_of_mem _ hv) hvr
        have hvu : u ≠ v := fun e => hu_rest (e ▸ hv)
        exact ⟨⟨hvu, ne_of_isSome_of_none _ _ _ hex c⟩,
          ⟨Ne.symm (ne_of_isSome_of_none _ _ _ a hfresh),
            fun e => hvu (reshape_split_injective _ _ _ e)⟩⟩
      refine ⟨q, ?_, ?_, ?_, ?_⟩
      · rw [split_loop]
        simp only [Bool.not_true, Bool.false_eq_true, if_false, if_pos hu]
        rw [← hp1, ← hp2, hP]
        simp only []
        rw [hq, List.filter_cons_of_pos (by simpa using hu), List.map_cons,
          List.append_assoc]
        rfl
      · intro v hv hvr
        rcases List.mem_cons.1 hv with rfl | hv'
        · refine ⟨?_, ?_, ?_⟩
          · rw [hq2 v (fun w hw hwr => (hsep w hw hwr).1), hPu]
          · rw [hq3 _ (fun w hw hwr => (hsep w hw hwr).2.2), hPnc]
          · rw [hq2 _ (fun w hw hwr => (hsep w hw hwr).2), hPc]
        · obtain ⟨a, b, c⟩ := hq1 v hv' hvr
          have hvu : v ≠ u := fun e => hu_rest (e ▸ hv')
          have hvc : v ≠ "_reshape_split_" ++ u ++ "_" ++ node :=
            ne_of_isSome_of_none _ _ _ (hyp v hv hvr).1 hfresh
          exact ⟨by rw [a, hPk v hvu hvc], b, c⟩
      · intro k hk
        obtain ⟨h1, h2⟩ := hk u (List.mem_cons_self _ _) hu
        rw [hq2 k (fun w hw hwr => hk w (List.mem_cons_of_mem _ hw) hwr), hPk k h1 h2]
      · intro k hk
        rw [hq3 k (fun w hw hwr => hk w (List.mem_cons_of_mem _ hw) hwr),
          hPnk k (hk u (List.mem_cons_self _ _) hu)]
    · obtain ⟨q, hq, hq1, hq2, hq3⟩ := ih p acc hrest_nd
        (fun v hv hvr => hyp v (List.mem_cons_of_mem _ hv) hvr)
      refine ⟨q, ?_, ?_, ?_, ?_⟩
      · rw [split_loop]
        simp only [Bool.not_true, Bool.false_eq_true, if_false, if_neg hu]
        rw [hq, List.filter_cons_of_neg (by simpa using hu)]
      · intro v hv hvr
        rcases List.mem_cons.1 hv with rfl | hv'
        · exact absurd hvr hu
        · exact hq1 v hv' hvr
      · intro k hk
        exact hq2 k (fun w hw hwr => hk w (List.mem_cons_of_mem _ hw) hwr)
      · intro k hk
        exact hq3 k (fun w hw hwr => hk w (List.mem_cons_of_mem _ hw) hwr)

end handle_reshape

end cldnn

namespace cldnn

namespace handle_reshape

open program_impl

/-- A node that is a reorder exists. -/
theorem isSome_of_is_reorder (p : program_impl) (id : String) (h : p.is_reorder id = true) :
    (p.nodes_map id).isSome = true := by
  unfold program_impl.is_reorder at h
  split at h
  · rename_i e; rw [e]; rfl
  · cases h

/-- The split loop as `run` enters it, on a reshape whose users are distinct and whose
reorder users read it as first dependency and have no clone yet: the loop returns;
`reorder_reshape_nodes` lists, for each reorder user in order, the original reshape when
the user is the first of all users and its fresh clone otherwise; that node is then the
first dependency of the user; each clone reads `input_node`; and nothing else changes among
descriptors and dependencies. -/
theorem split_loop_spec (node input_node : String) (output_shape : tensor) (p : program_impl)
    (hnd : (p.users node).Nodup)
    (hus : ∀ u ∈ p.users node, p.is_reorder u = true →
      (p.dependencies u)[0]? = some node ∧
      p.nodes_map ("_reshape_split_" ++ u ++ "_" ++ node) = none) :
    ∃ q, split_loop node input_node output_shape
          ((p.users node).filter fun user => p.is_reorder user) (p.users node) false p [] =
        some (q, ((p.users node).filter fun user => p.is_reorder user).map
          (fun r => if (p.users node).head? = some r then node
            else "_reshape_split_" ++ r ++ "_" ++ node)) ∧
      (∀ r ∈ (p.users node).filter fun user => p.is_reorder user,
        (q.dependencies r)[0]? =
          some (if (p.users node).head? = some r then node
            else "_reshape_split_" ++ r ++ "_" ++ node)) ∧
      (∀ r ∈ (p.users node).filter fun user => p.is_reorder user,
        (p.users node).head? ≠ some r →
        q.nodes_map ("_reshape_split_" ++ r ++ "_" ++ node) =
          some ⟨"_reshape_split_" ++ r ++ "_" ++ node, [input_node],
            primitive_desc.reshape output_shape⟩ ∧
        q.dependencies ("_reshape_split_" ++ r ++ "_" ++ node) = [input_node]) ∧
      (∀ k, (∀ r ∈ (p.users node).filter fun user => p.is_reorder user,
          k ≠ r ∧ k ≠ "_reshape_split_" ++ r ++ "_" ++ node) →
        q.dependencies k = p.dependencies k) ∧
      (∀ k, (∀ r ∈ (p.users node).filter fun user => p.is_reorder user,
          k ≠ "_reshape_split_" ++ r ++ "_" ++ node) →
        q.nodes_map k = p.nodes_map k) := by
  rcases hu : p.users node with _ | ⟨u0, rest⟩
  · exact ⟨p, by simp [split_loop], by simp, by simp, fun _ _ => rfl, fun _ _ => rfl⟩
  · rw [hu] at hnd hus
    have hu0_rest : u0 ∉ rest := (List.nodup_cons.1 hnd).1
    have hrest_nd : rest.Nodup := (List.nodup_cons.1 hnd).2
    -- membership in `reorder_node_to_split`, for a user
    have hmem : ∀ v ∈ u0 :: rest,
        (v ∈ (u0 :: rest).filter (fun user => p.is_reorder user) ↔ p.is_reorder v = true) :=
      fun v hv => by simp [List.mem_filter, hv]
    have hfilter : rest.filter
        (fun u => decide (u ∈ (u0 :: rest).filter (fun user => p.is_reorder user))) =
        rest.filter (fun user => p.is_reorder user) := by
      apply List.filter_congr
      intro v hv
      have := hmem v (List.mem_cons_of_mem _ hv)
      by_cases hr : p.is_reorder v = true
      · simp [hr, this.2 hr]
      · have hn : v ∉ (u0 :: rest).filter (fun user => p.is_reorder user) :=
          fun h => hr (this.1 h)
        simp [hr, hn]
    have hyp : ∀ v ∈ rest, v ∈ (u0 :: rest).filter (fun user => p.is_reorder user) →
        (p.nodes_map v).isSome = true ∧ (p.dependencies v)[0]?.isSome = true ∧
        p.nodes_map ("_reshape_split_" ++ v ++ "_" ++ node) = none := by
      intro v hv hvr
      have hr := (hmem v (List.mem_cons_of_mem _ hv)).1 hvr
      obtain ⟨a, b⟩ := hus v (List.mem_cons_of_mem _ hv) hr
      exact ⟨isSome_of_is_reorder p v hr, by rw [a]; rfl, b⟩
    obtain ⟨q, hq, hq1, hq2, hq3⟩ := split_loop_clones node input_node output_shape
      ((u0 :: rest).filter (fun user => p.is_reorder user)) rest p
      (if u0 ∈ (u0 :: rest).filter (fun user => p.is_reorder user) then [] ++ [node] else [])
      hrest_nd hyp
    have hne_head : ∀ v ∈ rest, ¬ (some u0 = some v) := by
      intro v hv e
      injection e with e
      exact hu0_rest (e ▸ hv)
    have hmap : (rest.filter (fun user => p.is_reorder user)).map
          (fun r => if (u0 :: rest).head? = some r then node
            else "_reshape_split_" ++ r ++ "_" ++ node) =
        (rest.filter (fun user => p.is_reorder user)).map
          (fun r => "_reshape_split_" ++ r ++ "_" ++ node) := by
      apply List.map_congr_left
      intro v hv
      simp [hne_head v (List.mem_filter.1 hv).1]
    refine ⟨q, ?_, ?_, ?_, ?_, ?_⟩
    · rw [split_loop]
      simp only [Bool.not_false, if_true]
      rw [hq, hfilter]
      by_cases h0 : p.is_reorder u0 = true
      · have hin := (hmem u0 (List.mem_cons_self _ _)).2 h0
        rw [if_pos hin, List.filter_cons_of_pos h0, List.map_cons, hmap]
        simp
      · have hin : u0 ∉ (u0 :: rest).filter (fun user => p.is_reorder user) :=
          fun h => h0 ((hmem u0 (List.mem_cons_self _ _)).1 h)
        rw [if_neg hin, List.filter_cons_of_neg h0, hmap]
        simp
    · intro r hr
      have hrm := (List.mem_filter.1 hr).1
      have hrr : p.is_reorder r = true := by simpa using (List.mem_filter.1 hr).2
      rcases List.mem_cons.1 hrm with rfl | hrest
      · have hfr : q.dependencies r = p.dependencies r := by
          apply hq2
          intro v hv hvr
          obtain ⟨_, _, c⟩ := hyp v hv hvr
          exact ⟨fun e => hu0_rest (e ▸ hv),
            ne_of_isSome_of_none _ _ _ (isSome_of_is_reorder p r hrr) c⟩
        rw [hfr, (hus r (List.mem_cons_self _ _) hrr).1]
        simp
      · obtain ⟨a, _, _⟩ := hq1 r hrest hr
        have hlen : 0 < (p.dependencies r).length := by
          have := (hus r hrm hrr).1
          rcases hl : p.dependencies r with _ | ⟨x, xs⟩
          · rw [hl] at this; simp at this
          · simp
        rw [a]
        simp [hne_head r hrest, hlen]
    · intro r hr hhead
      have hrm := (List.mem_filter.1 hr).1
      rcases List.mem_cons.1 hrm with rfl | hrest
      · exact absurd rfl hhead
      · obtain ⟨_, b, c⟩ := hq1 r hrest hr
        exact ⟨b, c⟩
    · intro k hk
      exact hq2 k (fun v hv hvr => hk v hvr)
    · intro k hk
      exact hq3 k (fun v hv hvr => hk v hvr)

end handle_reshape

end cldnn

namespace cldnn

namespace handle_reshape

open program_impl

/-- C27: in the split loop of `handle_reshape::run`, entered on a reshape whose users are
distinct and whose reorder users read it as their first dependency and have no clone yet,
the loop returns, `reorder_reshape_nodes` has the length of `reorder_node_to_split`, and for
every position `i` of `reorder_node_to_split` the lookup `reorder_reshape_nodes[i]` is in
bounds and gives the reshape node that is then the first dependency of the `i`-th reorder
user: the original reshape, or the clone made for that user (a reshape to the same shape). -/
theorem reorder_reshape_nodes_aligned (node input_node : String) (output_shape : tensor)
    (p : program_impl) (hnd : (p.users node).Nodup)
    (hus : ∀ u ∈ p.users node, p.is_reorder u = true →
      (p.dependencies u)[0]? = some node ∧
      p.nodes_map ("_reshape_split_" ++ u ++ "_" ++ node) = none) :
    ∃ q reorder_reshape_nodes,
      split_loop node input_node output_shape
          ((p.users node).filter fun user => p.is_reorder user) (p.users node) false p [] =
        some (q, reorder_reshape_nodes) ∧
      reorder_reshape_nodes.length =
        ((p.users node).filter fun user => p.is_reorder user).length ∧
      (∀ i, i < ((p.users node).filter fun user => p.is_reorder user).length →
        ∃ r s, ((p.users node).filter fun user => p.is_reorder user)[i]? = some r ∧
          reorder_reshape_nodes[i]? = some s ∧
          (q.dependencies r)[0]? = some s ∧
          (s = node ∨
            (s = "_reshape_split_" ++ r ++ "_" ++ node ∧
              q.nodes_map s = some ⟨s, [input_node], primitive_desc.reshape output_shape⟩))) := by
  obtain ⟨q, hq, hq1, hq2, _, _⟩ := split_loop_spec node input_node output_shape p hnd hus
  refine ⟨q, _, hq, by rw [List.length_map], ?_⟩
  intro i hi
  have hmem := List.getElem_mem hi
  refine ⟨_, _, List.getElem?_eq_getElem hi, ?_, hq1 _ hmem, ?_⟩
  · rw [List.getElem?_map, List.getElem?_eq_getElem hi]
    rfl
  · by_cases hh : (p.users node).head? =
        some (((p.users node).filter fun user => p.is_reorder user)[i])
    · left
      rw [if_pos hh]
    · right
      rw [if_neg hh]
      exact ⟨rfl, (hq2 _ hmem hh).1⟩

/-- Witness of C27: the example program whose reshape `N` has the users `C` and `R1`. -/
theorem reorder_reshape_nodes_aligned_witness :
    ∃ q reorder_reshape_nodes,
      split_loop "N" "I" ⟨1, 12, 1, 1⟩
          ((example_bridge.users "N").filter fun user => example_bridge.is_reorder user)
          (example_bridge.users "N") false example_bridge [] =
        some (q, reorder_reshape_nodes) ∧
      reorder_reshape_nodes.length =
        ((example_bridge.users "N").filter
          fun user => example_bridge.is_reorder user).length ∧
      (∀ i, i < ((example_bridge.users "N").filter
          fun user => example_bridge.is_reorder user).length →
        ∃ r s, ((example_bridge.users "N").filter
            fun user => example_bridge.is_reorder user)[i]? = some r ∧
          reorder_reshape_nodes[i]? = some s ∧
          (q.dependencies r)[0]? = some s ∧
          (s = "N" ∨
            (s = "_reshape_split_" ++ r ++ "_" ++ "N" ∧
              q.nodes_map s = some ⟨s, ["I"], primitive_desc.reshape ⟨1, 12, 1, 1⟩⟩))) :=
  reorder_reshape_nodes_aligned "N" "I" ⟨1, 12, 1, 1⟩ example_bridge (by decide) (by decide)

end handle_reshape

end cldnn

namespace cldnn

/-- A list whose part from position `i` on is `s :: ss` has `s` at position `i` and `ss`
after it. -/
theorem getElem?_of_drop_eq_cons {α : Type} (l : List α) (i : Nat) (s : α) (ss : List α)
    (h : l.drop i = s :: ss) : l[i]? = some s ∧ l.drop (i + 1) = ss := by
  induction l generalizing i with
  | nil => simp at h
  | cons x xs ih =>
    cases i with
    | zero =>
      simp only [List.drop_zero, List.cons.injEq] at h
      simp [h.1, h.2]
    | succ i => simpa using ih i (by simpa using h)

namespace program_impl

/-- `get_output_layout` memoizes the layout it returns and keeps every layout already
memoized. -/
theorem get_output_layout_memo (infer : program_impl → String → layout) (p : program_impl)
    (id : String) :
    (p.get_output_layout infer id).2.output_layout id =
      some (p.get_output_layout infer id).1 ∧
    (∀ k l, p.output_layout k = some l →
      (p.get_output_layout infer id).2.output_layout k = some l) := by
  unfold get_output_layout
  split
  · rename_i l hl
    exact ⟨hl, fun k l' h => h⟩
  · rename_i hnone
    refine ⟨by simp, fun k l' h => ?_⟩
    have hk : k ≠ id := fun e => by rw [e, hnone] at h; cases h
    simp [Function.update_apply, hk, h]

end program_impl

namespace handle_reshape

open program_impl

/-- The loop that inserts the input reorders, entered at position `i` of
`reorder_reshape_nodes` with the reorder users `rs` still to do and `ss` the reshape nodes
from position `i` on, one per user, distinct, all reading `input_node` first; the ids of
the reorders to insert are new and distinct.  The loop returns, and for every pair of a
reorder user and its reshape node: the new reorder has the format and data type of the
layout memoized on the user, reads `input_node`, and is the first dependency of the reshape
node.  Nothing else changes among descriptors and dependencies, and memoized layouts of
existing nodes are kept. -/
theorem insert_loop_spec (h : helpers) (input_node : String) (rrn : List String) :
    ∀ (rs : List String) (i : Nat) (ss : List String) (p : program_impl),
      rrn.drop i = ss → rs.length = ss.length → ss.Nodup →
      (∀ s ∈ ss, (p.nodes_map s).isSome = true ∧
        (p.dependencies s)[0]? = some input_node) →
      (∀ r ∈ rs, (p.nodes_map r).isSome = true) →
      (∀ e ∈ rs.zip ss, p.nodes_map ("_reshape_input_" ++ e.1 ++ "_" ++ e.2) = none) →
      ((rs.zip ss).map fun e => "_reshape_input_" ++ e.1 ++ "_" ++ e.2).Nodup →
      ∃ q, insert_loop h input_node rrn rs i p = some q ∧
        (∀ e ∈ rs.zip ss, ∃ l, q.output_layout e.1 = some l ∧
          q.nodes_map ("_reshape_input_" ++ e.1 ++ "_" ++ e.2) =
            some ⟨"_reshape_input_" ++ e.1 ++ "_" ++ e.2, [input_node],
              primitive_desc.reorder l.format l.data_type⟩ ∧
          q.dependencies e.2 =
            (p.dependencies e.2).set 0 ("_reshape_input_" ++ e.1 ++ "_" ++ e.2) ∧
          q.dependencies ("_reshape_input_" ++ e.1 ++ "_" ++ e.2) = [input_node]) ∧
        (∀ k, (∀ e ∈ rs.zip ss, k ≠ e.2 ∧ k ≠ "_reshape_input_" ++ e.1 ++ "_" ++ e.2) →
          q.dependencies k = p.dependencies k) ∧
        (∀ k, (∀ e ∈ rs.zip ss, k ≠ "_reshape_input_" ++ e.1 ++ "_" ++ e.2) →
          q.nodes_map k = p.nodes_map k) ∧
        (∀ k l, (p.nodes_map k).isSome = true → p.output_layout k = some l →
          q.output_layout k = some l) := by
  intro rs
  induction rs with
  | nil =>
    intro i ss p _ hlen _ _ _ _ _
    exact ⟨p, by simp [insert_loop], by simp, fun _ _ => rfl, fun _ _ => rfl,
      fun _ _ _ hl => hl⟩
  | cons r rs ih =>
    intro i ss p hdrop hlen hnd hss hrs hfresh hids
    rcases ss with _ | ⟨s, ss⟩
    · simp at hlen
    have hs_ss : s ∉ ss := (List.nodup_cons.1 hnd).1
    have hss_nd : ss.Nodup := (List.nodup_cons.1 hnd).2
    obtain ⟨hgetrrn, hdrop'⟩ := getElem?_of_drop_eq_cons rrn i s ss hdrop
    obtain ⟨hsex, hsdep⟩ := hss s (List.mem_cons_self _ _)
    have hrex := hrs r (List.mem_cons_self _ _)
    have hfr : p.nodes_map ("_reshape_input_" ++ r ++ "_" ++ s) = none :=
      hfresh (r, s) (by simp)
    simp only [List.zip_cons_cons, List.map_cons, List.nodup_cons] at hids
    obtain ⟨hid_notin, hids'⟩ := hids
    have hsid : s ≠ "_reshape_input_" ++ r ++ "_" ++ s := ne_of_isSome_of_none _ _ _ hsex hfr
    have hrid : r ≠ "_reshape_input_" ++ r ++ "_" ++ s := ne_of_isSome_of_none _ _ _ hrex hfr
    -- the layout of the reorder user is asked for, the reorder created and spliced in
    obtain ⟨L, hL⟩ : ∃ L, L = p.get_output_layout h.calc_output_layout r := ⟨_, rfl⟩
    have hLd : L.2.dependencies = p.dependencies := by
      rw [hL, get_output_layout_dependencies]
    have hLn : L.2.nodes_map = p.nodes_map := by
      rw [hL, (get_output_layout_keeps _ _ _).1]
    have hLo : L.2.output_layout r = some L.1 := by
      rw [hL]; exact (get_output_layout_memo _ _ _).1
    have hLo' : ∀ k l, p.output_layout k = some l → L.2.output_layout k = some l := by
      rw [hL]; exact (get_output_layout_memo _ _ _).2
    have hfrL : L.2.nodes_map ("_reshape_input_" ++ r ++ "_" ++ s) = none := by
      rw [hLn]; exact hfr
    obtain ⟨p1, hp1⟩ : ∃ p1, p1 = L.2.get_or_create
        ⟨"_reshape_input_" ++ r ++ "_" ++ s, [input_node],
          primitive_desc.reorder L.1.format L.1.data_type⟩ := ⟨_, rfl⟩
    have hp1d : p1.dependencies =
        Function.update p.dependencies ("_reshape_input_" ++ r ++ "_" ++ s) [] := by
      rw [hp1, get_or_create_new _ _ hfrL, hLd]
    have hp1n : p1.nodes_map =
        Function.update p.nodes_map ("_reshape_input_" ++ r ++ "_" ++ s)
          (some ⟨"_reshape_input_" ++ r ++ "_" ++ s, [input_node],
            primitive_desc.reorder L.1.format L.1.data_type⟩) := by
      rw [hp1, get_or_create_new _ _ hfrL, hLn]
    have hp1o : p1.output_layout =
        Function.update L.2.output_layout ("_reshape_input_" ++ r ++ "_" ++ s) none := by
      rw [hp1, get_or_create_new _ _ hfrL]
    have hget1 : (p1.dependencies s)[0]? = some input_node := by
      rw [hp1d]; simp [Function.update_apply, hsid, hsdep]
    have hempty1 : p1.dependencies ("_reshape_input_" ++ r ++ "_" ++ s) = [] := by
      rw [hp1d]; simp [Function.update_apply]
    obtain ⟨P, hP, hPd, hPn, hPo⟩ := add_intermediate_splice p1
      ("_reshape_input_" ++ r ++ "_" ++ s) s input_node 0 hget1 (Ne.symm hsid) hempty1
    rw [hp1d] at hPd
    rw [hp1n] at hPn
    rw [hp1o] at hPo
    simp only [Function.update_apply, if_true, if_neg hsid] at hPd
    have hPs : P.dependencies s =
        (p.dependencies s).set 0 ("_reshape_input_" ++ r ++ "_" ++ s) := by
      rw [hPd]; simp [Function.update_apply]
    have hPi : P.dependencies ("_reshape_input_" ++ r ++ "_" ++ s) = [input_node] := by
      rw [hPd]; simp [Function.update_apply, Ne.symm hsid]
    have hPk : ∀ k, k ≠ s → k ≠ "_reshape_input_" ++ r ++ "_" ++ s →
        P.dependencies k = p.dependencies k := by
      intro k h1 h2
      rw [hPd]; simp [Function.update_apply, h1, h2]
    have hPni : P.nodes_map ("_reshape_input_" ++ r ++ "_" ++ s) =
        some ⟨"_reshape_input_" ++ r ++ "_" ++ s, [input_node],
          primitive_desc.reorder L.1.format L.1.data_type⟩ := by
      rw [hPn]; simp [Function.update_apply]
    have hPnk : ∀ k, k ≠ "_reshape_input_" ++ r ++ "_" ++ s →
        P.nodes_map k = p.nodes_map k := by
      intro k h2
      rw [hPn]; simp [Function.update_apply, h2]
    have hPok : ∀ k l, (p.nodes_map k).isSome = true → L.2.output_layout k = some l →
        P.output_layout k = some l := by
      intro k l hk hl
      have : k ≠ "_reshape_input_" ++ r ++ "_" ++ s := ne_of_isSome_of_none _ _ _ hk hfr
      rw [hPo]; simp [Function.update_apply, this, hl]
    -- the remaining pairs are as before
    have hpair : ∀ e ∈ rs.zip ss,
        (p.nodes_map e.2).isSome = true ∧ e.2 ≠ s ∧
        e.2 ≠ "_reshape_input_" ++ r ++ "_" ++ s ∧
        "_reshape_input_" ++ e.1 ++ "_" ++ e.2 ≠ "_reshape_input_" ++ r ++ "_" ++ s ∧
        p.nodes_map ("_reshape_input_" ++ e.1 ++ "_" ++ e.2) = none := by
      intro e he
      have he2 : e.2 ∈ ss := (List.of_mem_zip he).2
      have hex := (hss e.2 (List.mem_cons_of_mem _ he2)).1
      refine ⟨hex, fun x => hs_ss (x ▸ he2), ne_of_isSome_of_none _ _ _ hex hfr, ?_,
        hfresh e (by simp [he])⟩
      intro x
      exact hid_notin (List.mem_map.2 ⟨e, he, x⟩)
    obtain ⟨q, hq, hq1, hq2, hq3, hq4⟩ := ih (i + 1) ss P hdrop'
      (by simpa using hlen) hss_nd
      (fun s' hs' => by
        obtain ⟨a, b⟩ := hss s' (List.mem_cons_of_mem _ hs')
        have h1 : s' ≠ s := fun x => hs_ss (x ▸ hs')
        have h2 : s' ≠ "_reshape_input_" ++ r ++ "_" ++ s := ne_of_isSome_of_none _ _ _ a hfr
        exact ⟨by rw [hPnk s' h2]; exact a, by rw [hPk s' h1 h2]; exact b⟩)
      (fun r' hr' => by
        have a := hrs r' (List.mem_cons_of_mem _ hr')
        rw [hPnk r' (ne_of_isSome_of_none _ _ _ a hfr)]; exact a)
      (fun e he => by
        obtain ⟨_, _, _, d, f⟩ := hpair e he
        rw [hPnk _ d]; exact f)
      hids'
    refine ⟨q, ?_, ?_, ?_, ?_, ?_⟩
    · rw [insert_loop]
      simp only [hgetrrn]
      rw [← hL, ← hp1]
      have hflag : (p1.dependencies ("_reshape_input_" ++ r ++ "_" ++ s)).isEmpty = true := by
        rw [hempty1]; rfl
      rw [hflag, hP]
      exact hq
    · intro e he
      simp only [List.zip_cons_cons, List.mem_cons] at he
      rcases he with rfl | he
      · refine ⟨L.1, ?_, ?_, ?_, ?_⟩
        · exact hq4 r L.1 (by rw [hPnk r hrid]; exact hrex) (hPok r L.1 hrex hLo)
        · rw [hq3 _ (fun e' he' => Ne.symm (hpair e' he').2.2.2.1), hPni]
        · rw [hq2 s (fun e' he' =>
            ⟨Ne.symm (hpair e' he').2.1, ne_of_isSome_of_none _ _ _ hsex (hpair e' he').2.2.2.2⟩),
            hPs]
        · rw [hq2 _ (fun e' he' =>
            ⟨Ne.symm (hpair e' he').2.2.1, Ne.symm (hpair e' he').2.2.2.1⟩), hPi]
      · obtain ⟨l, a, b, c, d⟩ := hq1 e he
        obtain ⟨_, h1, h2, _, _⟩ := hpair e he
        exact ⟨l, a, b, by rw [c, hPk e.2 h1 h2], d⟩
    · intro k hk
      obtain ⟨h1, h2⟩ := hk (r, s) (by simp)
      rw [hq2 k (fun e he => hk e (by simp [he])), hPk k h1 h2]
    · intro k hk
      rw [hq3 k (fun e he => hk e (by simp [he])), hPnk k (hk (r, s) (by simp))]
    · intro k l hk hl
      exact hq4 k l (by rw [hPnk k (ne_of_isSome_of_none _ _ _ hk hfr)]; exact hk)
        (hPok k l hk (hLo' k l hl))

end handle_reshape

end cldnn

namespace cldnn

/-- Pairing a list with its image under `f`. -/
theorem zip_map_self {α β : Type} (l : List α) (f : α → β) :
    l.zip (l.map f) = l.map (fun x => (x, f x)) := by
  induction l with
  | nil => rfl
  | cons x xs ih => simp [ih]

namespace handle_reshape

open program_impl

/-- A node is not both a reshape and a reorder. -/
theorem ne_of_is_reshape_of_is_reorder (p : program_impl) (a b : String)
    (ha : p.is_reshape a = true) (hb : p.is_reorder b = true) : a ≠ b := by
  intro e
  subst e
  unfold program_impl.is_reshape at ha
  unfold program_impl.is_reorder at hb
  rcases hn : p.nodes_map a with _ | prim
  · rw [hn] at ha; cases ha
  · rw [hn] at ha hb
    simp only [primitive.is_reshape, primitive.is_reorder] at ha hb
    rcases hd : prim.desc with _ | _ | _ | _ | _ | _ | _ <;> rw [hd] at ha hb <;> simp at ha hb

/-- A node that is a reshape exists. -/
theorem isSome_of_is_reshape (p : program_impl) (id : String) (h : p.is_reshape id = true) :
    (p.nodes_map id).isSome = true := by
  unfold program_impl.is_reshape at h
  split at h
  · rename_i e; rw [e]; rfl
  · cases h

end handle_reshape

end cldnn

namespace cldnn

namespace handle_reshape

open program_impl

/-- C23: lines 49 to 104 of `handle_reshape::run`, entered on a reshape `node` whose first
dependency is the existing node `input_node`, whose users are distinct, and whose reorder
users read it as first dependency, with the ids the pass creates new and the ids of the
input reorders distinct.  The block returns, and for every reorder user `r` there is the
reshape node `s` that then feeds `r` (the original reshape, or the clone made for `r`, a
reshape to the same shape) and one new reorder `_reshape_input_<r>_<s>` whose format and
data type are those of the output layout memoized on `r`; this reorder reads `input_node`
and is the first dependency of `s`: `input_node -> reorder -> s -> r`. -/
theorem split_block_inserts_reorders (h : helpers) (node input_node : String)
    (output_shape : tensor) (p : program_impl)
    (hnode : p.is_reshape node = true)
    (hin : (p.dependencies node)[0]? = some input_node)
    (hinput : (p.nodes_map input_node).isSome = true)
    (hnd : (p.users node).Nodup)
    (hus : ∀ u ∈ p.users node, p.is_reorder u = true →
      (p.dependencies u)[0]? = some node ∧
      p.nodes_map ("_reshape_split_" ++ u ++ "_" ++ node) = none ∧
      p.nodes_map ("_reshape_input_" ++ u ++ "_" ++
        (if (p.users node).head? = some u then node
          else "_reshape_split_" ++ u ++ "_" ++ node)) = none)
    (hids : (((p.users node).filter fun user => p.is_reorder user).map
      (fun u => "_reshape_input_" ++ u ++ "_" ++
        (if (p.users node).head? = some u then node
          else "_reshape_split_" ++ u ++ "_" ++ node))).Nodup) :
    ∃ q, split_block h node input_node output_shape p = some q ∧
      ∀ r ∈ p.users node, p.is_reorder r = true →
        ∃ s l,
          (s = node ∨
            (s = "_reshape_split_" ++ r ++ "_" ++ node ∧
              q.nodes_map s = some ⟨s, [input_node], primitive_desc.reshape output_shape⟩)) ∧
          q.is_reshape s = true ∧
          (q.dependencies r)[0]? = some s ∧
          q.output_layout r = some l ∧
          p.nodes_map ("_reshape_input_" ++ r ++ "_" ++ s) = none ∧
          q.nodes_map ("_reshape_input_" ++ r ++ "_" ++ s) =
            some ⟨"_reshape_input_" ++ r ++ "_" ++ s, [input_node],
              primitive_desc.reorder l.format l.data_type⟩ ∧
          (q.dependencies s)[0]? = some ("_reshape_input_" ++ r ++ "_" ++ s) ∧
          q.dependencies ("_reshape_input_" ++ r ++ "_" ++ s) = [input_node] := by
  have hnodeex := isSome_of_is_reshape p node hnode
  by_cases hempty : ((p.users node).filter fun user => p.is_reorder user).isEmpty = true
  · have hnil : (p.users node).filter (fun user => p.is_reorder user) = [] :=
      List.isEmpty_iff.1 hempty
    refine ⟨p, ?_, ?_⟩
    · unfold split_block
      simp only [hempty, Bool.not_true, Bool.false_eq_true, if_false]
    · intro r hr hrr
      have : r ∈ (p.users node).filter (fun user => p.is_reorder user) :=
        List.mem_filter.2 ⟨hr, hrr⟩
      rw [hnil] at this
      cases this
  have hne : ∀ r' a b : String,
      "_reshape_input_" ++ a ++ "_" ++ b ≠ "_reshape_split_" ++ r' ++ "_" ++ node := by
    intro r' a b
    simp only [String.append_assoc]
    exact append_ne_of_prefix_ne _ _ _ _ (by decide) (by decide)
  have hrts : ∀ r, r ∈ (p.users node).filter (fun user => p.is_reorder user) ↔
      r ∈ p.users node ∧ p.is_reorder r = true := fun r => by simp [List.mem_filter]
  have hrts_nd : ((p.users node).filter fun user => p.is_reorder user).Nodup :=
    hnd.filter _
  -- facts about a reorder user
  have hfact : ∀ r ∈ (p.users node).filter (fun user => p.is_reorder user),
      (p.nodes_map r).isSome = true ∧ node ≠ r ∧
      p.nodes_map ("_reshape_split_" ++ r ++ "_" ++ node) = none ∧
      node ≠ "_reshape_split_" ++ r ++ "_" ++ node ∧
      input_node ≠ "_reshape_split_" ++ r ++ "_" ++ node := by
    intro r hr
    obtain ⟨hru, hrr⟩ := (hrts r).1 hr
    obtain ⟨_, b, _⟩ := hus r hru hrr
    exact ⟨isSome_of_is_reorder p r hrr, ne_of_is_reshape_of_is_reorder p node r hnode hrr, b,
      ne_of_isSome_of_none _ _ _ hnodeex b, ne_of_isSome_of_none _ _ _ hinput b⟩
  obtain ⟨p2, hp2, hp2a, hp2b, hp2c, hp2d⟩ := split_loop_spec node input_node output_shape p
    hnd (fun u hu hr => ⟨(hus u hu hr).1, (hus u hu hr).2.1⟩)
  have hp2node_n : p2.nodes_map node = p.nodes_map node :=
    hp2d node (fun r hr => (hfact r hr).2.2.2.1)
  have hp2node_d : p2.dependencies node = p.dependencies node :=
    hp2c node (fun r hr => ⟨(hfact r hr).2.1, (hfact r hr).2.2.2.1⟩)
  -- the reshape node of a reorder user, after the split loop
  have hsfact : ∀ r ∈ (p.users node).filter (fun user => p.is_reorder user),
      (p2.nodes_map (if (p.users node).head? = some r then node
        else "_reshape_split_" ++ r ++ "_" ++ node)).isSome = true ∧
      (p2.dependencies (if (p.users node).head? = some r then node
        else "_reshape_split_" ++ r ++ "_" ++ node))[0]? = some input_node ∧
      p2.is_reshape (if (p.users node).head? = some r then node
        else "_reshape_split_" ++ r ++ "_" ++ node) = true := by
    intro r hr
    by_cases hh : (p.users node).head? = some r
    · simp only [if_pos hh]
      refine ⟨by rw [hp2node_n]; exact hnodeex, by rw [hp2node_d]; exact hin, ?_⟩
      unfold program_impl.is_reshape
      rw [hp2node_n]
      exact hnode
    · simp only [if_neg hh]
      obtain ⟨a, b⟩ := hp2b r hr hh
      refine ⟨by rw [a]; rfl, by rw [b]; rfl, ?_⟩
      unfold program_impl.is_reshape
      rw [a]
      rfl
  have hzip := zip_map_self ((p.users node).filter fun user => p.is_reorder user)
    (fun r => if (p.users node).head? = some r then node
      else "_reshape_split_" ++ r ++ "_" ++ node)
  have hinj : ∀ x ∈ (p.users node).filter (fun user => p.is_reorder user),
      ∀ y ∈ (p.users node).filter (fun user => p.is_reorder user),
      (if (p.users node).head? = some x then node
        else "_reshape_split_" ++ x ++ "_" ++ node) =
      (if (p.users node).head? = some y then node
        else "_reshape_split_" ++ y ++ "_" ++ node) → x = y := by
    intro x hx y hy e
    by_cases h1 : (p.users node).head? = some x <;> by_cases h2 : (p.users node).head? = some y
    · rw [h1] at h2
      injection h2
    · rw [if_pos h1, if_neg h2] at e
      exact absurd e (hfact y hy).2.2.2.1
    · rw [if_neg h1, if_pos h2] at e
      exact absurd e.symm (hfact x hx).2.2.2.1
    · rw [if_neg h1, if_neg h2] at e
      exact reshape_split_injective _ _ _ e
  obtain ⟨q, hq, hq1, hq2, hq3, hq4⟩ := insert_loop_spec h input_node
    (((p.users node).filter fun user => p.is_reorder user).map
      (fun r => if (p.users node).head? = some r then node
        else "_reshape_split_" ++ r ++ "_" ++ node))
    ((p.users node).filter fun user => p.is_reorder user) 0
    (((p.users node).filter fun user => p.is_reorder user).map
      (fun r => if (p.users node).head? = some r then node
        else "_reshape_split_" ++ r ++ "_" ++ node))
    p2 rfl (by rw [List.length_map]) (List.Nodup.map_on hinj hrts_nd)
    (fun s hs => by
      obtain ⟨r, hr, rfl⟩ := List.mem_map.1 hs
      exact ⟨(hsfact r hr).1, (hsfact r hr).2.1⟩)
    (fun r hr => by
      rw [hp2d r (fun r' hr' =>
        ne_of_isSome_of_none _ _ _ (hfact r hr).1 (hfact r' hr').2.2.1)]
      exact (hfact r hr).1)
    (fun e he => by
      rw [hzip] at he
      obtain ⟨r, hr, rfl⟩ := List.mem_map.1 he
      obtain ⟨hru, hrr⟩ := (hrts r).1 hr
      have := hp2d ("_reshape_input_" ++ r ++ "_" ++
        (if (p.users node).head? = some r then node
          else "_reshape_split_" ++ r ++ "_" ++ node)) (fun r' _ => hne r' _ _)
      rw [this]
      exact (hus r hru hrr).2.2)
    (by
      rw [hzip, List.map_map]
      exact hids)
  refine ⟨q, ?_, ?_⟩
  · unfold split_block
    simp only [hempty, Bool.not_false, if_true, hp2]
    exact hq
  · intro r hru hrr
    have hr : r ∈ (p.users node).filter (fun user => p.is_reorder user) :=
      (hrts r).2 ⟨hru, hrr⟩
    have he : (r, if (p.users node).head? = some r then node
        else "_reshape_split_" ++ r ++ "_" ++ node) ∈
        ((p.users node).filter fun user => p.is_reorder user).zip
          (((p.users node).filter fun user => p.is_reorder user).map
            (fun r => if (p.users node).head? = some r then node
              else "_reshape_split_" ++ r ++ "_" ++ node)) := by
      rw [hzip]
      exact List.mem_map.2 ⟨r, hr, rfl⟩
    obtain ⟨l, a, b, c, d⟩ := hq1 _ he
    simp only [] at a b c d
    -- no pair of the insertion loop touches the user `r` or, among descriptors, its
    -- reshape node
    have hsep : ∀ e ∈ ((p.users node).filter fun user => p.is_reorder user).zip
          (((p.users node).filter fun user => p.is_reorder user).map
            (fun r => if (p.users node).head? = some r then node
              else "_reshape_split_" ++ r ++ "_" ++ node)),
        (r ≠ e.2 ∧ r ≠ "_reshape_input_" ++ e.1 ++ "_" ++ e.2) ∧
        (if (p.users node).head? = some r then node
          else "_reshape_split_" ++ r ++ "_" ++ node) ≠
            "_reshape_input_" ++ e.1 ++ "_" ++ e.2 := by
      intro e he'
      rw [hzip] at he'
      obtain ⟨r', hr', rfl⟩ := List.mem_map.1 he'
      obtain ⟨hru', hrr'⟩ := (hrts r').1 hr'
      have hfr' := (hus r' hru' hrr').2.2
      simp only []
      refine ⟨⟨?_, ne_of_isSome_of_none _ _ _ (hfact r hr).1 hfr'⟩, ?_⟩
      · by_cases hh : (p.users node).head? = some r'
        · rw [if_pos hh]
          exact Ne.symm (hfact r hr).2.1
        · rw [if_neg hh]
          exact ne_of_isSome_of_none _ _ _ (hfact r hr).1 (hfact r' hr').2.2.1
      · by_cases hh : (p.users node).head? = some r
        · rw [if_pos hh]
          exact ne_of_isSome_of_none _ _ _ hnodeex hfr'
        · rw [if_neg hh]
          exact Ne.symm (hne r _ _)
    have hqr : q.dependencies r = p2.dependencies r :=
      hq2 r (fun e he' => (hsep e he').1)
    have hqs : q.nodes_map (if (p.users node).head? = some r then node
        else "_reshape_split_" ++ r ++ "_" ++ node) =
        p2.nodes_map (if (p.users node).head? = some r then node
          else "_reshape_split_" ++ r ++ "_" ++ node) :=
      hq3 _ (fun e he' => (hsep e he').2)
    have hlen : 0 < (p2.dependencies (if (p.users node).head? = some r then node
        else "_reshape_split_" ++ r ++ "_" ++ node)).length := by
      have := (hsfact r hr).2.1
      rcases hl : p2.dependencies (if (p.users node).head? = some r then node
        else "_reshape_split_" ++ r ++ "_" ++ node) with _ | ⟨x, xs⟩
      · rw [hl] at this; simp at this
      · simp
    refine ⟨_, l, ?_, ?_, ?_, a, (hus r hru hrr).2.2, b, ?_, d⟩
    · by_cases hh : (p.users node).head? = some r
      · left
        rw [if_pos hh]
      · right
        refine ⟨by rw [if_neg hh], ?_⟩
        rw [hqs]
        simp only [if_neg hh]
        exact (hp2b r hr hh).1
    · have := (hsfact r hr).2.2
      unfold program_impl.is_reshape at this ⊢
      rw [hqs]
      exact this
    · rw [hqr]
      exact hp2a r hr
    · rw [c]
      simp [hlen]

/-- Witness of C23: in the example program whose reshape `N` has the users `C` and `R1`,
the reorder `R1` ends up behind `I -> _reshape_input_R1__reshape_split_R1_N ->
_reshape_split_R1_N`, the new reorder having the format and data type of `R1`. -/
theorem split_block_inserts_reorders_witness :
    ∃ q, split_block example_helpers "N" "I" ⟨1, 12, 1, 1⟩ example_bridge = some q ∧
      q.dependencies "R1" = ["_reshape_split_R1_N"] ∧
      q.dependencies "_reshape_split_R1_N" = ["_reshape_input_R1__reshape_split_R1_N"] ∧
      q.dependencies "_reshape_input_R1__reshape_split_R1_N" = ["I"] ∧
      q.nodes_map "_reshape_input_R1__reshape_split_R1_N" =
        some ⟨"_reshape_input_R1__reshape_split_R1_N", ["I"],
          primitive_desc.reorder format.byxf data_types.f16⟩ := by
  obtain ⟨q, hq, _⟩ := split_block_inserts_reorders example_helpers "N" "I" ⟨1, 12, 1, 1⟩
    example_bridge (by decide) (by decide) (by decide) (by decide) (by decide) (by decide)
  have h1 : (split_block example_helpers "N" "I" ⟨1, 12, 1, 1⟩ example_bridge).map
      (fun q => q.dependencies "R1") = some ["_reshape_split_R1_N"] := by decide
  have h2 : (split_block example_helpers "N" "I" ⟨1, 12, 1, 1⟩ example_bridge).map
      (fun q => q.dependencies "_reshape_split_R1_N") =
      some ["_reshape_input_R1__reshape_split_R1_N"] := by decide
  have h3 : (split_block example_helpers "N" "I" ⟨1, 12, 1, 1⟩ example_bridge).map
      (fun q => q.dependencies "_reshape_input_R1__reshape_split_R1_N") = some ["I"] := by
    decide
  have h4 : (split_block example_helpers "N" "I" ⟨1, 12, 1, 1⟩ example_bridge).map
      (fun q => q.nodes_map "_reshape_input_R1__reshape_split_R1_N") =
      some (some ⟨"_reshape_input_R1__reshape_split_R1_N", ["I"],
        primitive_desc.reorder format.byxf data_types.f16⟩) := by decide
  rw [hq] at h1 h2 h3 h4
  simp only [Option.map_some', Option.some.injEq] at h1 h2 h3 h4
  exact ⟨q, hq, h1, h2, h3, h4⟩

end handle_reshape

end cldnn

namespace cldnn

namespace handle_reshape

open program_impl

/-- Lines 45 to 47 leave descriptors, edges and output flags alone. -/
theorem prepare_keeps (h : helpers) (p : program_impl) (node : String) :
    (prepare h p node).2.nodes_map = p.nodes_map ∧
    (prepare h p node).2.dependencies = p.dependencies ∧
    (prepare h p node).2.users = p.users ∧
    (prepare h p node).2.output = p.output := by
  have hu : (p.get_output_layout h.calc_output_layout node).2.users = p.users := by
    unfold get_output_layout
    split <;> rfl
  have hk := get_output_layout_keeps h.calc_output_layout p node
  have hd := get_output_layout_dependencies h.calc_output_layout p node
  unfold prepare
  simp only []
  split <;> exact ⟨hk.1, hd, hu, hk.2⟩

/-- The body of the pass for a reshape whose input is not a reorder: lines 49 to 104, then
the bridging block. -/
theorem run_node_reshape (h : helpers) (p : program_impl) (node input_node : String)
    (prim : primitive) (output_shape : tensor)
    (hprim : p.nodes_map node = some prim)
    (hdesc : prim.desc = primitive_desc.reshape output_shape)
    (hin : (p.dependencies node)[0]? = some input_node)
    (hnr : p.is_reorder input_node = false) :
    run_node h p node =
      match split_block h node input_node output_shape (prepare h p node).2 with
      | none => none
      | some q => bridge_block h node input_node (prepare h p node).1 q := by
  unfold run_node
  rw [hprim]
  simp only [hdesc, hin, hnr]
  rfl

/-- The body of the pass on a reshape whose input is a reorder, or that has no reorder
user.  In the first case the program is returned as it is.  In the second, lines 49 to 104
do nothing and the body is the bridging block alone, which returns a program with the
descriptors, dependencies and users it started with when the reshape is a graph output, or
its layout is bfyx or identical to the bfyx layout of its size and data type. -/
theorem run_node_without_reorder_user (h : helpers) (p : program_impl)
    (node input_node : String) (prim : primitive) (output_shape : tensor)
    (hprim : p.nodes_map node = some prim)
    (hdesc : prim.desc = primitive_desc.reshape output_shape)
    (hin : (p.dependencies node)[0]? = some input_node) :
    (p.is_reorder input_node = true → run_node h p node = some p) ∧
    (p.is_reorder input_node = false → (∀ u ∈ p.users node, p.is_reorder u = false) →
      run_node h p node =
        bridge_block h node input_node (prepare h p node).1 (prepare h p node).2 ∧
      (p.output node = true ∨ (prepare h p node).1.format = format.bfyx ∨
          (h.are_layouts_identical (prepare h p node).1
            (layout.ctor (prepare h p node).1.data_type format.bfyx
              (prepare h p node).1.size)).2 = true →
        ∃ q, run_node h p node = some q ∧ q.nodes_map = p.nodes_map ∧
          q.dependencies = p.dependencies ∧ q.users = p.users)) := by
  obtain ⟨hkn, hkd, hku, hko⟩ := prepare_keeps h p node
  constructor
  · intro hr
    unfold run_node
    rw [hprim]
    simp only [hdesc, hin, hr, if_true]
  · intro hnr hnone
    have hfilter : ((prepare h p node).2.users node).filter
        (fun user => (prepare h p node).2.is_reorder user) = [] := by
      rw [List.filter_eq_nil_iff]
      intro u hu
      rw [hku] at hu
      have := hnone u hu
      unfold program_impl.is_reorder at this ⊢
      rw [hkn]
      simp [this]
    have hsplit : split_block h node input_node output_shape (prepare h p node).2 =
        some (prepare h p node).2 := by
      unfold split_block
      simp only [hfilter]
      rfl
    have hrun : run_node h p node =
        bridge_block h node input_node (prepare h p node).1 (prepare h p node).2 := by
      rw [run_node_reshape h p node input_node prim output_shape hprim hdesc hin hnr, hsplit]
    refine ⟨hrun, fun hcase => ⟨(prepare h p node).2, ?_, hkn, hkd, hku⟩⟩
    rw [hrun]
    unfold bridge_block
    rcases hcase with ho | hf | hid
    · rw [← hko] at ho
      simp [ho]
    · simp [hf]
    · simp [hid]

/-- The reshape `N` of the example program in bfyx, with the activation `C` as only user,
comes out with the descriptors and edges it had. -/
theorem run_node_without_reorder_user_bfyx :
    ∃ q, run_node example_helpers (example_plain format.bfyx) "N" = some q ∧
      q.nodes_map = (example_plain format.bfyx).nodes_map ∧
      q.dependencies = (example_plain format.bfyx).dependencies ∧
      q.users = (example_plain format.bfyx).users :=
  ((run_node_without_reorder_user example_helpers (example_plain format.bfyx) "N" "I"
    ⟨"N", ["I"], primitive_desc.reshape ⟨2, 3, 4, 5⟩⟩ ⟨2, 3, 4, 5⟩
    (by decide) rfl (by decide)).2 (by decide) (by decide)).2 (Or.inr (Or.inl (by decide)))

end handle_reshape

end cldnn

namespace cldnn

namespace handle_reshape

open program_impl

/-- Lines 45 to 47 return the layout memoized on the node when there is one. -/
theorem prepare_layout_memo (h : helpers) (p : program_impl) (node : String) (l : layout)
    (hl : p.output_layout node = some l) : (prepare h p node).1 = l := by
  have : (p.get_output_layout h.calc_output_layout node).1 = l := by
    unfold get_output_layout
    rw [hl]
  unfold prepare
  simp only []
  split <;> exact this

/-- C22: the reshape `N` of the example program (input `I`, not a reorder; only user the
activation `C`, so no user is a reorder; not an output; layout yxfb, f32, batch 2, feature
3, x 4, y 5) is not skipped.  Whenever that layout is not identical to the bfyx layout of
the same size and data type, the body of the pass returns a program in which the reorders
`_reshape_input_N` and `_reshape_output_N`, which did not exist, have been created, `N`
reads `_reshape_input_N` and not `I`, and `C` reads `_reshape_output_N` and not `N`. -/
theorem run_node_bridges_without_reorder_user (h : helpers)
    (hid : (h.are_layouts_identical
      ⟨data_types.f32, format.yxfb, ⟨2, 3, 4, 5⟩, padding.zero⟩
      (layout.ctor data_types.f32 format.bfyx ⟨2, 3, 4, 5⟩)).2 = false) :
    (example_plain format.yxfb).is_reorder "I" = false ∧
    ((example_plain format.yxfb).users "N").filter
        (fun user => (example_plain format.yxfb).is_reorder user) = [] ∧
    (example_plain format.yxfb).nodes_map "_reshape_input_N" = none ∧
    (example_plain format.yxfb).nodes_map "_reshape_output_N" = none ∧
    (example_plain format.yxfb).dependencies "N" = ["I"] ∧
    (example_plain format.yxfb).dependencies "C" = ["N"] ∧
    ∃ q, run_node h (example_plain format.yxfb) "N" = some q ∧
      q.nodes_map "_reshape_input_N" =
        some ⟨"_reshape_input_N", ["I"], primitive_desc.reorder format.bfyx data_types.f32⟩ ∧
      (∃ first, q.nodes_map "_reshape_output_N" =
        some ⟨"_reshape_output_N", [first],
          primitive_desc.reorder format.yxfb data_types.f32⟩) ∧
      q.dependencies "N" = ["_reshape_input_N"] ∧
      q.dependencies "C" = ["_reshape_output_N"] := by
  refine ⟨by decide, by decide, by decide, by decide, by decide, by decide, ?_⟩
  obtain ⟨hkn, hkd, hku, hko⟩ := prepare_keeps h (example_plain format.yxfb) "N"
  have hl := prepare_layout_memo h (example_plain format.yxfb) "N"
    ⟨data_types.f32, format.yxfb, ⟨2, 3, 4, 5⟩, padding.zero⟩ (by decide)
  have hrun := ((run_node_without_reorder_user h (example_plain format.yxfb) "N" "I"
    ⟨"N", ["I"], primitive_desc.reshape ⟨2, 3, 4, 5⟩⟩ ⟨2, 3, 4, 5⟩
    (by decide) rfl (by decide)).2 (by decide) (by decide)).1
  rw [hl] at hrun
  obtain ⟨q', hq', h1, h2, h3, h4, h5⟩ := bridge_block_spec h "N" "I"
    ⟨data_types.f32, format.yxfb, ⟨2, 3, 4, 5⟩, padding.zero⟩
    (prepare h (example_plain format.yxfb) "N").2 "I" []
    (by rw [hko]; decide) (by decide) hid
    (by rw [hkn]; decide) (by rw [hkn]; decide) (by rw [hkn]; decide)
    (by rw [hkd]; decide) (by rw [hkn]; decide) (by decide)
    (by rw [hku]; decide) (by rw [hku, hkd, hkn]; decide)
  rw [hku] at h4 h5
  obtain ⟨h6, _, _, _⟩ := h5 (by decide)
  have h7 := h4 "C" (by decide)
  rw [hkd] at h7
  exact ⟨q', by rw [hrun]; exact hq', h1, h6, h2, h7.trans (by decide)⟩

/-- Witness of C22: with two layouts identical exactly when they are equal, the yxfb layout
is not identical to the bfyx one, and the pass bridges `N`. -/
theorem run_node_bridges_without_reorder_user_witness :
    ∃ q, run_node example_helpers (example_plain format.yxfb) "N" = some q ∧
      q.nodes_map "_reshape_input_N" =
        some ⟨"_reshape_input_N", ["I"], primitive_desc.reorder format.bfyx data_types.f32⟩ ∧
      (∃ first, q.nodes_map "_reshape_output_N" =
        some ⟨"_reshape_output_N", [first],
          primitive_desc.reorder format.yxfb data_types.f32⟩) ∧
      q.dependencies "N" = ["_reshape_input_N"] ∧
      q.dependencies "C" = ["_reshape_output_N"] :=
  (run_node_bridges_without_reorder_user example_helpers (by decide)).2.2.2.2.2.2

end handle_reshape

end cldnn

namespace cldnn

namespace program_impl

/-- `get_output_layout` leaves the user lists alone. -/
theorem get_output_layout_users (infer : program_impl → String → layout) (p : program_impl)
    (id : String) : (p.get_output_layout infer id).2.users = p.users := by
  unfold get_output_layout
  split <;> rfl

/-- `replace_dependency` leaves the user list of every node alone that is neither the old
nor the new producer. -/
theorem replace_dependency_users_frame (p : program_impl) (self : String) (idx : Nat)
    (new_dep k : String) (hold : (p.dependencies self)[idx]? ≠ some k) (hnew : k ≠ new_dep) :
    (p.replace_dependency self idx new_dep).users k = p.users k := by
  unfold replace_dependency
  split
  · rfl
  · rename_i old ho
    split
    · rfl
    · have hk : k ≠ old := fun e => hold (by rw [ho, e])
      simp [Function.update_apply, hk, hnew]

/-- `add_intermediate` on the dependency `prev` of `next` leaves the user list of every node
other than `prev` and the spliced node alone. -/
theorem add_intermediate_users_frame (p p' : program_impl) (node next prev : String)
    (idx : Nat) (c : Bool) (hget : (p.dependencies next)[idx]? = some prev)
    (hnn : next ≠ node) (h : p.add_intermediate node next idx c = some p') :
    ∀ k, k ≠ prev → k ≠ node → p'.users k = p.users k := by
  intro k hk1 hk2
  unfold add_intermediate at h
  rw [hget] at h
  simp only [Option.some.injEq] at h
  rw [← h]
  cases c
  · simp only [Bool.false_eq_true, if_false]
    exact replace_dependency_users_frame p next idx node k
      (by rw [hget]; intro e; injection e with e; exact hk1 e.symm) hk2
  · simp only [if_true]
    rw [replace_dependency_users_frame (p.add_connection prev node) next idx node k
      (by
        have : (p.add_connection prev node).dependencies next = p.dependencies next := by
          simp [add_connection, Function.update_apply, hnn]
        rw [this, hget]; intro e; injection e with e; exact hk1 e.symm) hk2]
    simp [add_connection, Function.update_apply, hk1]

end program_impl

namespace handle_reshape

open program_impl

/-- One round of the split loop for a later user `u` that is a reorder reading the reshape
as first dependency: the fresh clone is created, reads `input_node`, takes the place of the
reshape as first dependency of `u`, and has `u` as only user; `u` leaves the users of the
reshape. -/
theorem split_round (p : program_impl) (node input_node u : String) (output_shape : tensor)
    (hex : (p.nodes_map u).isSome = true)
    (hdep : (p.dependencies u)[0]? = some node)
    (hfresh : p.nodes_map ("_reshape_split_" ++ u ++ "_" ++ node) = none)
    (hnode : (p.nodes_map node).isSome = true)
    (hinput : (p.nodes_map input_node).isSome = true)
    (hni : node ≠ input_node) :
    ∃ P,
      ((p.get_or_create ⟨"_reshape_split_" ++ u ++ "_" ++ node, [input_node],
          primitive_desc.reshape output_shape⟩).replace_dependency u 0
            input_node).add_intermediate ("_reshape_split_" ++ u ++ "_" ++ node) u 0 true =
        some P ∧
      P.nodes_map = Function.update p.nodes_map ("_reshape_split_" ++ u ++ "_" ++ node)
        (some ⟨"_reshape_split_" ++ u ++ "_" ++ node, [input_node],
          primitive_desc.reshape output_shape⟩) ∧
      (∀ k, k ≠ u → k ≠ "_reshape_split_" ++ u ++ "_" ++ node →
        P.dependencies k = p.dependencies k) ∧
      P.users node = (p.users node).filter (fun x => x != u) ∧
      P.users ("_reshape_split_" ++ u ++ "_" ++ node) = [u] ∧
      (∀ k, k ≠ node → k ≠ input_node → k ≠ "_reshape_split_" ++ u ++ "_" ++ node →
        P.users k = p.users k) := by
  have huc : u ≠ "_reshape_split_" ++ u ++ "_" ++ node := ne_of_isSome_of_none _ _ _ hex hfresh
  have hnc : node ≠ "_reshape_split_" ++ u ++ "_" ++ node :=
    ne_of_isSome_of_none _ _ _ hnode hfresh
  have hic : input_node ≠ "_reshape_split_" ++ u ++ "_" ++ node :=
    ne_of_isSome_of_none _ _ _ hinput hfresh
  obtain ⟨p1, hp1⟩ : ∃ p1, p1 = p.get_or_create
      ⟨"_reshape_split_" ++ u ++ "_" ++ node, [input_node],
        primitive_desc.reshape output_shape⟩ := ⟨_, rfl⟩
  have hp1d : p1.dependencies =
      Function.update p.dependencies ("_reshape_split_" ++ u ++ "_" ++ node) [] := by
    rw [hp1, get_or_create_new p _ hfresh]
  have hp1n : p1.nodes_map =
      Function.update p.nodes_map ("_reshape_split_" ++ u ++ "_" ++ node)
        (some ⟨"_reshape_split_" ++ u ++ "_" ++ node, [input_node],
          primitive_desc.reshape output_shape⟩) := by
    rw [hp1, get_or_create_new p _ hfresh]
  have hp1u : p1.users =
      Function.update p.users ("_reshape_split_" ++ u ++ "_" ++ node) [] := by
    rw [hp1, get_or_create_new p _ hfresh]
  have hget1 : (p1.dependencies u)[0]? = some node := by
    rw [hp1d]; simp [Function.update_apply, huc, hdep]
  obtain ⟨p2, hp2⟩ : ∃ p2, p2 = p1.replace_dependency u 0 input_node := ⟨_, rfl⟩
  have hp2eq := replace_dependency_eq p1 u 0 node input_node hget1 hni
  rw [← hp2] at hp2eq
  have hp2d : p2.dependencies =
      Function.update p1.dependencies u ((p1.dependencies u).set 0 input_node) := by
    rw [hp2eq]
  have hp2n : p2.nodes_map = p1.nodes_map := by rw [hp2eq]
  have hp2u : p2.users =
      Function.update
        (Function.update p1.users node ((p1.users node).filter fun x => x != u))
        input_node
        (Function.update p1.users node ((p1.users node).filter fun x => x != u) input_node
          ++ [u]) := by
    rw [hp2eq]
  have hlen : 0 < (p.dependencies u).length := by
    rcases hl : p.dependencies u with _ | ⟨x, xs⟩
    · rw [hl] at hdep; simp at hdep
    · simp
  have hget2 : (p2.dependencies u)[0]? = some input_node := by
    rw [hp2d, hp1d]
    simp [Function.update_apply, huc, hlen]
  have hP := add_intermediate_connect p2 ("_reshape_split_" ++ u ++ "_" ++ node) u input_node
    0 hget2 hic huc
  rw [hp2, hp1] at hP
  refine ⟨_, hP, ?_, ?_, ?_, ?_, ?_⟩
  · simp only []
    rw [← hp1, ← hp2, hp2n, hp1n]
  · intro k h1 h2
    simp only []
    rw [← hp1, ← hp2, hp2d, hp1d]
    simp [Function.update_apply, h1, h2]
  · simp only []
    rw [← hp1, ← hp2, hp2u, hp1u]
    simp [Function.update_apply, hnc, hni]
  · simp only []
    rw [← hp1, ← hp2, hp2u, hp1u]
    simp [Function.update_apply, hnc, hni, Ne.symm hnc, Ne.symm hic]
  · intro k h1 h2 h3
    simp only []
    rw [← hp1, ← hp2, hp2u, hp1u]
    simp [Function.update_apply, h1, h2, h3]

end handle_reshape

end cldnn

namespace cldnn

namespace handle_reshape

open program_impl

/-- The user lists after the split loop, past the first user: every remaining user that is
in `reorder_node_to_split` has left the users of the reshape and is the only user of its
clone; the user lists of the other nodes, the input apart, are as before. -/
theorem split_loop_clones_users (node input_node : String) (output_shape : tensor)
    (rts : List String) (hni : node ≠ input_node) :
    ∀ (us : List String) (p : program_impl) (acc : List String) (q : program_impl)
      (acc' : List String),
      us.Nodup →
      (∀ u ∈ us, u ∈ rts →
        (p.nodes_map u).isSome = true ∧ (p.dependencies u)[0]? = some node ∧
        p.nodes_map ("_reshape_split_" ++ u ++ "_" ++ node) = none) →
      (p.nodes_map node).isSome = true → (p.nodes_map input_node).isSome = true →
      split_loop node input_node output_shape rts us true p acc = some (q, acc') →
      q.users node =
        (p.users node).filter (fun x => !(decide (x ∈ us) && decide (x ∈ rts))) ∧
      (∀ u ∈ us, u ∈ rts → q.users ("_reshape_split_" ++ u ++ "_" ++ node) = [u]) ∧
      (∀ k, k ≠ node → k ≠ input_node →
        (∀ u ∈ us, u ∈ rts → k ≠ "_reshape_split_" ++ u ++ "_" ++ node) →
        q.users k = p.users k) := by
  intro us
  induction us with
  | nil =>
    intro p acc q acc' _ _ _ _ hq
    simp only [split_loop, Option.some.injEq, Prod.mk.injEq] at hq
    rw [← hq.1]
    refine ⟨?_, by simp, fun _ _ _ _ => rfl⟩
    simp
  | cons u rest ih =>
    intro p acc q acc' hnd hyp hnode hinput hq
    have hrest_nd : rest.Nodup := (List.nodup_cons.1 hnd).2
    have hu_rest : u ∉ rest := (List.nodup_cons.1 hnd).1
    by_cases hu : u ∈ rts
    · obtain ⟨hex, hdep, hfresh⟩ := hyp u (List.mem_cons_self _ _) hu
      obtain ⟨P, hP, hPn, hPd, hPun, hPuc, hPuk⟩ :=
        split_round p node input_node u output_shape hex hdep hfresh hnode hinput hni
      have hnc : node ≠ "_reshape_split_" ++ u ++ "_" ++ node :=
        ne_of_isSome_of_none _ _ _ hnode hfresh
      have hic : input_node ≠ "_reshape_split_" ++ u ++ "_" ++ node :=
        ne_of_isSome_of_none _ _ _ hinput hfresh
      have hPnk : ∀ k, k ≠ "_reshape_split_" ++ u ++ "_" ++ node →
          P.nodes_map k = p.nodes_map k := by
        intro k h2
        rw [hPn]; simp [Function.update_apply, h2]
      rw [split_loop] at hq
      simp only [Bool.not_true, Bool.false_eq_true, if_false, if_pos hu, hP] at hq
      have hsep : ∀ v ∈ rest, v ∈ rts →
          v ≠ u ∧ v ≠ "_reshape_split_" ++ u ++ "_" ++ node ∧
          "_reshape_split_" ++ v ++ "_" ++ node ≠ "_reshape_split_" ++ u ++ "_" ++ node := by
        intro v hv hvr
        obtain ⟨a, _, _⟩ := hyp v (List.mem_cons_of_mem _ hv) hvr
        have hvu : v ≠ u := fun e => hu_rest (e ▸ hv)
        exact ⟨hvu, ne_of_isSome_of_none _ _ _ a hfresh,
          fun e => hvu (reshape_split_injective _ _ _ e)⟩
      obtain ⟨h1, h2, h3⟩ := ih P _ q acc' hrest_nd
        (fun v hv hvr => by
          obtain ⟨a, b, c⟩ := hyp v (List.mem_cons_of_mem _ hv) hvr
          obtain ⟨s1, s2, s3⟩ := hsep v hv hvr
          exact ⟨by rw [hPnk v s2]; exact a, by rw [hPd v s1 s2]; exact b,
            by rw [hPnk _ s3]; exact c⟩)
        (by rw [hPnk node hnc]; exact hnode) (by rw [hPnk input_node hic]; exact hinput) hq
      refine ⟨?_, ?_, ?_⟩
      · rw [h1, hPun, List.filter_filter]
        apply List.filter_congr
        intro x _
        by_cases hxu : x = u
        · subst hxu
          simp [hu]
        · simp [hxu]
      · intro v hv hvr
        rcases List.mem_cons.1 hv with rfl | hv'
        · rw [h3 _ (Ne.symm hnc) (Ne.symm hic)
            (fun w hw hwr => Ne.symm (hsep w hw hwr).2.2), hPuc]
        · exact h2 v hv' hvr
      · intro k hk1 hk2 hk3
        rw [h3 k hk1 hk2 (fun w hw hwr => hk3 w (List.mem_cons_of_mem _ hw) hwr),
          hPuk k hk1 hk2 (hk3 u (List.mem_cons_self _ _) hu)]
    · rw [split_loop] at hq
      simp only [Bool.not_true, Bool.false_eq_true, if_false, if_neg hu] at hq
      obtain ⟨h1, h2, h3⟩ := ih p acc q acc' hrest_nd
        (fun v hv hvr => hyp v (List.mem_cons_of_mem _ hv) hvr) hnode hinput hq
      refine ⟨?_, ?_, ?_⟩
      · rw [h1]
        apply List.filter_congr
        intro x _
        by_cases hxu : x = u
        · subst hxu
          simp [hu]
        · simp [hxu]
      · intro v hv hvr
        rcases List.mem_cons.1 hv with rfl | hv'
        · exact absurd hvr hu
        · exact h2 v hv' hvr
      · intro k hk1 hk2 hk3
        exact h3 k hk1 hk2 (fun w hw hwr => hk3 w (List.mem_cons_of_mem _ hw) hwr)

/-- The loop that inserts the input reorders leaves the user list of every node alone that
is neither `input_node` nor one of the new reorders. -/
theorem insert_loop_users (h : helpers) (input_node : String) (rrn : List String) :
    ∀ (rs : List String) (i : Nat) (ss : List String) (p q : program_impl),
      rrn.drop i = ss → rs.length = ss.length → ss.Nodup →
      (∀ s ∈ ss, (p.nodes_map s).isSome = true ∧
        (p.dependencies s)[0]? = some input_node) →
      (∀ e ∈ rs.zip ss, p.nodes_map ("_reshape_input_" ++ e.1 ++ "_" ++ e.2) = none) →
      ((rs.zip ss).map fun e => "_reshape_input_" ++ e.1 ++ "_" ++ e.2).Nodup →
      insert_loop h input_node rrn rs i p = some q →
      ∀ k, k ≠ input_node →
        (∀ e ∈ rs.zip ss, k ≠ "_reshape_input_" ++ e.1 ++ "_" ++ e.2) →
        q.users k = p.users k := by
  intro rs
  induction rs with
  | nil =>
    intro i ss p q _ _ _ _ _ _ hq k _ _
    simp only [insert_loop, Option.some.injEq] at hq
    rw [← hq]
  | cons r rs ih =>
    intro i ss p q hdrop hlen hnd hss hfresh hids hq k hk1 hk2
    rcases ss with _ | ⟨s, ss⟩
    · simp at hlen
    have hs_ss : s ∉ ss := (List.nodup_cons.1 hnd).1
    have hss_nd : ss.Nodup := (List.nodup_cons.1 hnd).2
    obtain ⟨hgetrrn, hdrop'⟩ := getElem?_of_drop_eq_cons rrn i s ss hdrop
    obtain ⟨hsex, hsdep⟩ := hss s (List.mem_cons_self _ _)
    have hfr : p.nodes_map ("_reshape_input_" ++ r ++ "_" ++ s) = none :=
      hfresh (r, s) (by simp)
    simp only [List.zip_cons_cons, List.map_cons, List.nodup_cons] at hids
    obtain ⟨hid_notin, hids'⟩ := hids
    have hsid : s ≠ "_reshape_input_" ++ r ++ "_" ++ s := ne_of_isSome_of_none _ _ _ hsex hfr
    obtain ⟨L, hL⟩ : ∃ L, L = p.get_output_layout h.calc_output_layout r := ⟨_, rfl⟩
    have hLd : L.2.dependencies = p.dependencies := by
      rw [hL, get_output_layout_dependencies]
    have hLn : L.2.nodes_map = p.nodes_map := by
      rw [hL, (get_output_layout_keeps _ _ _).1]
    have hLu : L.2.users = p.users := by
      rw [hL, get_output_layout_users]
    have hfrL : L.2.nodes_map ("_reshape_input_" ++ r ++ "_" ++ s) = none := by
      rw [hLn]; exact hfr
    obtain ⟨p1, hp1⟩ : ∃ p1, p1 = L.2.get_or_create
        ⟨"_reshape_input_" ++ r ++ "_" ++ s, [input_node],
          primitive_desc.reorder L.1.format L.1.data_type⟩ := ⟨_, rfl⟩
    have hp1d : p1.dependencies =
        Function.update p.dependencies ("_reshape_input_" ++ r ++ "_" ++ s) [] := by
      rw [hp1, get_or_create_new _ _ hfrL, hLd]
    have hp1n : p1.nodes_map =
        Function.update p.nodes_map ("_reshape_input_" ++ r ++ "_" ++ s)
          (some ⟨"_reshape_input_" ++ r ++ "_" ++ s, [input_node],
            primitive_desc.reorder L.1.format L.1.data_type⟩) := by
      rw [hp1, get_or_create_new _ _ hfrL, hLn]
    have hp1u : p1.users =
        Function.update p.users ("_reshape_input_" ++ r ++ "_" ++ s) [] := by
      rw [hp1, get_or_create_new _ _ hfrL, hLu]
    have hget1 : (p1.dependencies s)[0]? = some input_node := by
      rw [hp1d]; simp [Function.update_apply, hsid, hsdep]
    have hempty1 : p1.dependencies ("_reshape_input_" ++ r ++ "_" ++ s) = [] := by
      rw [hp1d]; simp [Function.update_apply]
    obtain ⟨P, hP, hPd, hPn, _⟩ := add_intermediate_splice p1
      ("_reshape_input_" ++ r ++ "_" ++ s) s input_node 0 hget1 (Ne.symm hsid) hempty1
    have hPu := add_intermediate_users_frame p1 P ("_reshape_input_" ++ r ++ "_" ++ s) s
      input_node 0 true hget1 hsid hP
    rw [hp1d] at hPd
    rw [hp1n] at hPn
    simp only [Function.update_apply, if_true, if_neg hsid] at hPd
    have hPk : ∀ k, k ≠ s → k ≠ "_reshape_input_" ++ r ++ "_" ++ s →
        P.dependencies k = p.dependencies k := by
      intro k h1 h2
      rw [hPd]; simp [Function.update_apply, h1, h2]
    have hPnk : ∀ k, k ≠ "_reshape_input_" ++ r ++ "_" ++ s →
        P.nodes_map k = p.nodes_map k := by
      intro k h2
      rw [hPn]; simp [Function.update_apply, h2]
    rw [insert_loop] at hq
    simp only [hgetrrn] at hq
    rw [← hL, ← hp1] at hq
    have hflag : (p1.dependencies ("_reshape_input_" ++ r ++ "_" ++ s)).isEmpty = true := by
      rw [hempty1]; rfl
    rw [hflag, hP] at hq
    have hkr : k ≠ "_reshape_input_" ++ r ++ "_" ++ s := hk2 (r, s) (by simp)
    rw [ih (i + 1) ss P q hdrop' (by simpa using hlen) hss_nd
      (fun s' hs' => by
        obtain ⟨a, b⟩ := hss s' (List.mem_cons_of_mem _ hs')
        have h1 : s' ≠ s := fun x => hs_ss (x ▸ hs')
        have h2 : s' ≠ "_reshape_input_" ++ r ++ "_" ++ s := ne_of_isSome_of_none _ _ _ a hfr
        exact ⟨by rw [hPnk s' h2]; exact a, by rw [hPk s' h1 h2]; exact b⟩)
      (fun e he => by
        have hne : "_reshape_input_" ++ e.1 ++ "_" ++ e.2 ≠
            "_reshape_input_" ++ r ++ "_" ++ s :=
          fun x => hid_notin (List.mem_map.2 ⟨e, he, x⟩)
        rw [hPnk _ hne]
        exact hfresh e (by simp [he]))
      hids' hq k hk1 (fun e he => hk2 e (by simp [he])),
      hPu k hk1 hkr, hp1u]
    simp [Function.update_apply, hkr]

end handle_reshape

end cldnn

namespace cldnn

namespace handle_reshape

open program_impl

/-- Lines 49 to 104 on a consistent graph with new ids, loop by loop: the split loop returns
a program `p2` and the list of the reshape nodes, one per reorder user; the insertion loop
returns on them; with what each loop changes and leaves alone among descriptors,
dependencies, memoized layouts and user lists. -/
theorem split_block_loops (h : helpers) (node input_node : String)
    (output_shape : tensor) (p : program_impl)
    (hnode : p.is_reshape node = true)
    (hin : (p.dependencies node)[0]? = some input_node)
    (hinput : (p.nodes_map input_node).isSome = true)
    (hnd : (p.users node).Nodup)
    (hus : ∀ u ∈ p.users node, p.is_reorder u = true →
      (p.dependencies u)[0]? = some node ∧
      p.nodes_map ("_reshape_split_" ++ u ++ "_" ++ node) = none ∧
      p.nodes_map ("_reshape_input_" ++ u ++ "_" ++
        (if (p.users node).head? = some u then node
          else "_reshape_split_" ++ u ++ "_" ++ node)) = none)
    (hids : (((p.users node).filter fun user => p.is_reorder user).map
      (fun u => "_reshape_input_" ++ u ++ "_" ++
        (if (p.users node).head? = some u then node
          else "_reshape_split_" ++ u ++ "_" ++ node))).Nodup) :
    ∃ p2 q,
      split_loop node input_node output_shape ((p.users node).filter fun user => p.is_reorder user) (p.users node) false p [] =
        some (p2, ((p.users node).filter fun user => p.is_reorder user).map
          (fun r => if (p.users node).head? = some r then node
        else "_reshape_split_" ++ r ++ "_" ++ node)) ∧
      insert_loop h input_node
        (((p.users node).filter fun user => p.is_reorder user).map
          (fun r => if (p.users node).head? = some r then node
        else "_reshape_split_" ++ r ++ "_" ++ node))
        ((p.users node).filter fun user => p.is_reorder user) 0 p2 = some q ∧
      (∀ r ∈ ((p.users node).filter fun user => p.is_reorder user),
        (p2.dependencies r)[0]? =
          some (if (p.users node).head? = some r then node
            else "_reshape_split_" ++ r ++ "_" ++ node)) ∧
      (∀ r ∈ ((p.users node).filter fun user => p.is_reorder user), (p.users node).head? ≠ some r →
        p2.nodes_map ("_reshape_split_" ++ r ++ "_" ++ node) =
          some ⟨"_reshape_split_" ++ r ++ "_" ++ node, [input_node],
            primitive_desc.reshape output_shape⟩) ∧
      (∀ k, (∀ r ∈ ((p.users node).filter fun user => p.is_reorder user),
          k ≠ r ∧ k ≠ "_reshape_split_" ++ r ++ "_" ++ node) →
        p2.dependencies k = p.dependencies k) ∧
      (∀ k, (∀ r ∈ ((p.users node).filter fun user => p.is_reorder user),
          k ≠ (if (p.users node).head? = some r then node
            else "_reshape_split_" ++ r ++ "_" ++ node) ∧
          k ≠ "_reshape_input_" ++ r ++ "_" ++
            (if (p.users node).head? = some r then node
              else "_reshape_split_" ++ r ++ "_" ++ node)) →
        q.dependencies k = p2.dependencies k) ∧
      (∀ k, (∀ r ∈ ((p.users node).filter fun user => p.is_reorder user),
          k ≠ "_reshape_input_" ++ r ++ "_" ++
            (if (p.users node).head? = some r then node
              else "_reshape_split_" ++ r ++ "_" ++ node)) →
        q.nodes_map k = p2.nodes_map k) ∧
      (∀ k, k ≠ input_node →
        (∀ r ∈ ((p.users node).filter fun user => p.is_reorder user),
          k ≠ "_reshape_input_" ++ r ++ "_" ++
            (if (p.users node).head? = some r then node
              else "_reshape_split_" ++ r ++ "_" ++ node)) →
        q.users k = p2.users k) := by
  have hnodeex := isSome_of_is_reshape p node hnode
  have hne : ∀ r' a b : String,
      "_reshape_input_" ++ a ++ "_" ++ b ≠ "_reshape_split_" ++ r' ++ "_" ++ node := by
    intro r' a b
    simp only [String.append_assoc]
    exact append_ne_of_prefix_ne _ _ _ _ (by decide) (by decide)
  have hrts : ∀ r, r ∈ (p.users node).filter (fun user => p.is_reorder user) ↔
      r ∈ p.users node ∧ p.is_reorder r = true := fun r => by simp [List.mem_filter]
  have hrts_nd : ((p.users node).filter fun user => p.is_reorder user).Nodup :=
    hnd.filter _
  -- facts about a reorder user
  have hfact : ∀ r ∈ (p.users node).filter (fun user => p.is_reorder user),
      (p.nodes_map r).isSome = true ∧ node ≠ r ∧
      p.nodes_map ("_reshape_split_" ++ r ++ "_" ++ node) = none ∧
      node ≠ "_reshape_split_" ++ r ++ "_" ++ node ∧
      input_node ≠ "_reshape_split_" ++ r ++ "_" ++ node := by
    intro r hr
    obtain ⟨hru, hrr⟩ := (hrts r).1 hr
    obtain ⟨_, b, _⟩ := hus r hru hrr
    exact ⟨isSome_of_is_reorder p r hrr, ne_of_is_reshape_of_is_reorder p node r hnode hrr, b,
      ne_of_isSome_of_none _ _ _ hnodeex b, ne_of_isSome_of_none _ _ _ hinput b⟩
  obtain ⟨p2, hp2, hp2a, hp2b, hp2c, hp2d⟩ := split_loop_spec node input_node output_shape p
    hnd (fun u hu hr => ⟨(hus u hu hr).1, (hus u hu hr).2.1⟩)
  have hp2node_n : p2.nodes_map node = p.nodes_map node :=
    hp2d node (fun r hr => (hfact r hr).2.2.2.1)
  have hp2node_d : p2.dependencies node = p.dependencies node :=
    hp2c node (fun r hr => ⟨(hfact r hr).2.1, (hfact r hr).2.2.2.1⟩)
  -- the reshape node of a reorder user, after the split loop
  have hsfact : ∀ r ∈ (p.users node).filter (fun user => p.is_reorder user),
      (p2.nodes_map (if (p.users node).head? = some r then node
        else "_reshape_split_" ++ r ++ "_" ++ node)).isSome = true ∧
      (p2.dependencies (if (p.users node).head? = some r then node
        else "_reshape_split_" ++ r ++ "_" ++ node))[0]? = some input_node ∧
      p2.is_reshape (if (p.users node).head? = some r then node
        else "_reshape_split_" ++ r ++ "_" ++ node) = true := by
    intro r hr
    by_cases hh : (p.users node).head? = some r
    · simp only [if_pos hh]
      refine ⟨by rw [hp2node_n]; exact hnodeex, by rw [hp2node_d]; exact hin, ?_⟩
      unfold program_impl.is_reshape
      rw [hp2node_n]
      exact hnode
    · simp only [if_neg hh]
      obtain ⟨a, b⟩ := hp2b r hr hh
      refine ⟨by rw [a]; rfl, by rw [b]; rfl, ?_⟩
      unfold program_impl.is_reshape
      rw [a]
      rfl
  have hzip := zip_map_self ((p.users node).filter fun user => p.is_reorder user)
    (fun r => if (p.users node).head? = some r then node
      else "_reshape_split_" ++ r ++ "_" ++ node)
  have hinj : ∀ x ∈ (p.users node).filter (fun user => p.is_reorder user),
      ∀ y ∈ (p.users node).filter (fun user => p.is_reorder user),
      (if (p.users node).head? = some x then node
        else "_reshape_split_" ++ x ++ "_" ++ node) =
      (if (p.users node).head? = some y then node
        else "_reshape_split_" ++ y ++ "_" ++ node) → x = y := by
    intro x hx y hy e
    by_cases h1 : (p.users node).head? = some x <;> by_cases h2 : (p.users node).head? = some y
    · rw [h1] at h2
      injection h2
    · rw [if_pos h1, if_neg h2] at e
      exact absurd e (hfact y hy).2.2.2.1
    · rw [if_neg h1, if_pos h2] at e
      exact absurd e.symm (hfact x hx).2.2.2.1
    · rw [if_neg h1, if_neg h2] at e
      exact reshape_split_injective _ _ _ e
  have hA : ∀ s ∈ ((p.users node).filter fun user => p.is_reorder user).map
      (fun r => if (p.users node).head? = some r then node
        else "_reshape_split_" ++ r ++ "_" ++ node),
      (p2.nodes_map s).isSome = true ∧ (p2.dependencies s)[0]? = some input_node := by
    intro s hs
    obtain ⟨r, hr, rfl⟩ := List.mem_map.1 hs
    exact ⟨(hsfact r hr).1, (hsfact r hr).2.1⟩
  have hB : ∀ r ∈ ((p.users node).filter fun user => p.is_reorder user), (p2.nodes_map r).isSome = true := by
    intro r hr
    rw [hp2d r (fun r' hr' =>
      ne_of_isSome_of_none _ _ _ (hfact r hr).1 (hfact r' hr').2.2.1)]
    exact (hfact r hr).1
  have hC : ∀ e ∈ ((p.users node).filter fun user => p.is_reorder user).zip (((p.users node).filter fun user => p.is_reorder user).map
      (fun r => if (p.users node).head? = some r then node
        else "_reshape_split_" ++ r ++ "_" ++ node)),
      p2.nodes_map ("_reshape_input_" ++ e.1 ++ "_" ++ e.2) = none := by
    intro e he
    rw [hzip] at he
    obtain ⟨r, hr, rfl⟩ := List.mem_map.1 he
    obtain ⟨hru, hrr⟩ := (hrts r).1 hr
    have := hp2d ("_reshape_input_" ++ r ++ "_" ++
      (if (p.users node).head? = some r then node
        else "_reshape_split_" ++ r ++ "_" ++ node)) (fun r' _ => hne r' _ _)
    rw [this]
    exact (hus r hru hrr).2.2
  have hD : ((((p.users node).filter fun user => p.is_reorder user).zip (((p.users node).filter fun user => p.is_reorder user).map
      (fun r => if (p.users node).head? = some r then node
        else "_reshape_split_" ++ r ++ "_" ++ node))).map
      fun e => "_reshape_input_" ++ e.1 ++ "_" ++ e.2).Nodup := by
    rw [hzip, List.map_map]
    exact hids
  obtain ⟨q, hq, _, hq2, hq3, _⟩ := insert_loop_spec h input_node
    (((p.users node).filter fun user => p.is_reorder user).map
      (fun r => if (p.users node).head? = some r then node
        else "_reshape_split_" ++ r ++ "_" ++ node))
    ((p.users node).filter fun user => p.is_reorder user) 0
    (((p.users node).filter fun user => p.is_reorder user).map
      (fun r => if (p.users node).head? = some r then node
        else "_reshape_split_" ++ r ++ "_" ++ node))
    p2 rfl (by rw [List.length_map]) (List.Nodup.map_on hinj hrts_nd) hA hB hC hD
  have hq5 := insert_loop_users h input_node
    (((p.users node).filter fun user => p.is_reorder user).map
      (fun r => if (p.users node).head? = some r then node
        else "_reshape_split_" ++ r ++ "_" ++ node))
    ((p.users node).filter fun user => p.is_reorder user) 0
    (((p.users node).filter fun user => p.is_reorder user).map
      (fun r => if (p.users node).head? = some r then node
        else "_reshape_split_" ++ r ++ "_" ++ node))
    p2 q rfl (by rw [List.length_map]) (List.Nodup.map_on hinj hrts_nd) hA hC hD hq
  have hpair : ∀ (P : String × String → Prop),
      (∀ r ∈ ((p.users node).filter fun user => p.is_reorder user), P (r, if (p.users node).head? = some r then node
        else "_reshape_split_" ++ r ++ "_" ++ node)) →
      ∀ e ∈ ((p.users node).filter fun user => p.is_reorder user).zip (((p.users node).filter fun user => p.is_reorder user).map
        (fun r => if (p.users node).head? = some r then node
        else "_reshape_split_" ++ r ++ "_" ++ node)), P e := by
    intro P hP e he
    rw [hzip] at he
    obtain ⟨r, hr, rfl⟩ := List.mem_map.1 he
    exact hP r hr
  refine ⟨p2, q, hp2, hq, hp2a, fun r hr hh => (hp2b r hr hh).1, hp2c, ?_, ?_, ?_⟩
  · intro k hk
    exact hq2 k (hpair (fun e => k ≠ e.2 ∧ k ≠ "_reshape_input_" ++ e.1 ++ "_" ++ e.2) hk)
  · intro k hk
    exact hq3 k (hpair (fun e => k ≠ "_reshape_input_" ++ e.1 ++ "_" ++ e.2) hk)
  · intro k hk1 hk
    exact hq5 k hk1 (hpair (fun e => k ≠ "_reshape_input_" ++ e.1 ++ "_" ++ e.2) hk)

end handle_reshape

end cldnn

namespace cldnn

namespace handle_reshape

open program_impl

/-- Lines 49 to 104 on a consistent graph with new ids, user by user, for the reshape `node`
with the users `u0 :: rest`.  The first user `u0` reads what it read; the users of `node`
are then `u0` and the users of `rest` that are not reorders; every reorder `r` of `rest`
reads the new clone `_reshape_split_<r>_<node>`, declared on `input_node` with the output
shape, of which it is the only user; every other user of `rest` reads what it read. -/
theorem split_block_first_user (h : helpers) (node input_node : String)
    (output_shape : tensor) (p : program_impl) (u0 : String) (rest : List String)
    (hnode : p.is_reshape node = true)
    (hin : (p.dependencies node)[0]? = some input_node)
    (hinput : (p.nodes_map input_node).isSome = true)
    (hni : node ≠ input_node)
    (husers : p.users node = u0 :: rest)
    (hnd : (p.users node).Nodup)
    (hex : ∀ u ∈ p.users node, (p.nodes_map u).isSome = true ∧ u ≠ node)
    (hus : ∀ u ∈ p.users node, p.is_reorder u = true →
      (p.dependencies u)[0]? = some node ∧
      p.nodes_map ("_reshape_split_" ++ u ++ "_" ++ node) = none ∧
      p.nodes_map ("_reshape_input_" ++ u ++ "_" ++
        (if (p.users node).head? = some u then node
          else "_reshape_split_" ++ u ++ "_" ++ node)) = none)
    (hids : (((p.users node).filter fun user => p.is_reorder user).map
      (fun u => "_reshape_input_" ++ u ++ "_" ++
        (if (p.users node).head? = some u then node
          else "_reshape_split_" ++ u ++ "_" ++ node))).Nodup) :
    ∃ q, split_block h node input_node output_shape p = some q ∧
      q.dependencies u0 = p.dependencies u0 ∧
      q.users node = u0 :: rest.filter (fun u => !p.is_reorder u) ∧
      (∀ r ∈ rest, p.is_reorder r = true →
        p.nodes_map ("_reshape_split_" ++ r ++ "_" ++ node) = none ∧
        q.nodes_map ("_reshape_split_" ++ r ++ "_" ++ node) =
          some ⟨"_reshape_split_" ++ r ++ "_" ++ node, [input_node],
            primitive_desc.reshape output_shape⟩ ∧
        (q.dependencies r)[0]? = some ("_reshape_split_" ++ r ++ "_" ++ node) ∧
        q.users ("_reshape_split_" ++ r ++ "_" ++ node) = [r]) ∧
      (∀ c ∈ rest, p.is_reorder c = false → q.dependencies c = p.dependencies c) := by
  have hnodeex := isSome_of_is_reshape p node hnode
  have hrestmem : ∀ u ∈ rest, u ∈ p.users node := by
    intro u hu
    rw [husers]
    exact List.mem_cons_of_mem _ hu
  have hu0mem : u0 ∈ p.users node := by
    rw [husers]
    exact List.mem_cons_self _ _
  by_cases hempty : ((p.users node).filter fun user => p.is_reorder user).isEmpty = true
  · have hnil : (p.users node).filter (fun user => p.is_reorder user) = [] :=
      List.isEmpty_iff.1 hempty
    have hnone : ∀ u ∈ p.users node, p.is_reorder u = false := by
      intro u hu
      cases hr : p.is_reorder u
      · rfl
      · have : u ∈ (p.users node).filter (fun user => p.is_reorder user) :=
          List.mem_filter.2 ⟨hu, hr⟩
        rw [hnil] at this
        cases this
    refine ⟨p, ?_, rfl, ?_, ?_, fun _ _ _ => rfl⟩
    · unfold split_block
      simp only [hempty, Bool.not_true, Bool.false_eq_true, if_false]
    · rw [husers]
      congr 1
      symm
      rw [List.filter_eq_self]
      intro u hu
      simp [hnone u (hrestmem u hu)]
    · intro r hr hrr
      rw [hnone r (hrestmem r hr)] at hrr
      cases hrr
  have hne : ∀ r' a b : String,
      "_reshape_input_" ++ a ++ "_" ++ b ≠ "_reshape_split_" ++ r' ++ "_" ++ node := by
    intro r' a b
    simp only [String.append_assoc]
    exact append_ne_of_prefix_ne _ _ _ _ (by decide) (by decide)
  have hrts : ∀ r, r ∈ (p.users node).filter (fun user => p.is_reorder user) ↔
      r ∈ p.users node ∧ p.is_reorder r = true := fun r => by simp [List.mem_filter]
  have hnd0 : u0 ∉ rest ∧ rest.Nodup := by
    rw [husers] at hnd
    exact List.nodup_cons.1 hnd
  have hhead : (p.users node).head? = some u0 := by rw [husers]; rfl
  have hnothead : ∀ r ∈ rest, (p.users node).head? ≠ some r := by
    intro r hr hh
    rw [hhead] at hh
    injection hh with hh
    exact hnd0.1 (hh ▸ hr)
  obtain ⟨p2, q, hp2, hq, hp2a, hp2b, hp2c, hq2, hq3, hq5⟩ :=
    split_block_loops h node input_node output_shape p hnode hin hinput hnd hus hids
  -- an existing node of `p` is none of the new nodes
  have hold : ∀ k, (p.nodes_map k).isSome = true →
      ∀ r ∈ (p.users node).filter (fun user => p.is_reorder user),
        k ≠ "_reshape_split_" ++ r ++ "_" ++ node ∧
        k ≠ "_reshape_input_" ++ r ++ "_" ++
          (if (p.users node).head? = some r then node
            else "_reshape_split_" ++ r ++ "_" ++ node) := by
    intro k hk r hr
    obtain ⟨hru, hrr⟩ := (hrts r).1 hr
    exact ⟨ne_of_isSome_of_none _ _ _ hk (hus r hru hrr).2.1,
      ne_of_isSome_of_none _ _ _ hk (hus r hru hrr).2.2⟩
  -- a user of `node` is no reshape node of the split
  have huser : ∀ k ∈ p.users node,
      ∀ r ∈ (p.users node).filter (fun user => p.is_reorder user),
        k ≠ (if (p.users node).head? = some r then node
          else "_reshape_split_" ++ r ++ "_" ++ node) ∧
        k ≠ "_reshape_input_" ++ r ++ "_" ++
          (if (p.users node).head? = some r then node
            else "_reshape_split_" ++ r ++ "_" ++ node) := by
    intro k hk r hr
    refine ⟨?_, (hold k (hex k hk).1 r hr).2⟩
    by_cases hh : (p.users node).head? = some r
    · rw [if_pos hh]
      exact (hex k hk).2
    · rw [if_neg hh]
      exact (hold k (hex k hk).1 r hr).1
  -- the split loop past the first user
  have hp2rest : split_loop node input_node output_shape
      ((p.users node).filter fun user => p.is_reorder user) rest true p
      (if u0 ∈ (p.users node).filter (fun user => p.is_reorder user) then [] ++ [node]
        else []) =
      some (p2, ((p.users node).filter fun user => p.is_reorder user).map
        (fun r => if (p.users node).head? = some r then node
          else "_reshape_split_" ++ r ++ "_" ++ node)) := by
    have key : ∀ (rts us : List String), us = u0 :: rest →
        split_loop node input_node output_shape rts us false p [] =
          split_loop node input_node output_shape rts rest true p
            (if u0 ∈ rts then [] ++ [node] else []) := by
      intro rts us e
      subst e
      rw [split_loop]
      simp
    rw [← key _ _ husers]
    exact hp2
  have hyp_rest : ∀ u ∈ rest, u ∈ (p.users node).filter (fun user => p.is_reorder user) →
      (p.nodes_map u).isSome = true ∧ (p.dependencies u)[0]? = some node ∧
      p.nodes_map ("_reshape_split_" ++ u ++ "_" ++ node) = none := by
    intro u hu hr
    obtain ⟨hru, hrr⟩ := (hrts u).1 hr
    exact ⟨(hex u hru).1, (hus u hru hrr).1, (hus u hru hrr).2.1⟩
  obtain ⟨hU1, hU2, _⟩ := split_loop_clones_users node input_node output_shape
    ((p.users node).filter fun user => p.is_reorder user) hni rest p _ p2 _ hnd0.2 hyp_rest
    hnodeex hinput hp2rest
  obtain ⟨p2', hp2', _, hD, _⟩ := split_loop_clones node input_node output_shape
    ((p.users node).filter fun user => p.is_reorder user) rest p
    (if u0 ∈ (p.users node).filter (fun user => p.is_reorder user) then [] ++ [node]
      else []) hnd0.2
    (fun u hu hr => ⟨(hyp_rest u hu hr).1, by rw [(hyp_rest u hu hr).2.1]; rfl,
      (hyp_rest u hu hr).2.2⟩)
  have hp2eq : p2' = p2 := by
    rw [hp2rest] at hp2'
    injection hp2' with e
    exact (congrArg Prod.fst e).symm
  rw [hp2eq] at hD
  refine ⟨q, ?_, ?_, ?_, ?_, ?_⟩
  · unfold split_block
    simp only [hempty, Bool.not_false, if_true, hp2]
    exact hq
  · rw [hq2 u0 (huser u0 hu0mem)]
    apply hD
    intro u hu hr
    refine ⟨fun e => hnd0.1 (e ▸ hu), ?_⟩
    exact (hold u0 (hex u0 hu0mem).1 u hr).1
  · have hfil : ∀ (L rts : List String), L = u0 :: rest →
        (∀ x ∈ rest, (x ∈ rts ↔ p.is_reorder x = true)) →
        L.filter (fun x => !(decide (x ∈ rest) && decide (x ∈ rts))) =
          u0 :: rest.filter (fun u => !p.is_reorder u) := by
      intro L rts e hm
      subst e
      have h0 : (!(decide (u0 ∈ rest) && decide (u0 ∈ rts))) = true := by
        simp [hnd0.1]
      rw [List.filter_cons, if_pos h0]
      congr 1
      apply List.filter_congr
      intro x hx
      by_cases hxr : p.is_reorder x = true
      · simp [hx, (hm x hx).2 hxr, hxr]
      · have : x ∉ rts := fun hc => hxr ((hm x hx).1 hc)
        simp [this, hxr]
    rw [hq5 node hni (fun r hr => (hold node hnodeex r hr).2), hU1]
    exact hfil _ _ husers (fun x hx =>
      ⟨fun hm => ((hrts x).1 hm).2, fun hr => (hrts x).2 ⟨hrestmem x hx, hr⟩⟩)
  · intro r hr hrr
    have hrm : r ∈ (p.users node).filter (fun user => p.is_reorder user) :=
      (hrts r).2 ⟨hrestmem r hr, hrr⟩
    have hfresh := (hus r (hrestmem r hr) hrr).2.1
    refine ⟨hfresh, ?_, ?_, ?_⟩
    · rw [hq3 _ (fun r' _ => (hne r _ _).symm)]
      exact hp2b r hrm (hnothead r hr)
    · rw [hq2 r (huser r (hrestmem r hr)), hp2a r hrm, if_neg (hnothead r hr)]
    · rw [hq5 _ (fun e => by rw [e] at hfresh; rw [hfresh] at hinput; cases hinput)
        (fun r' _ => (hne r _ _).symm)]
      exact hU2 r hr hrm
  · intro c hc hcr
    have hcm := hrestmem c hc
    rw [hq2 c (huser c hcm)]
    apply hp2c
    intro r hr
    refine ⟨?_, (hold c (hex c hcm).1 r hr).1⟩
    intro e
    rw [e, ((hrts r).1 hr).2] at hcr
    cases hcr

end handle_reshape

end cldnn

namespace cldnn

namespace handle_reshape

open program_impl

/-- C13, amended: the body of the pass for a reshape `node` whose input `input_node` is not
a reorder, on a consistent graph (distinct existing users `u0 :: rest` that are not `node`,
reorder users reading `node` first, new ids not yet taken).  Lines 49 to 104 return a
program `q`, which is the result of the body when the layout of the reshape is bfyx or
identical to its bfyx layout (no bridging follows).  In `q` the first user `u0` keeps the
original reshape, whatever its kind: it reads what it read, and the users of `node` are `u0`
and the users of `rest` that are not reorders.  Every reorder `r` after the first reads the
new clone `_reshape_split_<r>_<node>`, declared on `input_node` with the output shape of
the reshape, of which `r` is the single user.  Every non-reorder user after the first reads
what it read.  So a reorder user shares the original reshape exactly when it is the first
user. -/
theorem run_node_first_user_keeps_original (h : helpers) (p : program_impl)
    (node input_node : String) (prim : primitive) (output_shape : tensor)
    (u0 : String) (rest : List String)
    (hprim : p.nodes_map node = some prim)
    (hdesc : prim.desc = primitive_desc.reshape output_shape)
    (hin : (p.dependencies node)[0]? = some input_node)
    (hnr : p.is_reorder input_node = false)
    (hinput : (p.nodes_map input_node).isSome = true)
    (hni : node ≠ input_node)
    (husers : p.users node = u0 :: rest)
    (hnd : (p.users node).Nodup)
    (hex : ∀ u ∈ p.users node, (p.nodes_map u).isSome = true ∧ u ≠ node)
    (hus : ∀ u ∈ p.users node, p.is_reorder u = true →
      (p.dependencies u)[0]? = some node ∧
      p.nodes_map ("_reshape_split_" ++ u ++ "_" ++ node) = none ∧
      p.nodes_map ("_reshape_input_" ++ u ++ "_" ++
        (if (p.users node).head? = some u then node
          else "_reshape_split_" ++ u ++ "_" ++ node)) = none)
    (hids : (((p.users node).filter fun user => p.is_reorder user).map
      (fun u => "_reshape_input_" ++ u ++ "_" ++
        (if (p.users node).head? = some u then node
          else "_reshape_split_" ++ u ++ "_" ++ node))).Nodup) :
    ∃ q, split_block h node input_node output_shape (prepare h p node).2 = some q ∧
      ((prepare h p node).1.format = format.bfyx ∨
          (h.are_layouts_identical (prepare h p node).1
            (layout.ctor (prepare h p node).1.data_type format.bfyx
              (prepare h p node).1.size)).2 = true →
        run_node h p node = some q) ∧
      q.dependencies u0 = p.dependencies u0 ∧
      q.users node = u0 :: rest.filter (fun u => !p.is_reorder u) ∧
      (∀ r ∈ rest, p.is_reorder r = true →
        p.nodes_map ("_reshape_split_" ++ r ++ "_" ++ node) = none ∧
        q.nodes_map ("_reshape_split_" ++ r ++ "_" ++ node) =
          some ⟨"_reshape_split_" ++ r ++ "_" ++ node, [input_node],
            primitive_desc.reshape output_shape⟩ ∧
        (q.dependencies r)[0]? = some ("_reshape_split_" ++ r ++ "_" ++ node) ∧
        q.users ("_reshape_split_" ++ r ++ "_" ++ node) = [r]) ∧
      (∀ c ∈ rest, p.is_reorder c = false → q.dependencies c = p.dependencies c) := by
  obtain ⟨hkn, hkd, hku, _⟩ := prepare_keeps h p node
  have hir : (prepare h p node).2.is_reorder = p.is_reorder := by
    funext u
    unfold program_impl.is_reorder
    rw [hkn]
  have hnode : (prepare h p node).2.is_reshape node = true := by
    unfold program_impl.is_reshape
    rw [hkn, hprim]
    simp [primitive.is_reshape, hdesc]
  have H := split_block_first_user h node input_node output_shape (prepare h p node).2 u0 rest
    hnode
  simp only [hkn, hkd, hku, hir] at H
  obtain ⟨q, hq, h1, h2, h3, h4⟩ := H hin hinput hni husers hnd hex hus hids
  refine ⟨q, hq, ?_, h1, h2, h3, h4⟩
  intro hcase
  rw [run_node_reshape h p node input_node prim output_shape hprim hdesc hin hnr, hq]
  simp only []
  unfold bridge_block
  rcases hcase with hf | hid
  · simp [hf]
  · simp [hid]

/-- Witness of C13: on the example program whose reshape `N` has the users `R1`, `C`, `R2`
in this order (`R1` and `R2` reorders), the body of the pass returns a program in which
`R1` and `C` read the original `N`, whose users they are, while `R2` reads the new clone
`_reshape_split_R2_N`, of which it is the single user. -/
theorem run_node_first_user_keeps_original_witness :
    ∃ q, run_node example_helpers example_two_reorders "N" = some q ∧
      q.dependencies "R1" = ["N"] ∧
      q.users "N" = ["R1", "C"] ∧
      example_two_reorders.nodes_map "_reshape_split_R2_N" = none ∧
      q.nodes_map "_reshape_split_R2_N" =
        some ⟨"_reshape_split_R2_N", ["I"], primitive_desc.reshape ⟨1, 12, 1, 1⟩⟩ ∧
      (q.dependencies "R2")[0]? = some "_reshape_split_R2_N" ∧
      q.users "_reshape_split_R2_N" = ["R2"] ∧
      q.dependencies "C" = ["N"] := by
  obtain ⟨q, _, hrun, h1, h2, h3, h4⟩ := run_node_first_user_keeps_original example_helpers
    example_two_reorders "N" "I" ⟨"N", ["I"], primitive_desc.reshape ⟨1, 12, 1, 1⟩⟩
    ⟨1, 12, 1, 1⟩ "R1" ["C", "R2"] (by decide) rfl (by decide) (by decide) (by decide)
    (by decide) (by decide) (by decide) (by decide) (by decide) (by decide)
  obtain ⟨a, b, c, d⟩ := h3 "R2" (by decide) (by decide)
  exact ⟨q, hrun (Or.inl (by decide)), h1, h2, a, b, c, d, h4 "C" (by decide) (by decide)⟩

end handle_reshape

end cldnn
